import Mathlib

/-!
# hdmi_simple_display: capture-buffer lifecycle and frame-upload pipeline

A shallow embedding of `hdmi_simple_display.cpp`.

Conventions of the embedding

* `uint32_t` values are natural numbers; where the program converts one to `int` the
  conversion is `to_int`, and `size_t` results that can exceed 64 bits are reduced modulo
  `2 ^ 64` (`size_t`).
* The `int` arguments and counters of `upload_texture_tiled` are natural numbers: the
  embedding covers the calls with non-negative arguments in which no 32-bit addition
  overflows (an overflow of a signed counter has no defined behaviour to embed).
* A `const unsigned char*` that is only read is a function from the byte offset to the
  byte found there; buffers the program owns and writes (`std::vector`, texture storage)
  are lists of bytes.
* Library calls (`memcpy`, `std::vector::resize`, `glTexSubImage2D`) are given by what they
  leave in memory, byte by byte.
* Loops whose counter advances by a computed stride take a fuel argument and return
  `none` when the fuel runs out.
* The capture planes are mapped with a length; `frame_reads` lists the byte ranges frame
  processing reads from them and `loop_iteration_checked` returns `none` for an iteration
  in which a read leaves the mapped planes.
-/

namespace HdmiDisplay

/-! ## Bytes and buffers -/

/-- One `unsigned char`. -/
abbrev Byte := Fin 256

/-- A buffer of `n` bytes whose byte at offset `i` is `f i`. -/
def buildBuf (n : Nat) (f : Nat → Byte) : List Byte := (List.range n).map f

/-- Reading a buffer through a pointer to its first byte. -/
def readBuf (buf : List Byte) : Nat → Byte := fun k => buf.getD k 0

/-- Pointer arithmetic on a read-only pointer: `src + off`. -/
def ptrAdd (src : Nat → Byte) (off : Nat) : Nat → Byte := fun k => src (off + k)

/-- `std::vector<unsigned char>::resize(n)`: keeps the first `n` bytes and
value-initialises (zero) any new ones. -/
def resize (v : List Byte) (n : Nat) : List Byte := buildBuf n (readBuf v)

/-- `memcpy(dst + off, src, n)` on a buffer `dst` the program owns. -/
def memcpy (dst : List Byte) (off : Nat) (src : Nat → Byte) (n : Nat) : List Byte :=
  buildBuf dst.length (fun i => if off ≤ i ∧ i < off + n then src (i - off) else readBuf dst i)

/-! ## Textures and `glTexSubImage2D` -/

/-- Pixel transfer formats the program uses. -/
inductive GLFormat where
  | GL_RED
  | GL_RG
  deriving DecidableEq, Repr

/-- Bytes per texel of a transfer format with `GL_UNSIGNED_BYTE` components. -/
def GLFormat.texelBytes : GLFormat → Nat
  | GLFormat.GL_RED => 1
  | GLFormat.GL_RG => 2

/-- A 2D texture (surface): `width * height` texels of `bpp` bytes, row-major. -/
structure Texture where
  width : Nat
  height : Nat
  bpp : Nat
  data : List Byte
  deriving DecidableEq, Repr

/-- The rectangle of one `glTexSubImage2D` call. -/
structure TexRect where
  xoffset : Nat
  yoffset : Nat
  width : Nat
  height : Nat
  deriving DecidableEq, Repr

/-- `glTexSubImage2D(GL_TEXTURE_2D, 0, xoffset, yoffset, width, height, format,
GL_UNSIGNED_BYTE, pixels)` with `GL_UNPACK_ALIGNMENT = 1`: the tightly packed
`width x height` block at `pixels` is written at `(xoffset, yoffset)`. A rectangle that
leaves the texture is rejected (`GL_INVALID_VALUE`) and writes nothing. -/
def glTexSubImage2D (tex : Texture) (xoffset yoffset width height : Nat)
    (format : GLFormat) (pixels : Nat → Byte) : Texture :=
  if xoffset + width ≤ tex.width ∧ yoffset + height ≤ tex.height ∧
      format.texelBytes = tex.bpp then
    { tex with data := buildBuf tex.data.length (fun i =>
        let r := i / tex.bpp / tex.width
        let c := i / tex.bpp % tex.width
        if xoffset ≤ c ∧ c < xoffset + width ∧ yoffset ≤ r ∧ r < yoffset + height then
          pixels (((r - yoffset) * width + (c - xoffset)) * tex.bpp + i % tex.bpp)
        else readBuf tex.data i) }
  else tex

/-! ## `upload_texture_tiled` (lines 127-158) -/

/-- State threaded through `upload_texture_tiled`: the bound texture, the function's
`static std::vector<unsigned char> tileBuf`, and the `glTexSubImage2D` calls issued so
far, oldest first. -/
structure UploadCtx where
  tex : Texture
  tileBuf : List Byte
  calls : List TexRect
  deriving DecidableEq, Repr

/-- The row loop `for (int row = 0; row < h; ++row) memcpy(dstRow, srcRow, w * bpp)`
that gathers tile `(x, y, w, h)` into `tileBuf`. -/
def copy_tile_rows (src : Nat → Byte) (srcW pixelSizePerTexel x y w h : Nat)
    (tileBuf : List Byte) : List Byte :=
  (List.range h).foldl (fun buf row =>
    memcpy buf (row * w * pixelSizePerTexel)
      (ptrAdd src ((y + row) * srcW * pixelSizePerTexel + x * pixelSizePerTexel))
      (w * pixelSizePerTexel)) tileBuf

/-- The column loop `for (int x = 0; x < srcW; x += tileW)` of one tile row. -/
def upload_texture_tiled_columns (format : GLFormat) (srcW : Nat) (src : Nat → Byte)
    (pixelSizePerTexel tileW y h : Nat) : Nat → Nat → UploadCtx → Option UploadCtx
  | 0, _, _ => none
  | fuel + 1, x, ctx =>
    if x < srcW then
      let w := min tileW (srcW - x)
      let buf := copy_tile_rows src srcW pixelSizePerTexel x y w h
        (resize ctx.tileBuf (h * w * pixelSizePerTexel))
      upload_texture_tiled_columns format srcW src pixelSizePerTexel tileW y h fuel (x + tileW)
        { tex := glTexSubImage2D ctx.tex x y w h format (readBuf buf)
          tileBuf := buf
          calls := ctx.calls ++ [⟨x, y, w, h⟩] }
    else some ctx

/-- The row loop `for (int y = 0; y < srcH; y += tileH)`. -/
def upload_texture_tiled_rows (format : GLFormat) (srcW srcH : Nat) (src : Nat → Byte)
    (maxTexSize pixelSizePerTexel tileW tileH fuelX : Nat) :
    Nat → Nat → UploadCtx → Option UploadCtx
  | 0, _, _ => none
  | fuel + 1, y, ctx =>
    if y < srcH then
      let h := min tileH (srcH - y)
      if srcW ≤ maxTexSize then
        upload_texture_tiled_rows format srcW srcH src maxTexSize pixelSizePerTexel tileW tileH
          fuelX fuel (y + tileH)
          { ctx with
            tex := glTexSubImage2D ctx.tex 0 y srcW h format
              (ptrAdd src (y * srcW * pixelSizePerTexel))
            calls := ctx.calls ++ [⟨0, y, srcW, h⟩] }
      else
        match upload_texture_tiled_columns format srcW src pixelSizePerTexel tileW y h
            fuelX 0 ctx with
        | none => none
        | some ctx1 =>
          upload_texture_tiled_rows format srcW srcH src maxTexSize pixelSizePerTexel tileW
            tileH fuelX fuel (y + tileH) ctx1
    else some ctx

/-- `upload_texture_tiled(format, tex, srcW, srcH, src, maxTexSize, pixelSizePerTexel)`.
`fuel` bounds the number of times each loop may test its condition. -/
def upload_texture_tiled (fuel : Nat) (format : GLFormat) (ctx : UploadCtx) (srcW srcH : Nat)
    (src : Nat → Byte) (maxTexSize pixelSizePerTexel : Nat) : Option UploadCtx :=
  let tileW := min srcW maxTexSize
  let tileH := min srcH maxTexSize
  upload_texture_tiled_rows format srcW srcH src maxTexSize pixelSizePerTexel tileW tileH
    fuel fuel 0 ctx

/-- One full-surface upload: `glTexSubImage2D(.., 0, 0, W, H, format, .., src)`. -/
def upload_full (format : GLFormat) (ctx : UploadCtx) (srcW srcH : Nat)
    (src : Nat → Byte) : UploadCtx :=
  { ctx with
    tex := glTexSubImage2D ctx.tex 0 0 srcW srcH format src
    calls := ctx.calls ++ [⟨0, 0, srcW, srcH⟩] }

/-! ## Specification predicates for the tiled upload -/

/-- The texture has the geometry `srcW x srcH x bpp`, holds the source byte at every
offset in `D`, and still holds the byte of `orig` at every other offset. -/
def TexHolds (srcW srcH bpp : Nat) (src : Nat → Byte) (orig : List Byte) (D : Nat → Prop)
    (tex : Texture) : Prop :=
  tex.width = srcW ∧ tex.height = srcH ∧ tex.bpp = bpp ∧
  tex.data.length = srcW * srcH * bpp ∧
  ∀ i, i < srcW * srcH * bpp →
    (D i → readBuf tex.data i = src i) ∧ (¬ D i → readBuf tex.data i = readBuf orig i)

/-- The rectangle is a non-empty tile of at most `M x M` texels inside a `W x H` plane. -/
def TileOk (W H M : Nat) (r : TexRect) : Prop :=
  1 ≤ r.width ∧ r.width ≤ M ∧ 1 ≤ r.height ∧ r.height ≤ M ∧
  r.xoffset + r.width ≤ W ∧ r.yoffset + r.height ≤ H

/-! ## Upload dispatch in `main` (lines 656-663, 700-707, 709-716) -/

/-- The dispatch `if (w <= gl_max_tex && h <= gl_max_tex) glTexSubImage2D(.., 0, 0, w, h, ..)
else upload_texture_tiled(format, tex, w, h, pixels, gl_max_tex, bpp)` that `main` uses for
the luma plane and for both chroma paths. -/
def upload_plane (fuel : Nat) (format : GLFormat) (ctx : UploadCtx) (w h : Nat)
    (pixels : Nat → Byte) (gl_max_tex pixelSizePerTexel : Nat) : Option UploadCtx :=
  if w ≤ gl_max_tex ∧ h ≤ gl_max_tex then
    some (upload_full format ctx w h pixels)
  else
    upload_texture_tiled fuel format ctx w h pixels gl_max_tex pixelSizePerTexel

/-! ## Pixel formats and integer conversions -/

/-- `v4l2_fourcc(a, b, c, d)` of `linux/videodev2.h`: `a | (b << 8) | (c << 16) | (d << 24)`
for four 8-bit character codes. -/
def v4l2_fourcc (a b c d : Char) : Nat :=
  a.toNat + b.toNat * 2 ^ 8 + c.toNat * 2 ^ 16 + d.toNat * 2 ^ 24

/-- `V4L2_PIX_FMT_NV12`: Y plane followed by interleaved Cb/Cr at half resolution. -/
def V4L2_PIX_FMT_NV12 : Nat := v4l2_fourcc 'N' 'V' '1' '2'

/-- `V4L2_PIX_FMT_NV21`: as NV12 with Cr/Cb order. -/
def V4L2_PIX_FMT_NV21 : Nat := v4l2_fourcc 'N' 'V' '2' '1'

/-- `V4L2_PIX_FMT_NV24`: interleaved chroma at full resolution (requested at startup). -/
def V4L2_PIX_FMT_NV24 : Nat := v4l2_fourcc 'N' 'V' '2' '4'

/-- The conversion `(int)u` of a `uint32_t` value: two's complement reinterpretation. -/
def to_int (u : Nat) : Int :=
  if u % 2 ^ 32 < 2 ^ 31 then ((u % 2 ^ 32 : Nat) : Int) else ((u % 2 ^ 32 : Nat) : Int) - 2 ^ 32

/-- Reduction of a `size_t` result (64-bit). -/
def size_t (n : Nat) : Nat := n % 2 ^ 64

/-- The test `cur_pixfmt == V4L2_PIX_FMT_NV12 || cur_pixfmt == V4L2_PIX_FMT_NV21`. -/
def isNV12_NV21 (cur_pixfmt : Nat) : Bool :=
  cur_pixfmt == V4L2_PIX_FMT_NV12 || cur_pixfmt == V4L2_PIX_FMT_NV21

/-- The expression `(NV12 || NV21) ? (int)(cur_width/2) : (int)cur_width` that gives
`uv_w` at startup (line 484), at adoption (lines 564, 592) and `upload_w` (line 668). -/
def uv_w_for (cur_pixfmt cur_width : Nat) : Int :=
  if isNV12_NV21 cur_pixfmt then to_int (cur_width / 2) else to_int cur_width

/-- The expression `(NV12 || NV21) ? (int)(cur_height/2) : (int)cur_height` that gives
`uv_h` at startup (line 485), at adoption (lines 565, 593) and `upload_h` (line 669). -/
def uv_h_for (cur_pixfmt cur_height : Nat) : Int :=
  if isNV12_NV21 cur_pixfmt then to_int (cur_height / 2) else to_int cur_height

/-! ## Plane layout of a dequeued buffer (lines 629-652) -/

/-- `struct PlaneMap { void* addr; size_t length; }`: one mapped plane. Address `0` is
`nullptr`. -/
structure PlaneMap where
  addr : Nat
  length : Nat
  deriving DecidableEq, Repr, Inhabited

/-- `Y_len = (size_t)cur_width * (size_t)cur_height`. -/
def Y_len (cur_width cur_height : Nat) : Nat := size_t (cur_width * cur_height)

/-- `UV_len`: `cur_width * (cur_height / 2)` for NV12/NV21, `cur_width * cur_height * 2`
otherwise. -/
def UV_len (cur_pixfmt cur_width cur_height : Nat) : Nat :=
  if isNV12_NV21 cur_pixfmt then size_t (cur_width * (cur_height / 2))
  else size_t (size_t (cur_width * cur_height) * 2)

/-- `total_expected = Y_len + UV_len`. -/
def total_expected (cur_pixfmt cur_width cur_height : Nat) : Nat :=
  size_t (Y_len cur_width cur_height + UV_len cur_pixfmt cur_width cur_height)

/-- The pointers `ybase` and `uvbase` chosen for a frame; `0` is `nullptr`. -/
structure PlanePtrs where
  ybase : Nat
  uvbase : Nat
  deriving DecidableEq, Repr

/-- The decision of lines 629-652. `buffers` is the pool of mapped planes, `buf_index` and
`buf_length` are `buf.index` and `buf.length` of the dequeued buffer, `bytesused0` is
`planes[0].bytesused`. -/
def plane_layout (buffers : List (List PlaneMap)) (buf_index buf_length bytesused0 : Nat)
    (cur_pixfmt cur_width cur_height : Nat) : PlanePtrs :=
  let slot := buffers.getD buf_index []
  let base := (slot.getD 0 default).addr
  if buf_length ≥ 2 ∧ slot.length ≥ 2 then
    { ybase := (slot.getD 0 default).addr, uvbase := (slot.getD 1 default).addr }
  else if bytesused0 ≥ total_expected cur_pixfmt cur_width cur_height then
    { ybase := base, uvbase := base + Y_len cur_width cur_height }
  else
    { ybase := base, uvbase := 0 }

/-- The chroma-plane byte size `UV_len` computes, before reduction to `size_t`: rows of
`cur_width` bytes, one per two luma rows, for NV12/NV21; two bytes per pixel otherwise. -/
def chroma_plane_bytes (cur_pixfmt cur_width cur_height : Nat) : Nat :=
  if isNV12_NV21 cur_pixfmt then cur_width * (cur_height / 2)
  else 2 * (cur_width * cur_height)

/-- Chroma-plane byte size in the words of the specification: two bytes per chroma sample,
at half resolution in both dimensions for NV12/NV21 and at full resolution otherwise. -/
def spec_chroma_size (cur_pixfmt cur_width cur_height : Nat) : Nat :=
  if isNV12_NV21 cur_pixfmt then 2 * ((cur_width / 2) * (cur_height / 2))
  else 2 * (cur_width * cur_height)

/-! ## CPU chroma swap (lines 671-698) and packed fallback (lines 718-730) -/

/-- The assignment `dst[i] = b` into a buffer the program owns. -/
def store (dst : List Byte) (i : Nat) (b : Byte) : List Byte := dst.set i b

/-- The CPU swap of lines 672-698: `tmpUVbuf` is grown to `need` bytes if shorter, then
every chroma pair of the `upload_w x upload_h` plane at `uvbase` is written to it with its
two bytes exchanged. Source rows are `cur_width` bytes apart in the NV12/NV21 loop and
`upload_w * 2` bytes apart in the other loop; destination rows are `upload_w * 2` bytes
apart. The result is the new `tmpUVbuf`. -/
def cpu_uv_swap (nv : Bool) (cur_width upload_w upload_h : Nat) (uvbase : Nat → Byte)
    (tmpUVbuf : List Byte) : List Byte :=
  let need := upload_w * upload_h * 2
  let buf := if tmpUVbuf.length < need then resize tmpUVbuf need else tmpUVbuf
  if nv then
    (List.range upload_h).foldl (fun dst y =>
      (List.range upload_w).foldl (fun dst x =>
        let v := uvbase (y * cur_width + (x * 2 + 0))
        let u := uvbase (y * cur_width + (x * 2 + 1))
        store (store dst (y * upload_w * 2 + (x * 2 + 0)) u)
          (y * upload_w * 2 + (x * 2 + 1)) v) dst) buf
  else
    (List.range upload_h).foldl (fun dst y =>
      (List.range upload_w).foldl (fun dst x =>
        let v := uvbase (y * upload_w * 2 + (x * 2 + 0))
        let u := uvbase (y * upload_w * 2 + (x * 2 + 1))
        store (store dst (y * upload_w * 2 + (x * 2 + 0)) u)
          (y * upload_w * 2 + (x * 2 + 1)) v) dst) buf

/-- The packed fallback copy of lines 720-728: `tmpFallback` is grown to
`Y_len + cur_width * cur_height * 2` bytes if shorter, then the loop
`for (i = 0, j = 0; i < cur_width * cur_height; ++i) { dst[j++] = src[i*3+0];
dst[j++] = src[i*3+1]; dst[j++] = src[i*3+2]; }` runs. The result is the new
`tmpFallback`. -/
def packed_fallback (cur_width cur_height : Nat) (src : Nat → Byte)
    (tmpFallback : List Byte) : List Byte :=
  let need := size_t (Y_len cur_width cur_height + size_t (size_t (cur_width * cur_height) * 2))
  let buf := if tmpFallback.length < need then resize tmpFallback need else tmpFallback
  ((List.range (size_t (cur_width * cur_height))).foldl (fun (p : List Byte × Nat) i =>
    let dst := store p.1 p.2 (src (i * 3 + 0))
    let dst := store dst (p.2 + 1) (src (i * 3 + 1))
    let dst := store dst (p.2 + 2) (src (i * 3 + 2))
    (dst, p.2 + 3)) (buf, 0)).1

/-- The luma scratch pointer `tmpY = dst` of the packed fallback. -/
def fallback_tmpY (tmpFallback : List Byte) : Nat → Byte := readBuf tmpFallback

/-- The chroma scratch pointer `tmpUV = dst + Y_len` of the packed fallback. -/
def fallback_tmpUV (cur_width cur_height : Nat) (tmpFallback : List Byte) : Nat → Byte :=
  ptrAdd (readBuf tmpFallback) (Y_len cur_width cur_height)

/-! ## The capture/render loop of `main` (lines 483-785)

The loop is modelled as a function from the answers the device, GL and SDL give during one
iteration to the next state. External calls are recorded in `calls` with their arguments;
a data pointer is recorded as the bytes readable through it. The value of the shader
program's `uv_swap` uniform is tracked in `shader_uv_swap`: uniform locations of different
uniforms differ, so only `glUniform1i(loc_uv_swap, ..)` writes it. -/

/-- Command-line options (lines 36-40). -/
structure Options where
  opt_auto_resize_window : Bool
  opt_cpu_uv_swap : Bool
  opt_uv_swap_override : Int
  opt_full_range : Int
  opt_use_bt709 : Int

/-- Values fixed once `main` has mapped the buffers and created the GL program. -/
structure Env where
  buffers : List (List PlaneMap)
  gl_max_tex : Int
  loc_texY : Int
  loc_texUV : Int
  loc_uv_swap : Int
  loc_use_bt709 : Int
  loc_full_range : Int
  loc_view_mode : Int

/-- The two textures `texY` and `texUV`. -/
inductive TexId where
  | texY
  | texUV
  deriving DecidableEq, Repr

/-- External calls the loop issues. -/
inductive Call where
  | reallocate_textures (newW newH uvW uvH : Int)
  | SDL_SetWindowSize (w h : Int)
  | glUniform1i (loc v : Int)
  | glTexSubImage2D (tex : TexId) (xoffset yoffset width height : Int) (format : GLFormat)
      (pixels : Nat → Byte)
  | upload_texture_tiled (format : GLFormat) (tex : TexId) (srcW srcH : Int)
      (src : Nat → Byte) (maxTexSize pixelSizePerTexel : Int)
  | glDrawArrays
  | SDL_GL_SwapWindow
  | VIDIOC_QBUF (index : Nat)
  | SDL_SetWindowFullscreen (fullscreen_desktop : Bool)

/-- The local variables of `main` that live across loop iterations. -/
structure LoopState where
  cur_width : Nat
  cur_height : Nat
  cur_pixfmt : Nat
  uv_w : Int
  uv_h : Int
  uv_swap : Int
  shader_uv_swap : Int
  frame_count : Nat
  running : Bool
  is_fullscreen : Bool
  tmpUVbuf : List Byte
  tmpFallback : List Byte
  calls : List Call

/-- `CHECK_FMT_INTERVAL` (line 529). -/
def CHECK_FMT_INTERVAL : Nat := 120

/-- The initial swap toggle (lines 500-518). -/
def initial_uv_swap (opts : Options) (cur_pixfmt : Nat) : Int :=
  let uv_swap : Int :=
    if opts.opt_uv_swap_override ≥ 0 then opts.opt_uv_swap_override
    else if cur_pixfmt = V4L2_PIX_FMT_NV21 then 1
    else if cur_pixfmt = V4L2_PIX_FMT_NV12 then 0
    else 0
  if opts.opt_cpu_uv_swap then 0 else uv_swap

/-- Issue `glUniform1i(loc, v)` when `loc >= 0`. -/
def uniform_if (loc v : Int) : List Call :=
  if loc ≥ 0 then [Call.glUniform1i loc v] else []

/-- The state on entry to the loop (lines 483-542) for the format found at startup. -/
def initial_state (opts : Options) (env : Env) (cur_width cur_height cur_pixfmt : Nat) :
    LoopState :=
  let uv_w := uv_w_for cur_pixfmt cur_width
  let uv_h := uv_h_for cur_pixfmt cur_height
  let uv_swap := initial_uv_swap opts cur_pixfmt
  { cur_width := cur_width
    cur_height := cur_height
    cur_pixfmt := cur_pixfmt
    uv_w := uv_w
    uv_h := uv_h
    uv_swap := uv_swap
    shader_uv_swap := if env.loc_uv_swap ≥ 0 then uv_swap else 0
    frame_count := 0
    running := true
    is_fullscreen := true
    tmpUVbuf := []
    tmpFallback := []
    calls := [Call.reallocate_textures (to_int cur_width) (to_int cur_height) uv_w uv_h] ++
      uniform_if env.loc_texY 0 ++
      uniform_if env.loc_texUV 1 ++
      uniform_if env.loc_uv_swap uv_swap ++
      uniform_if env.loc_use_bt709 opts.opt_use_bt709 ++
      uniform_if env.loc_full_range opts.opt_full_range ++
      uniform_if env.loc_view_mode 0 }

/-- The format check after a source-change event (lines 560-577), for the format
`(new_w, new_h, new_pf)` that `get_v4l2_format` returned. -/
def format_check_event (opts : Options) (env : Env) (new_w new_h new_pf : Nat)
    (st : LoopState) : LoopState :=
  if new_w ≠ st.cur_width ∨ new_h ≠ st.cur_height ∨ new_pf ≠ st.cur_pixfmt then
    let uv_w := uv_w_for new_pf new_w
    let uv_h := uv_h_for new_pf new_h
    let st1 := { st with
      cur_width := new_w, cur_height := new_h, cur_pixfmt := new_pf, uv_w := uv_w, uv_h := uv_h
      calls := st.calls ++ [Call.reallocate_textures (to_int new_w) (to_int new_h) uv_w uv_h] }
    let st2 := if opts.opt_auto_resize_window then
        { st1 with calls := st1.calls ++ [Call.SDL_SetWindowSize (to_int new_w) (to_int new_h)] }
      else st1
    if opts.opt_uv_swap_override < 0 ∧ ¬ opts.opt_cpu_uv_swap then
      let old_uv := st2.uv_swap
      let uv_swap : Int :=
        if new_pf = V4L2_PIX_FMT_NV21 then 1
        else if new_pf = V4L2_PIX_FMT_NV12 then 0
        else old_uv
      if uv_swap ≠ old_uv ∧ env.loc_uv_swap ≥ 0 then
        { st2 with
          uv_swap := uv_swap, shader_uv_swap := uv_swap
          calls := st2.calls ++ [Call.glUniform1i env.loc_uv_swap uv_swap] }
      else { st2 with uv_swap := uv_swap }
    else st2
  else st

/-- The periodic format check (lines 588-605), for the format `(new_w, new_h, new_pf)`
that `get_v4l2_format` returned. -/
def format_check_periodic (opts : Options) (env : Env) (new_w new_h new_pf : Nat)
    (st : LoopState) : LoopState :=
  if new_w ≠ st.cur_width ∨ new_h ≠ st.cur_height ∨ new_pf ≠ st.cur_pixfmt then
    let uv_w := uv_w_for new_pf new_w
    let uv_h := uv_h_for new_pf new_h
    let st1 := { st with
      cur_width := new_w, cur_height := new_h, cur_pixfmt := new_pf, uv_w := uv_w, uv_h := uv_h
      calls := st.calls ++ [Call.reallocate_textures (to_int new_w) (to_int new_h) uv_w uv_h] }
    let st2 := if opts.opt_auto_resize_window then
        { st1 with calls := st1.calls ++ [Call.SDL_SetWindowSize (to_int new_w) (to_int new_h)] }
      else st1
    if opts.opt_uv_swap_override < 0 ∧ ¬ opts.opt_cpu_uv_swap then
      let old_uv := st2.uv_swap
      let uv_swap : Int :=
        if new_pf = V4L2_PIX_FMT_NV21 then 1
        else if new_pf = V4L2_PIX_FMT_NV12 then 0
        else old_uv
      if uv_swap ≠ old_uv ∧ env.loc_uv_swap ≥ 0 then
        { st2 with
          uv_swap := uv_swap, shader_uv_swap := uv_swap
          calls := st2.calls ++ [Call.glUniform1i env.loc_uv_swap uv_swap] }
      else { st2 with uv_swap := uv_swap }
    else st2
  else st

/-- A format returned by a successful `get_v4l2_format`. -/
structure Fmt where
  width : Nat
  height : Nat
  pixelformat : Nat
  deriving DecidableEq, Repr

/-- One event dequeued by `VIDIOC_DQEVENT`: whether its type is
`V4L2_EVENT_SOURCE_CHANGE`, and what `get_v4l2_format` answers if it is then called
(`none` when the query fails). -/
structure V4L2Event where
  source_change : Bool
  fmt : Option Fmt

/-- The drain loop `while (ioctl(fd, VIDIOC_DQEVENT, &ev) == 0)` (lines 556-580) over the
events the device hands out before it reports an empty queue. -/
def drain_events (opts : Options) (env : Env) (events : List V4L2Event) (st : LoopState) :
    LoopState :=
  events.foldl (fun st ev =>
    if ev.source_change then
      match ev.fmt with
      | some f => format_check_event opts env f.width f.height f.pixelformat st
      | none => st
    else st) st

/-- What `poll` returned (lines 546-553). -/
inductive PollResult where
  | eintr
  | error
  | timeout
  | ready (pollpri : Bool)

/-- What `VIDIOC_DQBUF` returned (lines 619-627). -/
inductive DqbufResult where
  | again
  | error
  | ok (index length bytesused0 : Nat)

/-- SDL input seen by the loop (lines 765-782); `key_f` carries whether the window flags
contain `SDL_WINDOW_FULLSCREEN_DESKTOP`. -/
inductive SDLEvent where
  | quit
  | key_escape
  | key_f (fullscreen_desktop : Bool)
  | other

/-- The answers of the outside world during one loop iteration. -/
structure IterInput where
  poll : PollResult
  events : List V4L2Event
  periodic_fmt : Option Fmt
  dqbuf : DqbufResult
  mem : Nat → Byte
  requeue_ok : Bool
  sdl_events : List SDLEvent

/-- The dispatch of lines 656-663, 700-707 and 709-716 (the one `upload_plane` gives on
textures) as recorded calls with their `int` arguments. -/
def upload_calls (env : Env) (format : GLFormat) (tex : TexId) (w h : Int)
    (pixels : Nat → Byte) (pixelSizePerTexel : Int) : List Call :=
  if w ≤ env.gl_max_tex ∧ h ≤ env.gl_max_tex then
    [Call.glTexSubImage2D tex 0 0 w h format pixels]
  else
    [Call.upload_texture_tiled format tex w h pixels env.gl_max_tex pixelSizePerTexel]

/-- Luma upload, chroma upload or packed fallback for one dequeued buffer
(lines 629-737), for a frame whose bytes can all be read through `mem`; which bytes of
the mapped planes are read is given by `frame_reads`, and `upload_frame_checked` fails
when one of them lies outside the planes. -/
def upload_frame (opts : Options) (env : Env) (mem : Nat → Byte)
    (index length bytesused0 : Nat) (st : LoopState) : LoopState :=
  let base := ((env.buffers.getD index []).getD 0 default).addr
  let p := plane_layout env.buffers index length bytesused0 st.cur_pixfmt st.cur_width
    st.cur_height
  let st1 := if p.ybase ≠ 0 then
      { st with
        calls := st.calls ++ (upload_calls env GLFormat.GL_RED TexId.texY
          (to_int st.cur_width) (to_int st.cur_height) (ptrAdd mem p.ybase) 1) }
    else st
  if p.uvbase ≠ 0 then
    let upload_w := uv_w_for st1.cur_pixfmt st1.cur_width
    let upload_h := uv_h_for st1.cur_pixfmt st1.cur_height
    if opts.opt_cpu_uv_swap ∧ st1.cur_pixfmt = V4L2_PIX_FMT_NV21 then
      let tmp := cpu_uv_swap (isNV12_NV21 st1.cur_pixfmt) st1.cur_width upload_w.toNat
        upload_h.toNat (ptrAdd mem p.uvbase) st1.tmpUVbuf
      { st1 with
        tmpUVbuf := tmp
        calls := st1.calls ++
          (upload_calls env GLFormat.GL_RG TexId.texUV upload_w upload_h (readBuf tmp) 2) }
    else
      { st1 with
        calls := st1.calls ++
          (upload_calls env GLFormat.GL_RG TexId.texUV upload_w upload_h
            (ptrAdd mem p.uvbase) 2) }
  else
    let tmp := packed_fallback st1.cur_width st1.cur_height (ptrAdd mem base) st1.tmpFallback
    { st1 with
      tmpFallback := tmp
      calls := st1.calls ++
        [Call.glTexSubImage2D TexId.texY 0 0 (to_int st1.cur_width) (to_int st1.cur_height)
            GLFormat.GL_RED (fallback_tmpY tmp),
          Call.glTexSubImage2D TexId.texUV 0 0 (to_int st1.cur_width) (to_int st1.cur_height)
            GLFormat.GL_RG (fallback_tmpUV st1.cur_width st1.cur_height tmp)] }

/-- The draw of lines 739-755. -/
def draw_frame (opts : Options) (env : Env) (st : LoopState) : LoopState :=
  let st1 := if ¬ opts.opt_cpu_uv_swap ∧ env.loc_uv_swap ≥ 0 then
      { st with
        shader_uv_swap := st.uv_swap
        calls := st.calls ++ [Call.glUniform1i env.loc_uv_swap st.uv_swap] }
    else st
  { st1 with
    calls := st1.calls ++ (uniform_if env.loc_use_bt709 opts.opt_use_bt709 ++
      uniform_if env.loc_full_range opts.opt_full_range ++
      [Call.glDrawArrays, Call.SDL_GL_SwapWindow]) }

/-- The SDL event loop of lines 764-782. -/
def handle_sdl_events (events : List SDLEvent) (st : LoopState) : LoopState :=
  events.foldl (fun st e =>
    match e with
    | SDLEvent.quit => { st with running := false }
    | SDLEvent.key_escape => { st with running := false }
    | SDLEvent.key_f fullscreen_desktop =>
      if fullscreen_desktop then
        { st with
          is_fullscreen := false
          calls := st.calls ++ [Call.SDL_SetWindowFullscreen false] }
      else
        { st with
          is_fullscreen := true
          calls := st.calls ++ [Call.SDL_SetWindowFullscreen true] }
    | SDLEvent.other => st) st

/-- One pass through the body of `while (running)` (lines 545-784). The second component
is `true` when the body left the loop through `break`. Frame processing is taken to
complete; `loop_iteration_checked` is the pass with the reads of the mapped planes
checked. -/
def loop_iteration (opts : Options) (env : Env) (inp : IterInput) (st : LoopState) :
    LoopState × Bool :=
  match inp.poll with
  | PollResult.eintr => (st, false)
  | PollResult.error => (st, true)
  | poll =>
    let st1 := match poll with
      | PollResult.ready true => drain_events opts env inp.events st
      | _ => st
    let st2 := if st1.frame_count % CHECK_FMT_INTERVAL = 0 then
        match inp.periodic_fmt with
        | some f => format_check_periodic opts env f.width f.height f.pixelformat st1
        | none => st1
      else st1
    match inp.dqbuf with
    | DqbufResult.again => ({ st2 with frame_count := (st2.frame_count + 1) % 2 ^ 64 }, false)
    | DqbufResult.error => (st2, true)
    | DqbufResult.ok index length bytesused0 =>
      let st3 := upload_frame opts env inp.mem index length bytesused0 st2
      let st4 := draw_frame opts env st3
      if inp.requeue_ok then
        let st5 := { st4 with calls := st4.calls ++ [Call.VIDIOC_QBUF index] }
        let st6 := handle_sdl_events inp.sdl_events st5
        ({ st6 with frame_count := (st6.frame_count + 1) % 2 ^ 64 }, false)
      else (st4, true)

/-- The loop `while (running) { .. }` over the iterations for which the outside world
has answers: it stops at the first `break` or when `running` is false. -/
def run_loop (opts : Options) (env : Env) : List IterInput → LoopState → LoopState
  | [], st => st
  | inp :: rest, st =>
    if st.running then
      match loop_iteration opts env inp st with
      | (st1, true) => st1
      | (st1, false) => run_loop opts env rest st1
    else st

/-- The size of the chroma rectangle a recorded call uploads to `texUV`, if it is one. -/
def Call.chroma_dims : Call → Option (Int × Int)
  | Call.glTexSubImage2D TexId.texUV _ _ w h _ _ => some (w, h)
  | Call.upload_texture_tiled _ TexId.texUV w h _ _ _ => some (w, h)
  | _ => none

/-- Chroma dimensions in the words of the specification: `(width / 2, height / 2)` with
integer division for NV12/NV21, `(width, height)` for every other pixel format. -/
def spec_chroma_dims (cur_pixfmt cur_width cur_height : Nat) : Int × Int :=
  if cur_pixfmt = V4L2_PIX_FMT_NV12 ∨ cur_pixfmt = V4L2_PIX_FMT_NV21 then
    (((cur_width / 2 : Nat) : Int), ((cur_height / 2 : Nat) : Int))
  else ((cur_width : Int), (cur_height : Int))

/-- Swap default in the words of the specification: 1 for NV21, 0 for NV12 and for every
unrecognised pixel format. -/
def spec_swap_default (cur_pixfmt : Nat) : Int :=
  if cur_pixfmt = V4L2_PIX_FMT_NV21 then 1 else 0

/-! ## Sample configurations -/

/-- The option values the program starts with when no command-line option is given
(lines 36-40): swap override on auto, CPU-side swap off. -/
def default_options : Options :=
  { opt_auto_resize_window := false
    opt_cpu_uv_swap := false
    opt_uv_swap_override := -1
    opt_full_range := 0
    opt_use_bt709 := 1 }

/-- The options of `--cpu-uv-swap --uv-swap=1`. -/
def cpu_swap_options : Options :=
  { opt_auto_resize_window := false
    opt_cpu_uv_swap := true
    opt_uv_swap_override := 1
    opt_full_range := 0
    opt_use_bt709 := 1 }

/-- A pool of one single-plane buffer, a maximum texture size of 16384 and a shader
program in which all six uniforms are active. -/
def sample_env : Env :=
  { buffers := [[{ addr := 4096, length := 4147200 }]]
    gl_max_tex := 16384
    loc_texY := 0
    loc_texUV := 1
    loc_uv_swap := 2
    loc_use_bt709 := 3
    loc_full_range := 4
    loc_view_mode := 5 }

/-! ## Auxiliary forms of the swap loops -/

/-- The inner loop of the CPU swap for one row: source row at offset `soff`, destination
row at offset `doff`, first `n` chroma pairs. -/
def swap_row (src : Nat → Byte) (soff doff n : Nat) (dst : List Byte) : List Byte :=
  (List.range n).foldl (fun dst x =>
    store (store dst (doff + (x * 2 + 0)) (src (soff + (x * 2 + 1))))
      (doff + (x * 2 + 1)) (src (soff + (x * 2 + 0)))) dst

/-- The outer loop of the CPU swap over the first `n` rows, with source rows `stride`
bytes apart. -/
def swap_rows (src : Nat → Byte) (stride upload_w n : Nat) (dst : List Byte) : List Byte :=
  (List.range n).foldl (fun dst y => swap_row src (y * stride) (y * upload_w * 2) upload_w dst)
    dst

/-- The loop of the packed fallback over the first `n` pixels, with its two running
variables: the destination buffer and the index `j`. -/
def packed_loop (src : Nat → Byte) (n : Nat) (buf : List Byte) : List Byte × Nat :=
  (List.range n).foldl (fun (p : List Byte × Nat) i =>
    let dst := store p.1 p.2 (src (i * 3 + 0))
    let dst := store dst (p.2 + 1) (src (i * 3 + 1))
    let dst := store dst (p.2 + 2) (src (i * 3 + 2))
    (dst, p.2 + 3)) (buf, 0)

/-! ## Loop control: where an iteration stands when it attempts the dequeue -/

/-- The state in which an iteration whose `poll` did not fail attempts `VIDIOC_DQBUF`
(line 619): pending source-change events drained (lines 554-581) and the periodic format
check done (lines 584-607). -/
def state_before_dequeue (opts : Options) (env : Env) (inp : IterInput) (st : LoopState) :
    LoopState :=
  let st1 := match inp.poll with
    | PollResult.ready true => drain_events opts env inp.events st
    | _ => st
  if st1.frame_count % CHECK_FMT_INTERVAL = 0 then
    match inp.periodic_fmt with
    | some f => format_check_periodic opts env f.width f.height f.pixelformat st1
    | none => st1
  else st1

/-- The loop is left after an iteration: the body ran into `break`, or it cleared
`running` so that the test of `while (running)` fails. -/
def loop_ends (r : LoopState × Bool) : Prop := r.2 = true ∨ r.1.running = false

/-- The input is a quit request: `SDL_QUIT` or a key-down of Escape. -/
def SDLEvent.is_quit : SDLEvent → Bool
  | SDLEvent.quit => true
  | SDLEvent.key_escape => true
  | _ => false

/-! ## Allocated and uploaded rectangles in the call trace -/

/-- The size of the luma rectangle a recorded call uploads to `texY`, if it is one. -/
def Call.luma_dims : Call → Option (Int × Int)
  | Call.glTexSubImage2D TexId.texY _ _ w h _ _ => some (w, h)
  | Call.upload_texture_tiled _ TexId.texY w h _ _ _ => some (w, h)
  | _ => none

/-- The luma and chroma sizes a recorded `reallocate_textures` call allocates
(`glTexImage2D` of `texY` with `newW x newH` and of `texUV` with `uvW x uvH`,
lines 116-124). -/
def Call.alloc : Call → Option ((Int × Int) × (Int × Int))
  | Call.reallocate_textures newW newH uvW uvH => some ((newW, newH), (uvW, uvH))
  | _ => none

/-- The sizes of the two surfaces as last set by `reallocate_textures` in a trace. -/
def allocated (calls : List Call) : Option ((Int × Int) × (Int × Int)) :=
  calls.foldl (fun acc c =>
    match c.alloc with
    | some a => some a
    | none => acc) none

/-- The surfaces are allocated for the adopted format: the last `reallocate_textures` of
the trace was called with the adopted width and height and the chroma size the program
computes from the adopted format. -/
def AllocMatches (st : LoopState) : Prop :=
  allocated st.calls =
    some ((to_int st.cur_width, to_int st.cur_height),
      (uv_w_for st.cur_pixfmt st.cur_width, uv_h_for st.cur_pixfmt st.cur_height))

/-! ## Buffer mapping, early exits and teardown (lines 336-440 and 787-802)

The part of `main` that maps the buffers, initialises SDL, GL and the shaders, runs the
loop and tears down, as a function of the answers of the outside world. Only the calls
that concern the mappings and the device handle are recorded. -/

/-- Calls on the mappings and the device handle. -/
inductive MemCall where
  | mmap (addr length : Nat)
  | munmap (addr length : Nat)
  | close
  deriving DecidableEq, Repr

/-- One plane of a queried buffer: the length `VIDIOC_QUERYBUF` reports and what `mmap`
returns for it (`none` is `MAP_FAILED`). -/
structure PlaneAnswer where
  length : Nat
  mmap_result : Option Nat
  deriving DecidableEq, Repr

/-- One buffer: the planes `VIDIOC_QUERYBUF` reports (`none` when the ioctl fails) and
whether the following `VIDIOC_QBUF` succeeds. -/
structure BufferAnswer where
  querybuf : Option (List PlaneAnswer)
  qbuf_ok : Bool
  deriving DecidableEq, Repr

/-- The answers that decide which exit `main` takes once `VIDIOC_REQBUFS` has
succeeded; `buffers` has one entry per requested buffer. `program_ok` is false when
`createShaderProgram` ends the process through `exit(EXIT_FAILURE)`. -/
structure StartupAnswers where
  buffers : List BufferAnswer
  streamon_ok : Bool
  sdl_init_ok : Bool
  window_ok : Bool
  gl_context_ok : Bool
  glew_ok : Bool
  vert_shader_found : Bool
  frag_shader_found : Bool
  program_ok : Bool
  deriving DecidableEq, Repr

/-- The plane loop of lines 354-362: every plane is mapped in turn; the first `MAP_FAILED`
stops with failure. The result is the planes mapped, the calls and whether all succeeded. -/
def map_planes : List PlaneAnswer → List PlaneMap → List MemCall →
    List PlaneMap × List MemCall × Bool
  | [], mapped, calls => (mapped, calls, true)
  | p :: rest, mapped, calls =>
    match p.mmap_result with
    | none => (mapped, calls, false)
    | some addr =>
      map_planes rest (mapped ++ [{ addr := addr, length := p.length }])
        (calls ++ [MemCall.mmap addr p.length])

/-- The buffer loop of lines 338-368: query, map every plane, queue. -/
def map_buffers : List BufferAnswer → List (List PlaneMap) → List MemCall →
    List (List PlaneMap) × List MemCall × Bool
  | [], buffers, calls => (buffers, calls, true)
  | b :: rest, buffers, calls =>
    match b.querybuf with
    | none => (buffers, calls, false)
    | some planes =>
      match map_planes planes [] calls with
      | (mapped, calls1, false) => (buffers ++ [mapped], calls1, false)
      | (mapped, calls1, true) =>
        if b.qbuf_ok then map_buffers rest (buffers ++ [mapped]) calls1
        else (buffers ++ [mapped], calls1, false)

/-- The teardown loop of lines 797-799: `if (pm.addr && pm.length) munmap(pm.addr,
pm.length)` for every plane of every buffer. -/
def unmap_all (buffers : List (List PlaneMap)) : List MemCall :=
  buffers.flatten.filterMap (fun pm =>
    if pm.addr ≠ 0 ∧ pm.length ≠ 0 then some (MemCall.munmap pm.addr pm.length) else none)

/-- The calls `main` has issued on the mappings and the device handle when the process
ends, and its exit status. Every failure after `VIDIOC_REQBUFS` up to the shader lookup
runs `close(fd); return 1;`; a shader compile or link failure runs `exit(EXIT_FAILURE)`;
when the loop terminates the teardown of lines 787-802 runs. -/
def main_lifecycle (ans : StartupAnswers) : List MemCall × Nat :=
  match map_buffers ans.buffers [] [] with
  | (_, calls, false) => (calls ++ [MemCall.close], 1)
  | (buffers, calls, true) =>
    if ¬ ans.streamon_ok then (calls ++ [MemCall.close], 1)
    else if ¬ ans.sdl_init_ok then (calls ++ [MemCall.close], 1)
    else if ¬ ans.window_ok then (calls ++ [MemCall.close], 1)
    else if ¬ ans.gl_context_ok then (calls ++ [MemCall.close], 1)
    else if ¬ ans.glew_ok then (calls ++ [MemCall.close], 1)
    else if ¬ ans.vert_shader_found then (calls ++ [MemCall.close], 1)
    else if ¬ ans.frag_shader_found then (calls ++ [MemCall.close], 1)
    else if ¬ ans.program_ok then (calls, 1)
    else (calls ++ unmap_all buffers ++ [MemCall.close], 0)

/-- The `munmap` call that releases what an `mmap` call mapped. -/
def MemCall.release : MemCall → Option MemCall
  | MemCall.mmap addr length => some (MemCall.munmap addr length)
  | _ => none

/-! ## Where the chroma exchange happens -/

/-- The condition of line 671, `opt_cpu_uv_swap && cur_pixfmt == V4L2_PIX_FMT_NV21`,
under which a resolved chroma plane goes through the CPU swap before upload. -/
def cpu_exchange_performed (opts : Options) (cur_pixfmt : Nat) : Bool :=
  opts.opt_cpu_uv_swap && (cur_pixfmt == V4L2_PIX_FMT_NV21)

/-- The shader exchanges the chroma pair when its `uv_swap` uniform is set. -/
def shader_exchange (st : LoopState) : Bool := decide (st.shader_uv_swap ≠ 0)

/-- The net exchange applied to the chroma pairs of a frame that is drawn right after
startup on the given format: CPU exchange at upload XOR shader toggle at the draw. -/
def net_exchange (opts : Options) (env : Env) (cur_width cur_height cur_pixfmt : Nat) :
    Bool :=
  xor (cpu_exchange_performed opts cur_pixfmt)
    (shader_exchange (draw_frame opts env
      (initial_state opts env cur_width cur_height cur_pixfmt)))

/-- The options with CPU-side swap switched on or off. -/
def with_cpu_swap (opts : Options) (enabled : Bool) : Options :=
  { opts with opt_cpu_uv_swap := enabled }

/-- The bytes a recorded chroma upload reads: `width * height` two-byte texels, tightly
packed, at the data pointer. -/
def Call.chroma_upload : Call → Option (List Byte)
  | Call.glTexSubImage2D TexId.texUV _ _ w h _ pixels =>
    some (buildBuf (w.toNat * h.toNat * 2) pixels)
  | Call.upload_texture_tiled _ TexId.texUV w h src _ _ =>
    some (buildBuf (w.toNat * h.toNat * 2) src)
  | _ => none

/-- The chroma buffer the last recorded call uploads. -/
def uploaded_chroma (st : LoopState) : Option (List Byte) :=
  st.calls.getLast?.bind Call.chroma_upload

/-- A byte sequence with the two bytes of every pair exchanged and nothing else changed
(the words of the specification). -/
def exchange_pairs : List Byte → List Byte
  | a :: b :: rest => b :: a :: exchange_pairs rest
  | l => l

/-- A pool of one two-plane buffer: luma at address 4096, chroma at address 8192. -/
def two_plane_env : Env :=
  { buffers := [[{ addr := 4096, length := 12 }, { addr := 8192, length := 6 }]]
    gl_max_tex := 16384
    loc_texY := 0
    loc_texUV := 1
    loc_uv_swap := 2
    loc_use_bt709 := 3
    loc_full_range := 4
    loc_view_mode := 5 }

/-- Process memory in which the six bytes at address 8192 are `1 2 3 4 5 6`. -/
def sample_mem : Nat → Byte := fun a => readBuf [1, 2, 3, 4, 5, 6] (a - 8192)

/-! ## Reads of the mapped planes during frame processing

`upload_frame` and `loop_iteration` give what processing a dequeued buffer computes when
every byte it reads through the plane pointers can be read. The definitions below say
which bytes those are and make an iteration fail when one of them lies outside the mapped
planes. -/

/-- Whether the `len` bytes at address `a` can be read: nothing is read, or the range lies
inside one mapped plane `addr .. addr + length` of the pool. A read that leaves the plane
its pointer points into has no defined behaviour (on the device mappings the process is
killed by the fault). -/
def readable (buffers : List (List PlaneMap)) (a len : Nat) : Bool :=
  len == 0 || buffers.any (fun slot =>
    slot.any (fun p => decide (p.addr ≤ a ∧ a + len ≤ p.addr + p.length)))

/-- The byte ranges `(address, length)` that processing one dequeued buffer reads through
`ybase`, `uvbase` and `base` (lines 654-737), in program order:
* the luma upload (lines 656-663) hands `ybase` to GL for `(int)cur_width x
  (int)cur_height` texels of one byte, rows tightly packed (`GL_UNPACK_ALIGNMENT` 1);
* the CPU swap (lines 676-697) reads, for every chroma row `y`, the `upload_w * 2` bytes at
  `uvbase + y * cur_width` (NV12/NV21 loop) or `uvbase + y * upload_w * 2` (other loop);
* the chroma upload without CPU swap (lines 709-716) hands `uvbase` to GL for
  `upload_w x upload_h` texels of two bytes;
* the packed fallback (lines 723-727) reads `src[i*3 + 0 .. 2]` for every
  `i < cur_width * cur_height`, with `src = base`.
The uploads from `tmpUVbuf` and `tmpFallback` read vectors the program has sized itself
and are not listed. -/
def frame_reads (opts : Options) (env : Env) (index length bytesused0 : Nat)
    (st : LoopState) : List (Nat × Nat) :=
  let base := ((env.buffers.getD index []).getD 0 default).addr
  let p := plane_layout env.buffers index length bytesused0 st.cur_pixfmt st.cur_width
    st.cur_height
  let luma := if p.ybase ≠ 0 then
      [(p.ybase, (to_int st.cur_width).toNat * (to_int st.cur_height).toNat)]
    else []
  let chroma := if p.uvbase ≠ 0 then
      let upload_w := uv_w_for st.cur_pixfmt st.cur_width
      let upload_h := uv_h_for st.cur_pixfmt st.cur_height
      if opts.opt_cpu_uv_swap ∧ st.cur_pixfmt = V4L2_PIX_FMT_NV21 then
        (List.range upload_h.toNat).map (fun y =>
          (p.uvbase + y * (if isNV12_NV21 st.cur_pixfmt then st.cur_width
            else upload_w.toNat * 2), upload_w.toNat * 2))
      else [(p.uvbase, upload_w.toNat * upload_h.toNat * 2)]
    else [(base, size_t (st.cur_width * st.cur_height) * 3)]
  luma ++ chroma

/-- Processing of one dequeued buffer (lines 629-737) with its reads checked: `none` when
a range of `frame_reads` is not readable, the state `upload_frame` gives otherwise. -/
def upload_frame_checked (opts : Options) (env : Env) (mem : Nat → Byte)
    (index length bytesused0 : Nat) (st : LoopState) : Option LoopState :=
  if (frame_reads opts env index length bytesused0 st).all
      (fun r => readable env.buffers r.1 r.2) then
    some (upload_frame opts env mem index length bytesused0 st)
  else none

/-- One pass through the body of `while (running)` (lines 545-784) with the reads of the
mapped planes checked: `none` when frame processing reads outside them (the iteration
does not complete), otherwise the state after the pass and whether the body left the loop
through `break`. -/
def loop_iteration_checked (opts : Options) (env : Env) (inp : IterInput) (st : LoopState) :
    Option (LoopState × Bool) :=
  match inp.poll with
  | PollResult.eintr => some (st, false)
  | PollResult.error => some (st, true)
  | poll =>
    let st1 := match poll with
      | PollResult.ready true => drain_events opts env inp.events st
      | _ => st
    let st2 := if st1.frame_count % CHECK_FMT_INTERVAL = 0 then
        match inp.periodic_fmt with
        | some f => format_check_periodic opts env f.width f.height f.pixelformat st1
        | none => st1
      else st1
    match inp.dqbuf with
    | DqbufResult.again =>
      some ({ st2 with frame_count := (st2.frame_count + 1) % 2 ^ 64 }, false)
    | DqbufResult.error => some (st2, true)
    | DqbufResult.ok index length bytesused0 =>
      match upload_frame_checked opts env inp.mem index length bytesused0 st2 with
      | none => none
      | some st3 =>
        let st4 := draw_frame opts env st3
        if inp.requeue_ok then
          let st5 := { st4 with calls := st4.calls ++ [Call.VIDIOC_QBUF index] }
          let st6 := handle_sdl_events inp.sdl_events st5
          some ({ st6 with frame_count := (st6.frame_count + 1) % 2 ^ 64 }, false)
        else some (st4, true)

/-- The ranges an iteration reads from the mapped planes: those of `frame_reads` for the
buffer it dequeues, in the state in which it attempts the dequeue; none when the wait
fails or is interrupted or no buffer is dequeued. -/
def iteration_reads (opts : Options) (env : Env) (inp : IterInput) (st : LoopState) :
    List (Nat × Nat) :=
  match inp.poll with
  | PollResult.eintr => []
  | PollResult.error => []
  | _ =>
    match inp.dqbuf with
    | DqbufResult.ok index length bytesused0 =>
      frame_reads opts env index length bytesused0 (state_before_dequeue opts env inp st)
    | _ => []

/-- A pool of one single-plane buffer mapped with the size of a 1920 x 1080 NV12 frame
(`1920 * 1080 * 3 / 2 = 3110400` bytes). -/
def nv12_env : Env :=
  { buffers := [[{ addr := 4096, length := 3110400 }]]
    gl_max_tex := 16384
    loc_texY := 0
    loc_texUV := 1
    loc_uv_swap := 2
    loc_use_bt709 := 3
    loc_full_range := 4
    loc_view_mode := 5 }

/-- A pool of one single-plane buffer mapped with the size of a 1920 x 1080 NV24 frame
(`1920 * 1080 * 3 = 6220800` bytes), the format the program requests at startup. -/
def nv24_env : Env :=
  { buffers := [[{ addr := 4096, length := 6220800 }]]
    gl_max_tex := 16384
    loc_texY := 0
    loc_texUV := 1
    loc_uv_swap := 2
    loc_use_bt709 := 3
    loc_full_range := 4
    loc_view_mode := 5 }

/-- An iteration in which the wait reports a readable device without pending events,
buffer 0 is dequeued as a single plane with `bytesused0` bytes used, the requeue succeeds
and no SDL input is pending. -/
def frame_input (bytesused0 : Nat) : IterInput :=
  { poll := PollResult.ready false
    events := []
    periodic_fmt := none
    dqbuf := DqbufResult.ok 0 1 bytesused0
    mem := fun _ => 0
    requeue_ok := true
    sdl_events := [] }

/-! # Theorems -/

/-! ## Buffer primitives -/

theorem buildBuf_length (n : Nat) (f : Nat → Byte) : (buildBuf n f).length = n := by
  simp [buildBuf]

theorem readBuf_buildBuf (n : Nat) (f : Nat → Byte) (i : Nat) :
    readBuf (buildBuf n f) i = if i < n then f i else 0 := by
  unfold readBuf buildBuf
  by_cases h : i < n
  · simp [List.getD, h]
  · have hn : (List.range n)[i]? = none := List.getElem?_eq_none (by simp; omega)
    simp [List.getD, h, hn]

theorem buf_ext (a b : List Byte) (hl : a.length = b.length)
    (h : ∀ i, i < a.length → readBuf a i = readBuf b i) : a = b := by
  apply List.ext_getElem hl
  intro i h1 h2
  have := h i h1
  simpa [readBuf, List.getD, h1, h2] using this

theorem resize_length (v : List Byte) (n : Nat) : (resize v n).length = n := by
  simp [resize, buildBuf_length]

theorem memcpy_length (dst : List Byte) (off : Nat) (src : Nat → Byte) (n : Nat) :
    (memcpy dst off src n).length = dst.length := by
  simp [memcpy, buildBuf_length]

theorem readBuf_memcpy (dst : List Byte) (off : Nat) (src : Nat → Byte) (n i : Nat)
    (hi : i < dst.length) :
    readBuf (memcpy dst off src n) i =
      if off ≤ i ∧ i < off + n then src (i - off) else readBuf dst i := by
  simp [memcpy, readBuf_buildBuf, hi]

/-! ## The tile gather loop -/

theorem copy_tile_rows_length (src : Nat → Byte) (srcW bpp x y w h : Nat) (buf : List Byte) :
    (copy_tile_rows src srcW bpp x y w h buf).length = buf.length := by
  unfold copy_tile_rows
  induction h with
  | zero => simp
  | succ n ih => rw [List.range_succ, List.foldl_append]; simp [memcpy_length, ih]

theorem readBuf_copy_tile_rows (src : Nat → Byte) (srcW bpp x y w h : Nat) (buf : List Byte)
    (row k : Nat) (hrow : row < h) (hk : k < w * bpp) (hlen : h * (w * bpp) ≤ buf.length) :
    readBuf (copy_tile_rows src srcW bpp x y w h buf) (row * (w * bpp) + k) =
      src (((y + row) * srcW + x) * bpp + k) := by
  induction h generalizing row with
  | zero => omega
  | succ n ih =>
    have hstep : copy_tile_rows src srcW bpp x y w (n + 1) buf =
        memcpy (copy_tile_rows src srcW bpp x y w n buf) (n * w * bpp)
          (ptrAdd src ((y + n) * srcW * bpp + x * bpp)) (w * bpp) := by
      unfold copy_tile_rows
      rw [List.range_succ, List.foldl_append]; rfl
    have hmul : (n + 1) * (w * bpp) = n * (w * bpp) + w * bpp := by ring
    have hass : n * w * bpp = n * (w * bpp) := by ring
    have hle : (row + 1) * (w * bpp) ≤ (n + 1) * (w * bpp) :=
      Nat.mul_le_mul_right _ (by omega)
    have hrow1 : (row + 1) * (w * bpp) = row * (w * bpp) + w * bpp := by ring
    rw [hstep, readBuf_memcpy _ _ _ _ _ (by rw [copy_tile_rows_length]; omega), hass]
    by_cases hr : row = n
    · subst hr
      have : row * (w * bpp) + k - row * (w * bpp) = k := by omega
      rw [if_pos (by omega), this]
      simp only [ptrAdd]
      congr 1; ring
    · have hlt : row < n := by omega
      have hle2 : (row + 1) * (w * bpp) ≤ n * (w * bpp) := Nat.mul_le_mul_right _ (by omega)
      rw [if_neg (by omega)]
      exact ih row hlt (by omega)

/-! ## `glTexSubImage2D` -/

theorem glTexSubImage2D_width (tex : Texture) (x y w h : Nat) (fmt : GLFormat) (p : Nat → Byte) :
    (glTexSubImage2D tex x y w h fmt p).width = tex.width := by
  unfold glTexSubImage2D; split <;> rfl

theorem glTexSubImage2D_height (tex : Texture) (x y w h : Nat) (fmt : GLFormat)
    (p : Nat → Byte) : (glTexSubImage2D tex x y w h fmt p).height = tex.height := by
  unfold glTexSubImage2D; split <;> rfl

theorem glTexSubImage2D_bpp (tex : Texture) (x y w h : Nat) (fmt : GLFormat) (p : Nat → Byte) :
    (glTexSubImage2D tex x y w h fmt p).bpp = tex.bpp := by
  unfold glTexSubImage2D; split <;> rfl

theorem glTexSubImage2D_length (tex : Texture) (x y w h : Nat) (fmt : GLFormat)
    (p : Nat → Byte) : (glTexSubImage2D tex x y w h fmt p).data.length = tex.data.length := by
  unfold glTexSubImage2D; split
  · simp [buildBuf_length]
  · rfl

theorem readBuf_glTexSubImage2D (tex : Texture) (x y w h : Nat) (fmt : GLFormat)
    (p : Nat → Byte) (i : Nat) (hi : i < tex.data.length)
    (hx : x + w ≤ tex.width) (hy : y + h ≤ tex.height) (hf : fmt.texelBytes = tex.bpp) :
    readBuf (glTexSubImage2D tex x y w h fmt p).data i =
      if x ≤ i / tex.bpp % tex.width ∧ i / tex.bpp % tex.width < x + w ∧
          y ≤ i / tex.bpp / tex.width ∧ i / tex.bpp / tex.width < y + h then
        p (((i / tex.bpp / tex.width - y) * w + (i / tex.bpp % tex.width - x)) * tex.bpp
          + i % tex.bpp)
      else readBuf tex.data i := by
  unfold glTexSubImage2D
  rw [if_pos ⟨hx, hy, hf⟩]
  simp only [readBuf_buildBuf, hi, if_true]

/-- Row-major addressing: a byte offset is recovered from its row, column and channel. -/
theorem texel_offset (i W bpp : Nat) :
    (i / bpp / W * W + i / bpp % W) * bpp + i % bpp = i := by
  have h1 := Nat.div_add_mod (i / bpp) W
  have h2 := Nat.div_add_mod i bpp
  rw [Nat.mul_comm (i / bpp / W) W, h1, Nat.mul_comm, h2]

theorem texel_bounds (i W H bpp : Nat) (hi : i < W * H * bpp) (hW : 0 < W) (hb : 0 < bpp) :
    i / bpp / W < H ∧ i / bpp % W < W ∧ i % bpp < bpp := by
  refine ⟨?_, Nat.mod_lt _ hW, Nat.mod_lt _ hb⟩
  apply Nat.div_lt_of_lt_mul
  apply Nat.div_lt_of_lt_mul
  calc i < W * H * bpp := hi
    _ = bpp * (W * H) := by ring

theorem TexHolds.congr {srcW srcH bpp : Nat} {src : Nat → Byte} {orig : List Byte}
    {D D2 : Nat → Prop} {tex : Texture}
    (h : TexHolds srcW srcH bpp src orig D tex)
    (hD : ∀ i, i < srcW * srcH * bpp → (D i ↔ D2 i)) :
    TexHolds srcW srcH bpp src orig D2 tex := by
  obtain ⟨h1, h2, h3, h4, h5⟩ := h
  refine ⟨h1, h2, h3, h4, fun i hi => ?_⟩
  have := h5 i hi
  rw [← hD i hi]
  exact this

/-- Uploading a rectangle whose pixels are the source bytes of that rectangle extends the
set of offsets that hold source bytes by the rectangle. -/
theorem TexHolds.upload {srcW srcH bpp : Nat} {src : Nat → Byte} {orig : List Byte}
    {D : Nat → Prop} {tex : Texture} (x y w h : Nat) (fmt : GLFormat) (p : Nat → Byte)
    (hT : TexHolds srcW srcH bpp src orig D tex)
    (hW : 0 < srcW) (hb : 0 < bpp) (hf : fmt.texelBytes = bpp)
    (hx : x + w ≤ srcW) (hy : y + h ≤ srcH)
    (hp : ∀ r c b, y ≤ r → r < y + h → x ≤ c → c < x + w → b < bpp →
      p (((r - y) * w + (c - x)) * bpp + b) = src ((r * srcW + c) * bpp + b)) :
    TexHolds srcW srcH bpp src orig
      (fun i => D i ∨ (x ≤ i / bpp % srcW ∧ i / bpp % srcW < x + w ∧
        y ≤ i / bpp / srcW ∧ i / bpp / srcW < y + h))
      (glTexSubImage2D tex x y w h fmt p) := by
  obtain ⟨h1, h2, h3, h4, h5⟩ := hT
  refine ⟨by rw [glTexSubImage2D_width, h1], by rw [glTexSubImage2D_height, h2],
    by rw [glTexSubImage2D_bpp, h3], by rw [glTexSubImage2D_length, h4], fun i hi => ?_⟩
  have hb3 := texel_bounds i srcW srcH bpp hi hW hb
  rw [readBuf_glTexSubImage2D tex x y w h fmt p i (by omega) (by omega) (by omega)
    (by rw [hf, h3]), h1, h3]
  by_cases hin : x ≤ i / bpp % srcW ∧ i / bpp % srcW < x + w ∧
      y ≤ i / bpp / srcW ∧ i / bpp / srcW < y + h
  · rw [if_pos hin]
    constructor
    · intro _
      rw [hp _ _ _ hin.2.2.1 hin.2.2.2 hin.1 hin.2.1 hb3.2.2, texel_offset]
    · intro hn
      exact absurd (Or.inr hin) hn
  · rw [if_neg hin]
    constructor
    · intro hd
      rcases hd with hd | hd
      · exact (h5 i hi).1 hd
      · exact absurd hd hin
    · intro hn
      exact (h5 i hi).2 (fun hd => hn (Or.inl hd))

/-! ## The column loop and the row loop keep the texture equal to the source -/

theorem tile_pixels (src : Nat → Byte) (srcW bpp x y w h : Nat) (buf : List Byte)
    (r c b : Nat) (hy : y ≤ r) (hyh : r < y + h) (hx : x ≤ c) (hxw : c < x + w)
    (hb : b < bpp) :
    readBuf (copy_tile_rows src srcW bpp x y w h (resize buf (h * w * bpp)))
        (((r - y) * w + (c - x)) * bpp + b) = src ((r * srcW + c) * bpp + b) := by
  obtain ⟨d, rfl⟩ := Nat.exists_eq_add_of_le hy
  obtain ⟨e, rfl⟩ := Nat.exists_eq_add_of_le hx
  have hk : e * bpp + b < w * bpp := by
    have h1 : (e + 1) * bpp ≤ w * bpp := Nat.mul_le_mul_right _ (by omega)
    have h2 : (e + 1) * bpp = e * bpp + bpp := by ring
    omega
  have hidx : ((y + d - y) * w + (x + e - x)) * bpp + b = d * (w * bpp) + (e * bpp + b) := by
    rw [Nat.add_sub_cancel_left, Nat.add_sub_cancel_left]; ring
  rw [hidx, readBuf_copy_tile_rows src srcW bpp x y w h _ d (e * bpp + b) (by omega) hk
    (by rw [resize_length]; exact le_of_eq (by ring))]
  congr 1; ring

theorem upload_texture_tiled_columns_tex (fmt : GLFormat) (srcW srcH : Nat) (src : Nat → Byte)
    (bpp tileW y h : Nat) (orig : List Byte)
    (hW : 0 < srcW) (hb : 0 < bpp) (hf : fmt.texelBytes = bpp) (hyh : y + h ≤ srcH) :
    ∀ (fuel x : Nat) (ctx ctx2 : UploadCtx),
      TexHolds srcW srcH bpp src orig
        (fun i => i / bpp / srcW < y ∨ (i / bpp / srcW < y + h ∧ i / bpp % srcW < x)) ctx.tex →
      upload_texture_tiled_columns fmt srcW src bpp tileW y h fuel x ctx = some ctx2 →
      TexHolds srcW srcH bpp src orig (fun i => i / bpp / srcW < y + h) ctx2.tex := by
  intro fuel
  induction fuel with
  | zero => intro x ctx ctx2 _ h; simp [upload_texture_tiled_columns] at h
  | succ n ih =>
    intro x ctx ctx2 hT hrun
    rw [upload_texture_tiled_columns] at hrun
    by_cases hx : x < srcW
    · rw [if_pos hx] at hrun
      refine ih _ _ _ ?_ hrun
      have hw : x + min tileW (srcW - x) ≤ srcW := by
        have := Nat.min_le_right tileW (srcW - x); omega
      have hup := TexHolds.upload x y (min tileW (srcW - x)) h fmt
        (readBuf (copy_tile_rows src srcW bpp x y (min tileW (srcW - x)) h
          (resize ctx.tileBuf (h * min tileW (srcW - x) * bpp))))
        hT hW hb hf hw hyh
        (fun r c b h1 h2 h3 h4 h5 => tile_pixels src srcW bpp x y _ h _ r c b h1 h2 h3 h4 h5)
      refine hup.congr (fun i hi => ?_)
      have hb3 := texel_bounds i srcW srcH bpp hi hW hb
      have hmin : min tileW (srcW - x) = tileW ∨ min tileW (srcW - x) = srcW - x := by
        rcases Nat.le_total tileW (srcW - x) with h | h
        · left; exact Nat.min_eq_left h
        · right; exact Nat.min_eq_right h
      have hml := Nat.min_le_left tileW (srcW - x)
      rcases hmin with hm | hm <;> rw [hm] at hml ⊢ <;> constructor <;> intro hh <;> omega
    · rw [if_neg hx] at hrun
      cases hrun
      refine hT.congr (fun i hi => ?_)
      have hb3 := texel_bounds i srcW srcH bpp hi hW hb
      constructor <;> intro hh <;> omega

theorem upload_texture_tiled_rows_tex (fmt : GLFormat) (srcW srcH : Nat) (src : Nat → Byte)
    (maxTexSize bpp tileW tileH fuelX : Nat) (orig : List Byte)
    (hW : 0 < srcW) (hb : 0 < bpp) (hf : fmt.texelBytes = bpp) :
    ∀ (fuel y : Nat) (ctx ctx2 : UploadCtx),
      TexHolds srcW srcH bpp src orig (fun i => i / bpp / srcW < y) ctx.tex →
      upload_texture_tiled_rows fmt srcW srcH src maxTexSize bpp tileW tileH fuelX fuel y ctx
        = some ctx2 →
      TexHolds srcW srcH bpp src orig (fun _ => True) ctx2.tex := by
  intro fuel
  induction fuel with
  | zero => intro y ctx ctx2 _ h; simp [upload_texture_tiled_rows] at h
  | succ n ih =>
    intro y ctx ctx2 hT hrun
    rw [upload_texture_tiled_rows] at hrun
    by_cases hy : y < srcH
    · rw [if_pos hy] at hrun
      have hh : y + min tileH (srcH - y) ≤ srcH := by
        have := Nat.min_le_right tileH (srcH - y); omega
      have hmin : min tileH (srcH - y) = tileH ∨ min tileH (srcH - y) = srcH - y := by
        rcases Nat.le_total tileH (srcH - y) with h | h
        · left; exact Nat.min_eq_left h
        · right; exact Nat.min_eq_right h
      have hml := Nat.min_le_left tileH (srcH - y)
      by_cases hsw : srcW ≤ maxTexSize
      · rw [if_pos hsw] at hrun
        refine ih _ _ _ ?_ hrun
        have hup := TexHolds.upload 0 y srcW (min tileH (srcH - y)) fmt
          (ptrAdd src (y * srcW * bpp)) hT hW hb hf (by omega) hh
          (fun r c b h1 _ _ _ _ => by
            obtain ⟨d, rfl⟩ := Nat.exists_eq_add_of_le h1
            simp only [ptrAdd, Nat.add_sub_cancel_left, Nat.sub_zero]
            congr 1; ring)
        refine hup.congr (fun i hi => ?_)
        have hb3 := texel_bounds i srcW srcH bpp hi hW hb
        rcases hmin with hm | hm <;> rw [hm] at hml ⊢ <;> constructor <;> intro hh <;> omega
      · rw [if_neg hsw] at hrun
        cases hcol : upload_texture_tiled_columns fmt srcW src bpp tileW y
            (min tileH (srcH - y)) fuelX 0 ctx with
        | none => rw [hcol] at hrun; simp at hrun
        | some ctx1 =>
          rw [hcol] at hrun
          refine ih _ _ _ ?_ hrun
          have hc := upload_texture_tiled_columns_tex fmt srcW srcH src bpp tileW y
            (min tileH (srcH - y)) orig hW hb hf hh fuelX 0 ctx ctx1
            (hT.congr (fun i hi => by constructor <;> intro hh <;> omega)) hcol
          refine hc.congr (fun i hi => ?_)
          have hb3 := texel_bounds i srcW srcH bpp hi hW hb
          rcases hmin with hm | hm
          · rw [hm]
          · rw [hm] at hml ⊢
            exact ⟨fun _ => by omega, fun _ => by omega⟩
    · rw [if_neg hy] at hrun
      cases hrun
      refine hT.congr (fun i hi => ?_)
      have hb3 := texel_bounds i srcW srcH bpp hi hW hb
      exact ⟨fun _ => trivial, fun _ => by omega⟩

/-! ## Termination of the tiled upload and the tiles it issues -/

theorem upload_texture_tiled_columns_calls (fmt : GLFormat) (srcW srcH M : Nat)
    (src : Nat → Byte) (bpp tileW y h : Nat)
    (htW : 1 ≤ tileW) (htM : tileW ≤ M) (hh1 : 1 ≤ h) (hhM : h ≤ M) (hyh : y + h ≤ srcH) :
    ∀ (fuel x : Nat) (ctx : UploadCtx), srcW - x < fuel →
      ∃ ctx2, upload_texture_tiled_columns fmt srcW src bpp tileW y h fuel x ctx = some ctx2 ∧
        ∃ new, ctx2.calls = ctx.calls ++ new ∧ ∀ r ∈ new, TileOk srcW srcH M r := by
  intro fuel
  induction fuel with
  | zero => intro x ctx h; omega
  | succ n ih =>
    intro x ctx hfuel
    rw [upload_texture_tiled_columns]
    by_cases hx : x < srcW
    · rw [if_pos hx]
      obtain ⟨ctx2, hrun, new, hnew, hok⟩ := ih (x + tileW)
        { tex := glTexSubImage2D ctx.tex x y (min tileW (srcW - x)) h fmt
            (readBuf (copy_tile_rows src srcW bpp x y (min tileW (srcW - x)) h
              (resize ctx.tileBuf (h * min tileW (srcW - x) * bpp))))
          tileBuf := copy_tile_rows src srcW bpp x y (min tileW (srcW - x)) h
              (resize ctx.tileBuf (h * min tileW (srcW - x) * bpp))
          calls := ctx.calls ++ [⟨x, y, min tileW (srcW - x), h⟩] } (by omega)
      refine ⟨ctx2, hrun, ⟨x, y, min tileW (srcW - x), h⟩ :: new, ?_, ?_⟩
      · rw [hnew]; simp
      · intro r hr
        rcases List.mem_cons.1 hr with hr | hr
        · subst hr
          have h1 := Nat.min_le_left tileW (srcW - x)
          have h2 := Nat.min_le_right tileW (srcW - x)
          have h3 : 1 ≤ min tileW (srcW - x) := Nat.le_min.2 ⟨htW, by omega⟩
          exact ⟨h3, by simp only; omega, hh1, hhM, by simp only; omega, hyh⟩
        · exact hok r hr
    · rw [if_neg hx]
      exact ⟨ctx, rfl, [], by simp, by simp⟩

theorem upload_texture_tiled_rows_calls (fmt : GLFormat) (srcW srcH M : Nat)
    (src : Nat → Byte) (bpp tileW tileH fuelX : Nat)
    (hW : 1 ≤ srcW) (htW : 1 ≤ tileW) (htWM : tileW ≤ M) (htH : 1 ≤ tileH) (htHM : tileH ≤ M)
    (hfX : srcW < fuelX) :
    ∀ (fuel y : Nat) (ctx : UploadCtx), srcH - y < fuel →
      ∃ ctx2, upload_texture_tiled_rows fmt srcW srcH src M bpp tileW tileH fuelX fuel y ctx
          = some ctx2 ∧
        ∃ new, ctx2.calls = ctx.calls ++ new ∧ ∀ r ∈ new, TileOk srcW srcH M r := by
  intro fuel
  induction fuel with
  | zero => intro y ctx h; omega
  | succ n ih =>
    intro y ctx hfuel
    rw [upload_texture_tiled_rows]
    by_cases hy : y < srcH
    · rw [if_pos hy]
      have h1 := Nat.min_le_left tileH (srcH - y)
      have h2 := Nat.min_le_right tileH (srcH - y)
      have h3 : 1 ≤ min tileH (srcH - y) := Nat.le_min.2 ⟨htH, by omega⟩
      by_cases hsw : srcW ≤ M
      · rw [if_pos hsw]
        obtain ⟨ctx2, hrun, new, hnew, hok⟩ := ih (y + tileH)
          { ctx with
            tex := glTexSubImage2D ctx.tex 0 y srcW (min tileH (srcH - y)) fmt
              (ptrAdd src (y * srcW * bpp))
            calls := ctx.calls ++ [⟨0, y, srcW, min tileH (srcH - y)⟩] } (by omega)
        refine ⟨ctx2, hrun, ⟨0, y, srcW, min tileH (srcH - y)⟩ :: new, ?_, ?_⟩
        · rw [hnew]; simp
        · intro r hr
          rcases List.mem_cons.1 hr with hr | hr
          · subst hr
            exact ⟨hW, hsw, h3, by simp only; omega, by simp only; omega, by simp only; omega⟩
          · exact hok r hr
      · rw [if_neg hsw]
        obtain ⟨ctx1, hcol, new1, hnew1, hok1⟩ :=
          upload_texture_tiled_columns_calls fmt srcW srcH M src bpp tileW y
            (min tileH (srcH - y)) htW htWM h3 (by omega) (by omega) fuelX 0 ctx (by omega)
        rw [hcol]
        obtain ⟨ctx2, hrun, new, hnew, hok⟩ := ih (y + tileH) ctx1 (by omega)
        refine ⟨ctx2, hrun, new1 ++ new, ?_, ?_⟩
        · rw [hnew, hnew1]; simp
        · intro r hr
          rcases List.mem_append.1 hr with hr | hr
          · exact hok1 r hr
          · exact hok r hr
    · rw [if_neg hy]
      exact ⟨ctx, rfl, [], by simp, by simp⟩

theorem upload_texture_tiled_calls (fuel : Nat) (fmt : GLFormat) (ctx : UploadCtx)
    (srcW srcH M : Nat) (src : Nat → Byte) (bpp : Nat)
    (hW : 1 ≤ srcW) (hH : 1 ≤ srcH) (hM : 1 ≤ M) (hfW : srcW < fuel) (hfH : srcH < fuel) :
    ∃ ctx2, upload_texture_tiled fuel fmt ctx srcW srcH src M bpp = some ctx2 ∧
      ∃ new, ctx2.calls = ctx.calls ++ new ∧ ∀ r ∈ new, TileOk srcW srcH M r := by
  unfold upload_texture_tiled
  exact upload_texture_tiled_rows_calls fmt srcW srcH M src bpp (min srcW M) (min srcH M) fuel
    hW (Nat.le_min.2 ⟨hW, hM⟩) (Nat.min_le_right _ _) (Nat.le_min.2 ⟨hH, hM⟩)
    (Nat.min_le_right _ _) hfW fuel 0 ctx (by omega)

theorem TexHolds.unique {srcW srcH bpp : Nat} {src : Nat → Byte} {o1 o2 : List Byte}
    {t1 t2 : Texture}
    (h1 : TexHolds srcW srcH bpp src o1 (fun _ => True) t1)
    (h2 : TexHolds srcW srcH bpp src o2 (fun _ => True) t2) : t1 = t2 := by
  obtain ⟨a1, a2, a3, a4, a5⟩ := h1
  obtain ⟨b1, b2, b3, b4, b5⟩ := h2
  have hd : t1.data = t2.data := by
    apply buf_ext _ _ (by rw [a4, b4])
    intro i hi
    rw [a4] at hi
    rw [(a5 i hi).1 trivial, (b5 i hi).1 trivial]
  cases t1; cases t2
  simp only at a1 a2 a3 b1 b2 b3 hd
  simp [a1, a2, a3, b1, b2, b3, hd]

theorem TexHolds.init (tex : Texture) (srcW srcH bpp : Nat) (src : Nat → Byte)
    (h1 : tex.width = srcW) (h2 : tex.height = srcH) (h3 : tex.bpp = bpp)
    (h4 : tex.data.length = srcW * srcH * bpp) (D : Nat → Prop) (hD : ∀ i, ¬ D i) :
    TexHolds srcW srcH bpp src tex.data D tex :=
  ⟨h1, h2, h3, h4, fun i _ => ⟨fun h => absurd h (hD i), fun _ => rfl⟩⟩

/-- C1. Tiling round-trip: for `srcW, srcH, maxTexSize >= 1`, a transfer format of 1 or 2
bytes per texel and a source buffer of `srcW * srcH * bytes` bytes, `upload_texture_tiled`
run against a surface of size `srcW x srcH` returns (any fuel above both dimensions is
enough) and leaves the surface byte-for-byte equal to the one a single full-surface
`glTexSubImage2D` of the same buffer at offset `(0, 0)` leaves. -/
theorem upload_texture_tiled_eq_full (fuel : Nat) (format : GLFormat) (ctx : UploadCtx)
    (srcW srcH maxTexSize pixelSizePerTexel : Nat) (buf : List Byte)
    (hW : 1 ≤ srcW) (hH : 1 ≤ srcH) (hM : 1 ≤ maxTexSize)
    (hbpp : format.texelBytes = pixelSizePerTexel)
    (_hbuf : buf.length = srcW * srcH * pixelSizePerTexel)
    (htw : ctx.tex.width = srcW) (hth : ctx.tex.height = srcH)
    (htb : ctx.tex.bpp = pixelSizePerTexel)
    (htl : ctx.tex.data.length = srcW * srcH * pixelSizePerTexel)
    (hfW : srcW < fuel) (hfH : srcH < fuel) :
    ∃ ctx2, upload_texture_tiled fuel format ctx srcW srcH (readBuf buf) maxTexSize
        pixelSizePerTexel = some ctx2 ∧
      ctx2.tex = (upload_full format ctx srcW srcH (readBuf buf)).tex := by
  obtain ⟨ctx2, hrun, _⟩ := upload_texture_tiled_calls fuel format ctx srcW srcH maxTexSize
    (readBuf buf) pixelSizePerTexel hW hH hM hfW hfH
  refine ⟨ctx2, hrun, ?_⟩
  have hb : 0 < pixelSizePerTexel := by
    rw [← hbpp]; cases format <;> simp [GLFormat.texelBytes]
  have h0 := TexHolds.init ctx.tex srcW srcH pixelSizePerTexel (readBuf buf) htw hth htb htl
  have htiled := upload_texture_tiled_rows_tex format srcW srcH (readBuf buf) maxTexSize
    pixelSizePerTexel (min srcW maxTexSize) (min srcH maxTexSize) fuel ctx.tex.data hW hb hbpp
    fuel 0 ctx ctx2 (h0 _ (fun i => Nat.not_lt_zero _)) hrun
  have hfull := TexHolds.upload 0 0 srcW srcH format (readBuf buf)
    (h0 (fun _ => False) (fun _ h => h)) hW hb hbpp (by omega) (by omega)
    (fun r c b _ _ _ _ _ => by simp)
  refine TexHolds.unique htiled (hfull.congr (fun i hi => ?_))
  have hb3 := texel_bounds i srcW srcH pixelSizePerTexel hi hW hb
  simp only [false_or, iff_true, Nat.zero_le, true_and, Nat.zero_add]
  exact ⟨hb3.2.1, hb3.1⟩

/-- A 5 x 3 single-byte surface tiled with a maximum surface size of 2. -/
theorem upload_texture_tiled_eq_full_witness :
    ∃ ctx2, upload_texture_tiled 6 GLFormat.GL_RED
        ⟨⟨5, 3, 1, List.replicate 15 0⟩, [], []⟩ 5 3
        (readBuf [1, 2, 3, 4, 5, 6, 7, 8, 9, 10, 11, 12, 13, 14, 15]) 2 1 = some ctx2 ∧
      ctx2.tex = (upload_full GLFormat.GL_RED ⟨⟨5, 3, 1, List.replicate 15 0⟩, [], []⟩ 5 3
        (readBuf [1, 2, 3, 4, 5, 6, 7, 8, 9, 10, 11, 12, 13, 14, 15])).tex :=
  upload_texture_tiled_eq_full 6 GLFormat.GL_RED ⟨⟨5, 3, 1, List.replicate 15 0⟩, [], []⟩
    5 3 2 1 [1, 2, 3, 4, 5, 6, 7, 8, 9, 10, 11, 12, 13, 14, 15]
    (by decide) (by decide) (by decide) rfl rfl rfl rfl rfl rfl (by decide) (by decide)

/-- C9. For a plane of `W x H` texels and a maximum surface size `M`, all at least 1: when
`W <= M` and `H <= M` the dispatch in `main` uploads the plane in exactly one operation of
size `W x H` at offset `(0, 0)`; otherwise it runs `upload_texture_tiled`, which returns and
issues only tiles `(x, y, w, h)` with `1 <= w <= M`, `1 <= h <= M`, `x + w <= W` and
`y + h <= H`. -/
theorem upload_plane_tiles (fuel : Nat) (format : GLFormat) (ctx : UploadCtx)
    (W H M : Nat) (pixels : Nat → Byte) (pixelSizePerTexel : Nat)
    (hW : 1 ≤ W) (hH : 1 ≤ H) (hM : 1 ≤ M) (hfW : W < fuel) (hfH : H < fuel) :
    (W ≤ M ∧ H ≤ M →
      ∃ ctx2, upload_plane fuel format ctx W H pixels M pixelSizePerTexel = some ctx2 ∧
        ctx2.calls = ctx.calls ++ [⟨0, 0, W, H⟩]) ∧
    (¬ (W ≤ M ∧ H ≤ M) →
      upload_plane fuel format ctx W H pixels M pixelSizePerTexel =
        upload_texture_tiled fuel format ctx W H pixels M pixelSizePerTexel) ∧
    ∃ ctx2 new,
      upload_texture_tiled fuel format ctx W H pixels M pixelSizePerTexel = some ctx2 ∧
      ctx2.calls = ctx.calls ++ new ∧ ∀ r ∈ new, TileOk W H M r := by
  refine ⟨fun h => ?_, fun h => ?_, ?_⟩
  · exact ⟨upload_full format ctx W H pixels, by simp [upload_plane, h], rfl⟩
  · simp [upload_plane, h]
  · obtain ⟨ctx2, hrun, new, hnew, hok⟩ := upload_texture_tiled_calls fuel format ctx W H M
      pixels pixelSizePerTexel hW hH hM hfW hfH
    exact ⟨ctx2, new, hrun, hnew, hok⟩

/-- A 1920 x 1080 luma plane with a maximum surface size of 1024. -/
theorem upload_plane_tiles_witness :
    (1920 ≤ 1024 ∧ 1080 ≤ 1024 →
      ∃ ctx2, upload_plane 2000 GLFormat.GL_RED ⟨⟨1920, 1080, 1, []⟩, [], []⟩ 1920 1080
          (fun _ => 0) 1024 1 = some ctx2 ∧
        ctx2.calls = [] ++ [⟨0, 0, 1920, 1080⟩]) ∧
    (¬ (1920 ≤ 1024 ∧ 1080 ≤ 1024) →
      upload_plane 2000 GLFormat.GL_RED ⟨⟨1920, 1080, 1, []⟩, [], []⟩ 1920 1080
          (fun _ => 0) 1024 1 =
        upload_texture_tiled 2000 GLFormat.GL_RED ⟨⟨1920, 1080, 1, []⟩, [], []⟩ 1920 1080
          (fun _ => 0) 1024 1) ∧
    ∃ ctx2 new,
      upload_texture_tiled 2000 GLFormat.GL_RED ⟨⟨1920, 1080, 1, []⟩, [], []⟩ 1920 1080
          (fun _ => 0) 1024 1 = some ctx2 ∧
      ctx2.calls = [] ++ new ∧ ∀ r ∈ new, TileOk 1920 1080 1024 r :=
  upload_plane_tiles 2000 GLFormat.GL_RED ⟨⟨1920, 1080, 1, []⟩, [], []⟩ 1920 1080 1024
    (fun _ => 0) 1 (by decide) (by decide) (by decide) (by decide) (by decide)

/-! ## Plane layout -/

/-- C2. When the dequeued buffer reports two or more planes and the pool slot holds two or
more mapped planes, the plane-layout decision returns the base address of plane 0 as luma
and the base address of plane 1 as chroma, whatever the pixel format, width, height and
bytes-used are. -/
theorem plane_layout_two_planes (buffers : List (List PlaneMap))
    (buf_index buf_length bytesused0 cur_pixfmt cur_width cur_height : Nat)
    (hlen : 2 ≤ buf_length) (hslot : 2 ≤ (buffers.getD buf_index []).length) :
    plane_layout buffers buf_index buf_length bytesused0 cur_pixfmt cur_width cur_height =
      { ybase := ((buffers.getD buf_index []).getD 0 default).addr
        uvbase := ((buffers.getD buf_index []).getD 1 default).addr } ∧
    ∀ bytesused pixfmt width height,
      plane_layout buffers buf_index buf_length bytesused pixfmt width height =
        plane_layout buffers buf_index buf_length bytesused0 cur_pixfmt cur_width
          cur_height := by
  have h : ∀ bu pf w h, plane_layout buffers buf_index buf_length bu pf w h =
      { ybase := ((buffers.getD buf_index []).getD 0 default).addr
        uvbase := ((buffers.getD buf_index []).getD 1 default).addr } := by
    intro bu pf w h
    unfold plane_layout
    simp only [ge_iff_le]
    rw [if_pos ⟨hlen, hslot⟩]
  exact ⟨h _ _ _ _, fun bu pf w h2 => by rw [h, h]⟩

/-- A two-plane NV12 buffer whose plane 0 reports no bytes used. -/
theorem plane_layout_two_planes_witness :
    plane_layout [[⟨4096, 2073600⟩, ⟨8192000, 1036800⟩]] 0 2 0 V4L2_PIX_FMT_NV12 1920 1080 =
      { ybase := (([[⟨4096, 2073600⟩, ⟨8192000, 1036800⟩]] : List (List PlaneMap)).getD 0
          []).getD 0 default |>.addr
        uvbase := (([[⟨4096, 2073600⟩, ⟨8192000, 1036800⟩]] : List (List PlaneMap)).getD 0
          []).getD 1 default |>.addr } ∧
    ∀ bytesused pixfmt width height,
      plane_layout [[⟨4096, 2073600⟩, ⟨8192000, 1036800⟩]] 0 2 bytesused pixfmt width height =
        plane_layout [[⟨4096, 2073600⟩, ⟨8192000, 1036800⟩]] 0 2 0 V4L2_PIX_FMT_NV12 1920
          1080 :=
  plane_layout_two_planes [[⟨4096, 2073600⟩, ⟨8192000, 1036800⟩]] 0 2 0 V4L2_PIX_FMT_NV12
    1920 1080 (by decide) (by decide)

/-- C3 as stated fails: a single-plane 3 x 2 NV12 buffer with 8 bytes used has at least
luma-size (6) plus the chroma size of the specification (2) bytes, yet the decision
reports chroma absent. -/
theorem plane_layout_odd_width_counterexample :
    3 * 2 + spec_chroma_size V4L2_PIX_FMT_NV12 3 2 ≤ 8 ∧
    (plane_layout [[⟨4096, 4096⟩]] 0 1 8 V4L2_PIX_FMT_NV12 3 2).uvbase = 0 ∧
    (plane_layout [[⟨4096, 4096⟩]] 0 1 8 V4L2_PIX_FMT_NV12 3 2).uvbase ≠ 4096 + 3 * 2 := by
  decide

/-- The sizes are computed in `size_t`: for a 4294967295 x 1431655766 NV24 frame the true
sum of luma and chroma sizes exceeds `2 ^ 64`, while `total_expected` is `2 ^ 32 - 2`. -/
theorem total_expected_wraps :
    2 ^ 64 < 4294967295 * 1431655766 +
      chroma_plane_bytes V4L2_PIX_FMT_NV24 4294967295 1431655766 ∧
    total_expected V4L2_PIX_FMT_NV24 4294967295 1431655766 = 2 ^ 32 - 2 := by
  decide

/-- C3, amended. For every buffer that does not take the two-plane path, when luma-size
plus chroma-size fits `size_t`, where chroma-size is `width * (height / 2)` bytes for
NV12/NV21 and `2 * width * height` bytes otherwise: luma is the base of plane 0; chroma is
at offset `width * height` from it when bytes-used of plane 0 is at least luma-size plus
chroma-size, and is absent (`nullptr`) otherwise; so for a non-null base chroma is at that
offset exactly when bytes-used reaches the sum. -/
theorem plane_layout_single_plane (buffers : List (List PlaneMap))
    (buf_index buf_length bytesused0 cur_pixfmt cur_width cur_height : Nat)
    (hsingle : ¬ (2 ≤ buf_length ∧ 2 ≤ (buffers.getD buf_index []).length))
    (hfit : cur_width * cur_height +
      chroma_plane_bytes cur_pixfmt cur_width cur_height < 2 ^ 64) :
    (plane_layout buffers buf_index buf_length bytesused0 cur_pixfmt cur_width
        cur_height).ybase = ((buffers.getD buf_index []).getD 0 default).addr ∧
    (cur_width * cur_height +
        chroma_plane_bytes cur_pixfmt cur_width cur_height ≤ bytesused0 →
      (plane_layout buffers buf_index buf_length bytesused0 cur_pixfmt cur_width
        cur_height).uvbase =
        ((buffers.getD buf_index []).getD 0 default).addr + cur_width * cur_height) ∧
    (bytesused0 < cur_width * cur_height +
        chroma_plane_bytes cur_pixfmt cur_width cur_height →
      (plane_layout buffers buf_index buf_length bytesused0 cur_pixfmt cur_width
        cur_height).uvbase = 0) ∧
    (0 < ((buffers.getD buf_index []).getD 0 default).addr →
      ((plane_layout buffers buf_index buf_length bytesused0 cur_pixfmt cur_width
        cur_height).uvbase =
          ((buffers.getD buf_index []).getD 0 default).addr + cur_width * cur_height ↔
        cur_width * cur_height +
          chroma_plane_bytes cur_pixfmt cur_width cur_height ≤ bytesused0)) := by
  have hc : chroma_plane_bytes cur_pixfmt cur_width cur_height =
      if isNV12_NV21 cur_pixfmt then cur_width * (cur_height / 2)
      else 2 * (cur_width * cur_height) := rfl
  have hY : Y_len cur_width cur_height = cur_width * cur_height := by
    unfold Y_len size_t
    exact Nat.mod_eq_of_lt (by omega)
  have hT : total_expected cur_pixfmt cur_width cur_height = cur_width * cur_height +
      chroma_plane_bytes cur_pixfmt cur_width cur_height := by
    unfold total_expected UV_len
    rw [hY]
    unfold size_t
    rw [hc] at hfit ⊢
    by_cases h : isNV12_NV21 cur_pixfmt = true
    · rw [if_pos h] at hfit ⊢
      rw [if_pos h, Nat.mod_eq_of_lt (a := cur_width * (cur_height / 2)) (by omega),
        Nat.mod_eq_of_lt hfit]
    · rw [if_neg h] at hfit ⊢
      rw [if_neg h, Nat.mod_eq_of_lt (a := cur_width * cur_height) (by omega),
        Nat.mod_eq_of_lt (a := cur_width * cur_height * 2) (by omega),
        Nat.mod_eq_of_lt (by omega)]
      omega
  have hL : plane_layout buffers buf_index buf_length bytesused0 cur_pixfmt cur_width
      cur_height =
      if cur_width * cur_height +
        chroma_plane_bytes cur_pixfmt cur_width cur_height ≤ bytesused0 then
        { ybase := ((buffers.getD buf_index []).getD 0 default).addr
          uvbase := ((buffers.getD buf_index []).getD 0 default).addr + cur_width * cur_height }
      else { ybase := ((buffers.getD buf_index []).getD 0 default).addr, uvbase := 0 } := by
    unfold plane_layout
    simp only [ge_iff_le]
    rw [if_neg hsingle, hT, hY]
  rw [hL]
  by_cases hb : cur_width * cur_height +
      chroma_plane_bytes cur_pixfmt cur_width cur_height ≤ bytesused0
  · rw [if_pos hb]
    exact ⟨rfl, fun _ => rfl, fun h => absurd hb (by omega), fun _ => ⟨fun _ => hb, fun _ => rfl⟩⟩
  · rw [if_neg hb]
    refine ⟨rfl, fun h => absurd h hb, fun _ => rfl, fun hpos => ⟨fun h => ?_, fun h => absurd h hb⟩⟩
    simp only at h
    omega

/-- A single-plane 1920 x 1080 NV12 buffer that is completely filled. -/
theorem plane_layout_single_plane_witness :
    (plane_layout [[⟨4096, 3110400⟩]] 0 1 3110400 V4L2_PIX_FMT_NV12 1920 1080).ybase =
      ((([[⟨4096, 3110400⟩]] : List (List PlaneMap)).getD 0 []).getD 0 default).addr ∧
    (1920 * 1080 + chroma_plane_bytes V4L2_PIX_FMT_NV12 1920 1080 ≤ 3110400 →
      (plane_layout [[⟨4096, 3110400⟩]] 0 1 3110400 V4L2_PIX_FMT_NV12 1920 1080).uvbase =
        ((([[⟨4096, 3110400⟩]] : List (List PlaneMap)).getD 0 []).getD 0 default).addr
          + 1920 * 1080) ∧
    (3110400 < 1920 * 1080 + chroma_plane_bytes V4L2_PIX_FMT_NV12 1920 1080 →
      (plane_layout [[⟨4096, 3110400⟩]] 0 1 3110400 V4L2_PIX_FMT_NV12 1920 1080).uvbase = 0) ∧
    (0 < ((([[⟨4096, 3110400⟩]] : List (List PlaneMap)).getD 0 []).getD 0 default).addr →
      ((plane_layout [[⟨4096, 3110400⟩]] 0 1 3110400 V4L2_PIX_FMT_NV12 1920 1080).uvbase =
          ((([[⟨4096, 3110400⟩]] : List (List PlaneMap)).getD 0 []).getD 0 default).addr
            + 1920 * 1080 ↔
        1920 * 1080 + chroma_plane_bytes V4L2_PIX_FMT_NV12 1920 1080 ≤ 3110400)) :=
  plane_layout_single_plane [[⟨4096, 3110400⟩]] 0 1 3110400 V4L2_PIX_FMT_NV12 1920 1080
    (by decide) (by decide)

/-! ## Chroma dimensions -/

theorem to_int_of_lt (u : Nat) (h : u < 2 ^ 31) : to_int u = (u : Int) := by
  unfold to_int
  have h1 : u % 2 ^ 32 = u := Nat.mod_eq_of_lt (by omega)
  rw [h1, if_pos h]

theorem isNV12_NV21_iff (pf : Nat) :
    isNV12_NV21 pf = true ↔ pf = V4L2_PIX_FMT_NV12 ∨ pf = V4L2_PIX_FMT_NV21 := by
  simp [isNV12_NV21]

theorem uv_for_eq_spec (pf w h : Nat) (hw : w < 2 ^ 32) (hh : h < 2 ^ 32)
    (hint : ¬ (pf = V4L2_PIX_FMT_NV12 ∨ pf = V4L2_PIX_FMT_NV21) → w < 2 ^ 31 ∧ h < 2 ^ 31) :
    (uv_w_for pf w, uv_h_for pf h) = spec_chroma_dims pf w h := by
  unfold uv_w_for uv_h_for spec_chroma_dims
  by_cases hnv : pf = V4L2_PIX_FMT_NV12 ∨ pf = V4L2_PIX_FMT_NV21
  · rw [if_pos ((isNV12_NV21_iff pf).2 hnv), if_pos ((isNV12_NV21_iff pf).2 hnv), if_pos hnv,
      to_int_of_lt _ (by omega), to_int_of_lt _ (by omega)]
  · have hb : ¬ isNV12_NV21 pf = true := fun h => hnv ((isNV12_NV21_iff pf).1 h)
    rw [if_neg hb, if_neg hb, if_neg hnv, to_int_of_lt _ (hint hnv).1,
      to_int_of_lt _ (hint hnv).2]

theorem upload_calls_chroma_dims (env : Env) (w h : Int) (pixels : Nat → Byte) :
    ((upload_calls env GLFormat.GL_RG TexId.texUV w h pixels 2).getLast?).bind
      Call.chroma_dims = some (w, h) := by
  unfold upload_calls
  split <;> rfl

theorem getLast?_append_upload_calls (l : List Call) (env : Env) (w h : Int)
    (pixels : Nat → Byte) :
    ((l ++ upload_calls env GLFormat.GL_RG TexId.texUV w h pixels 2).getLast?).bind
      Call.chroma_dims = some (w, h) := by
  unfold upload_calls
  split <;> simp [Call.chroma_dims]

theorem upload_frame_chroma_dims (opts : Options) (env : Env) (mem : Nat → Byte)
    (index length bytesused0 : Nat) (st : LoopState)
    (huv : (plane_layout env.buffers index length bytesused0 st.cur_pixfmt st.cur_width
      st.cur_height).uvbase ≠ 0) :
    ((upload_frame opts env mem index length bytesused0 st).calls.getLast?).bind
      Call.chroma_dims =
      some (uv_w_for st.cur_pixfmt st.cur_width, uv_h_for st.cur_pixfmt st.cur_height) := by
  unfold upload_frame
  simp only [huv, ne_eq, not_false_eq_true, if_true]
  split <;> split <;> exact getLast?_append_upload_calls _ _ _ _ _

/-- C4 as stated fails: for NV24 (not NV12/NV21) and width `2 ^ 31` the chroma width
computed at startup is `-2 ^ 31`, not the width. -/
theorem chroma_dims_counterexample :
    ¬ (V4L2_PIX_FMT_NV24 = V4L2_PIX_FMT_NV12 ∨ V4L2_PIX_FMT_NV24 = V4L2_PIX_FMT_NV21) ∧
    (initial_state default_options sample_env 2147483648 1080
      V4L2_PIX_FMT_NV24).uv_w = -2147483648 ∧
    ((initial_state default_options sample_env 2147483648 1080
        V4L2_PIX_FMT_NV24).uv_w,
      (initial_state default_options sample_env 2147483648 1080
        V4L2_PIX_FMT_NV24).uv_h) ≠ spec_chroma_dims V4L2_PIX_FMT_NV24 2147483648 1080 := by
  decide

/-- C4, amended. For every `uint32_t` width and height, and below `2 ^ 31` when the format
is neither NV12 nor NV21, the chroma dimensions computed at startup, at each format
adoption (event path and periodic path) and at each upload of a resolved chroma plane
are `(width / 2, height / 2)` for NV12/NV21 and `(width, height)` for every other pixel
format; 1920 x 1080 NV12 gives 960 x 540. -/
theorem chroma_dims_at_all_sites (opts : Options) (env : Env) (pf w h : Nat)
    (hw : w < 2 ^ 32) (hh : h < 2 ^ 32)
    (hint : ¬ (pf = V4L2_PIX_FMT_NV12 ∨ pf = V4L2_PIX_FMT_NV21) → w < 2 ^ 31 ∧ h < 2 ^ 31) :
    ((initial_state opts env w h pf).uv_w, (initial_state opts env w h pf).uv_h) =
      spec_chroma_dims pf w h ∧
    (∀ st : LoopState, w ≠ st.cur_width ∨ h ≠ st.cur_height ∨ pf ≠ st.cur_pixfmt →
      ((format_check_event opts env w h pf st).uv_w,
        (format_check_event opts env w h pf st).uv_h) = spec_chroma_dims pf w h ∧
      ((format_check_periodic opts env w h pf st).uv_w,
        (format_check_periodic opts env w h pf st).uv_h) = spec_chroma_dims pf w h) ∧
    (∀ (st : LoopState) (mem : Nat → Byte) (index length bytesused0 : Nat),
      st.cur_width = w → st.cur_height = h → st.cur_pixfmt = pf →
      (plane_layout env.buffers index length bytesused0 pf w h).uvbase ≠ 0 →
      ((upload_frame opts env mem index length bytesused0 st).calls.getLast?).bind
        Call.chroma_dims = some (spec_chroma_dims pf w h)) ∧
    spec_chroma_dims V4L2_PIX_FMT_NV12 1920 1080 = (960, 540) := by
  have hs := uv_for_eq_spec pf w h hw hh hint
  refine ⟨hs, fun st hch => ⟨?_, ?_⟩, fun st mem index length bytesused0 h1 h2 h3 huv => ?_,
    by decide⟩
  · rw [← hs]
    unfold format_check_event
    rw [if_pos hch]
    dsimp only
    split_ifs <;> rfl
  · rw [← hs]
    unfold format_check_periodic
    rw [if_pos hch]
    dsimp only
    split_ifs <;> rfl
  · subst h1 h2 h3
    rw [upload_frame_chroma_dims opts env mem index length bytesused0 st huv, hs]

/-- The scenario of the specification: 1920 x 1080 NV12 gives 960 x 540 at startup. -/
theorem chroma_dims_at_all_sites_witness :
    (1920 < 2 ^ 32 ∧ 1080 < 2 ^ 32) ∧
    ((initial_state default_options sample_env 1920 1080
        V4L2_PIX_FMT_NV12).uv_w,
      (initial_state default_options sample_env 1920 1080
        V4L2_PIX_FMT_NV12).uv_h) = (960, 540) :=
  ⟨by decide, (chroma_dims_at_all_sites default_options sample_env
    V4L2_PIX_FMT_NV12 1920 1080 (by decide) (by decide)
    (fun h => absurd (Or.inl rfl) h)).1.trans (by decide)⟩

/-! ## Format adoption and the swap toggle -/

/-- C5. On both change-detection paths, when the queried width, height and pixel format
equal the adopted ones the check changes nothing: the adopted format, the chroma
dimensions, the swap toggle and the recorded calls (no texture reallocation, no toggle
update) are those of before; hence draining any number of source-change events that all
report the adopted format leaves the state as it was. -/
theorem format_check_same_is_noop (opts : Options) (env : Env) (st : LoopState) :
    format_check_event opts env st.cur_width st.cur_height st.cur_pixfmt st = st ∧
    format_check_periodic opts env st.cur_width st.cur_height st.cur_pixfmt st = st ∧
    ∀ events : List V4L2Event,
      (∀ ev ∈ events, ∀ f, ev.fmt = some f →
        f.width = st.cur_width ∧ f.height = st.cur_height ∧ f.pixelformat = st.cur_pixfmt) →
      drain_events opts env events st = st := by
  have h1 : format_check_event opts env st.cur_width st.cur_height st.cur_pixfmt st = st := by
    simp [format_check_event]
  refine ⟨h1, by simp [format_check_periodic], fun events => ?_⟩
  unfold drain_events
  induction events with
  | nil => intro _; rfl
  | cons ev rest ih =>
    intro hall
    rw [List.foldl_cons]
    have hstep : (if ev.source_change = true then
        match ev.fmt with
        | some f => format_check_event opts env f.width f.height f.pixelformat st
        | none => st
      else st) = st := by
      split
      · cases hf : ev.fmt with
        | none => rfl
        | some f =>
          obtain ⟨a, b, c⟩ := hall ev (List.mem_cons_self _ _) f hf
          simp only [a, b, c, h1]
      · rfl
    rw [hstep]
    exact ih (fun e he => hall e (List.mem_cons_of_mem _ he))

/-- Two source-change events that both report the adopted 1920 x 1080 NV12 format. -/
theorem format_check_same_is_noop_witness :
    drain_events default_options sample_env
      [⟨true, some ⟨1920, 1080, V4L2_PIX_FMT_NV12⟩⟩,
        ⟨true, some ⟨1920, 1080, V4L2_PIX_FMT_NV12⟩⟩]
      (initial_state default_options sample_env 1920 1080
        V4L2_PIX_FMT_NV12) =
      initial_state default_options sample_env 1920 1080
        V4L2_PIX_FMT_NV12 :=
  (format_check_same_is_noop default_options sample_env
    (initial_state default_options sample_env 1920 1080
      V4L2_PIX_FMT_NV12)).2.2 _ (by
        intro ev hev f hf
        simp only [List.mem_cons, List.mem_singleton, List.not_mem_nil, or_false,
          or_self] at hev
        subst hev
        cases hf
        exact ⟨rfl, rfl, rfl⟩)

/-- C6, the failing input: with the override on auto and CPU swap off, startup on
1920 x 1080 NV21 sets the toggle to 1; a source-change event that reports NV24 is adopted
(the format changes and the textures are reallocated) but leaves the toggle at 1, although
the default for NV24 alone, which startup on NV24 applies, is 0. -/
theorem adopt_unrecognized_keeps_swap :
    (initial_state default_options sample_env 1920 1080
      V4L2_PIX_FMT_NV21).uv_swap = 1 ∧
    (format_check_event default_options sample_env 1920 1080
      V4L2_PIX_FMT_NV24
      (initial_state default_options sample_env 1920 1080
        V4L2_PIX_FMT_NV21)).cur_pixfmt = V4L2_PIX_FMT_NV24 ∧
    (format_check_event default_options sample_env 1920 1080
      V4L2_PIX_FMT_NV24
      (initial_state default_options sample_env 1920 1080
        V4L2_PIX_FMT_NV21)).uv_swap = 1 ∧
    (format_check_periodic default_options sample_env 1920 1080
      V4L2_PIX_FMT_NV24
      (initial_state default_options sample_env 1920 1080
        V4L2_PIX_FMT_NV21)).uv_swap = 1 ∧
    (initial_state default_options sample_env 1920 1080
      V4L2_PIX_FMT_NV24).uv_swap = 0 ∧
    spec_swap_default V4L2_PIX_FMT_NV24 = 0 := by
  decide

/-- With the override on auto and CPU swap off, startup sets the toggle to the default of
the pixel format, and a mid-stream adoption of NV12 or NV21 sets it to that format's
default on both paths. -/
theorem swap_default_where_it_holds (opts : Options) (env : Env)
    (hauto : opts.opt_uv_swap_override < 0) (hcpu : opts.opt_cpu_uv_swap = false) :
    (∀ w h pf, (initial_state opts env w h pf).uv_swap = spec_swap_default pf) ∧
    (∀ (st : LoopState) (w h pf : Nat),
      w ≠ st.cur_width ∨ h ≠ st.cur_height ∨ pf ≠ st.cur_pixfmt →
      pf = V4L2_PIX_FMT_NV12 ∨ pf = V4L2_PIX_FMT_NV21 →
      (format_check_event opts env w h pf st).uv_swap = spec_swap_default pf ∧
      (format_check_periodic opts env w h pf st).uv_swap = spec_swap_default pf) := by
  have hne : V4L2_PIX_FMT_NV12 ≠ V4L2_PIX_FMT_NV21 := by decide
  refine ⟨fun w h pf => ?_, fun st w h pf hch hpf => ⟨?_, ?_⟩⟩
  · have h1 : ¬ opts.opt_uv_swap_override ≥ 0 := by omega
    simp only [initial_state, initial_uv_swap, spec_swap_default]
    rw [if_neg h1, hcpu]
    split_ifs <;> first | rfl | contradiction
  · unfold format_check_event
    rw [if_pos hch]
    dsimp only
    rw [if_pos ⟨hauto, by simp [hcpu]⟩]
    rcases hpf with rfl | rfl <;> simp only [spec_swap_default, hne, if_false, if_true] <;>
      split_ifs <;> rfl
  · unfold format_check_periodic
    rw [if_pos hch]
    dsimp only
    rw [if_pos ⟨hauto, by simp [hcpu]⟩]
    rcases hpf with rfl | rfl <;> simp only [spec_swap_default, hne, if_false, if_true] <;>
      split_ifs <;> rfl

/-- The scenario of the specification: after startup on 1920 x 1080 NV12 (toggle 0), a
source-change event reporting 1280 x 720 NV21 reallocates to 1280 x 720 luma and
640 x 360 chroma and flips the toggle to 1. -/
theorem adopt_nv21_after_nv12_flips_swap :
    (initial_state default_options sample_env 1920 1080
      V4L2_PIX_FMT_NV12).uv_swap = 0 ∧
    (format_check_event default_options sample_env 1280 720
      V4L2_PIX_FMT_NV21
      (initial_state default_options sample_env 1920 1080
        V4L2_PIX_FMT_NV12)).uv_swap = 1 ∧
    (format_check_event default_options sample_env 1280 720
      V4L2_PIX_FMT_NV21
      (initial_state default_options sample_env 1920 1080
        V4L2_PIX_FMT_NV12)).shader_uv_swap = 1 ∧
    (format_check_event default_options sample_env 1280 720
      V4L2_PIX_FMT_NV21
      (initial_state default_options sample_env 1920 1080
        V4L2_PIX_FMT_NV12)).uv_w = 640 ∧
    (format_check_event default_options sample_env 1280 720
      V4L2_PIX_FMT_NV21
      (initial_state default_options sample_env 1920 1080
        V4L2_PIX_FMT_NV12)).uv_h = 360 := by
  decide

/-! ## CPU-side swap keeps the shader toggle off -/

theorem format_check_event_toggle (opts : Options) (env : Env) (w h pf : Nat)
    (st : LoopState) (hcpu : opts.opt_cpu_uv_swap = true) :
    (format_check_event opts env w h pf st).uv_swap = st.uv_swap ∧
    (format_check_event opts env w h pf st).shader_uv_swap = st.shader_uv_swap := by
  unfold format_check_event
  have hg : ¬ (opts.opt_uv_swap_override < 0 ∧ ¬ opts.opt_cpu_uv_swap = true) := by
    simp [hcpu]
  split_ifs <;> exact ⟨rfl, rfl⟩

theorem format_check_periodic_toggle (opts : Options) (env : Env) (w h pf : Nat)
    (st : LoopState) (hcpu : opts.opt_cpu_uv_swap = true) :
    (format_check_periodic opts env w h pf st).uv_swap = st.uv_swap ∧
    (format_check_periodic opts env w h pf st).shader_uv_swap = st.shader_uv_swap := by
  unfold format_check_periodic
  have hg : ¬ (opts.opt_uv_swap_override < 0 ∧ ¬ opts.opt_cpu_uv_swap = true) := by
    simp [hcpu]
  split_ifs <;> exact ⟨rfl, rfl⟩

theorem drain_events_toggle (opts : Options) (env : Env) (events : List V4L2Event)
    (hcpu : opts.opt_cpu_uv_swap = true) :
    ∀ st : LoopState, (drain_events opts env events st).uv_swap = st.uv_swap ∧
      (drain_events opts env events st).shader_uv_swap = st.shader_uv_swap := by
  unfold drain_events
  induction events with
  | nil => intro st; exact ⟨rfl, rfl⟩
  | cons ev rest ih =>
    intro st
    rw [List.foldl_cons]
    have hstep : (if ev.source_change = true then
          match ev.fmt with
          | some f => format_check_event opts env f.width f.height f.pixelformat st
          | none => st
        else st).uv_swap = st.uv_swap ∧
        (if ev.source_change = true then
          match ev.fmt with
          | some f => format_check_event opts env f.width f.height f.pixelformat st
          | none => st
        else st).shader_uv_swap = st.shader_uv_swap := by
      split
      · cases ev.fmt with
        | none => exact ⟨rfl, rfl⟩
        | some f => exact format_check_event_toggle opts env _ _ _ st hcpu
      · exact ⟨rfl, rfl⟩
    have := ih (if ev.source_change = true then
          match ev.fmt with
          | some f => format_check_event opts env f.width f.height f.pixelformat st
          | none => st
        else st)
    exact ⟨this.1.trans hstep.1, this.2.trans hstep.2⟩

theorem upload_frame_toggle (opts : Options) (env : Env) (mem : Nat → Byte)
    (index length bytesused0 : Nat) (st : LoopState) :
    (upload_frame opts env mem index length bytesused0 st).uv_swap = st.uv_swap ∧
    (upload_frame opts env mem index length bytesused0 st).shader_uv_swap =
      st.shader_uv_swap := by
  unfold upload_frame
  dsimp only
  split_ifs <;> exact ⟨rfl, rfl⟩

theorem draw_frame_toggle (opts : Options) (env : Env) (st : LoopState)
    (hcpu : opts.opt_cpu_uv_swap = true) :
    (draw_frame opts env st).uv_swap = st.uv_swap ∧
    (draw_frame opts env st).shader_uv_swap = st.shader_uv_swap := by
  unfold draw_frame
  have hg : ¬ (¬ opts.opt_cpu_uv_swap = true ∧ env.loc_uv_swap ≥ 0) := by simp [hcpu]
  dsimp only
  rw [if_neg hg]
  exact ⟨rfl, rfl⟩

theorem handle_sdl_events_toggle (events : List SDLEvent) :
    ∀ st : LoopState, (handle_sdl_events events st).uv_swap = st.uv_swap ∧
      (handle_sdl_events events st).shader_uv_swap = st.shader_uv_swap := by
  unfold handle_sdl_events
  induction events with
  | nil => intro st; exact ⟨rfl, rfl⟩
  | cons e rest ih =>
    intro st
    rw [List.foldl_cons]
    cases e with
    | quit => exact ih _
    | key_escape => exact ih _
    | key_f fs =>
      cases fs
      · exact ih _
      · exact ih _
    | other => exact ih _

theorem loop_iteration_toggle (opts : Options) (env : Env) (inp : IterInput)
    (st : LoopState) (hcpu : opts.opt_cpu_uv_swap = true) :
    (loop_iteration opts env inp st).1.uv_swap = st.uv_swap ∧
    (loop_iteration opts env inp st).1.shader_uv_swap = st.shader_uv_swap := by
  have hdrain : ∀ poll : PollResult,
      (match poll with
        | PollResult.ready true => drain_events opts env inp.events st
        | _ => st).uv_swap = st.uv_swap ∧
      (match poll with
        | PollResult.ready true => drain_events opts env inp.events st
        | _ => st).shader_uv_swap = st.shader_uv_swap := by
    intro poll
    split
    · exact drain_events_toggle opts env inp.events hcpu st
    · exact ⟨rfl, rfl⟩
  have hper : ∀ s : LoopState,
      (if s.frame_count % CHECK_FMT_INTERVAL = 0 then
        match inp.periodic_fmt with
        | some f => format_check_periodic opts env f.width f.height f.pixelformat s
        | none => s
      else s).uv_swap = s.uv_swap ∧
      (if s.frame_count % CHECK_FMT_INTERVAL = 0 then
        match inp.periodic_fmt with
        | some f => format_check_periodic opts env f.width f.height f.pixelformat s
        | none => s
      else s).shader_uv_swap = s.shader_uv_swap := by
    intro s
    split
    · cases inp.periodic_fmt with
      | none => exact ⟨rfl, rfl⟩
      | some f => exact format_check_periodic_toggle opts env _ _ _ s hcpu
    · exact ⟨rfl, rfl⟩
  have hbody : ∀ s : LoopState, s.uv_swap = st.uv_swap ∧ s.shader_uv_swap = st.shader_uv_swap →
      (match inp.dqbuf with
        | DqbufResult.again =>
          (({ s with frame_count := (s.frame_count + 1) % 2 ^ 64 } : LoopState), false)
        | DqbufResult.error => (s, true)
        | DqbufResult.ok index length bytesused0 =>
          if inp.requeue_ok then
            ({ handle_sdl_events inp.sdl_events
                { draw_frame opts env (upload_frame opts env inp.mem index length bytesused0 s)
                  with calls := (draw_frame opts env
                    (upload_frame opts env inp.mem index length bytesused0 s)).calls ++
                      [Call.VIDIOC_QBUF index] } with
              frame_count := ((handle_sdl_events inp.sdl_events
                { draw_frame opts env (upload_frame opts env inp.mem index length bytesused0 s)
                  with calls := (draw_frame opts env
                    (upload_frame opts env inp.mem index length bytesused0 s)).calls ++
                      [Call.VIDIOC_QBUF index] }).frame_count + 1) % 2 ^ 64 }, false)
          else (draw_frame opts env (upload_frame opts env inp.mem index length bytesused0 s),
            true)).1.uv_swap = st.uv_swap ∧
      (match inp.dqbuf with
        | DqbufResult.again =>
          (({ s with frame_count := (s.frame_count + 1) % 2 ^ 64 } : LoopState), false)
        | DqbufResult.error => (s, true)
        | DqbufResult.ok index length bytesused0 =>
          if inp.requeue_ok then
            ({ handle_sdl_events inp.sdl_events
                { draw_frame opts env (upload_frame opts env inp.mem index length bytesused0 s)
                  with calls := (draw_frame opts env
                    (upload_frame opts env inp.mem index length bytesused0 s)).calls ++
                      [Call.VIDIOC_QBUF index] } with
              frame_count := ((handle_sdl_events inp.sdl_events
                { draw_frame opts env (upload_frame opts env inp.mem index length bytesused0 s)
                  with calls := (draw_frame opts env
                    (upload_frame opts env inp.mem index length bytesused0 s)).calls ++
                      [Call.VIDIOC_QBUF index] }).frame_count + 1) % 2 ^ 64 }, false)
          else (draw_frame opts env (upload_frame opts env inp.mem index length bytesused0 s),
            true)).1.shader_uv_swap = st.shader_uv_swap := by
    intro s hs
    cases inp.dqbuf with
    | again => exact hs
    | error => exact hs
    | ok index length bytesused0 =>
      have hu := upload_frame_toggle opts env inp.mem index length bytesused0 s
      have hd := draw_frame_toggle opts env
        (upload_frame opts env inp.mem index length bytesused0 s) hcpu
      dsimp only
      split
      · have he := handle_sdl_events_toggle inp.sdl_events
          { draw_frame opts env (upload_frame opts env inp.mem index length bytesused0 s)
            with calls := (draw_frame opts env
              (upload_frame opts env inp.mem index length bytesused0 s)).calls ++
                [Call.VIDIOC_QBUF index] }
        exact ⟨he.1.trans (hd.1.trans (hu.1.trans hs.1)),
          he.2.trans (hd.2.trans (hu.2.trans hs.2))⟩
      · exact ⟨hd.1.trans (hu.1.trans hs.1), hd.2.trans (hu.2.trans hs.2)⟩
  unfold loop_iteration
  cases hp : inp.poll with
  | eintr => exact ⟨rfl, rfl⟩
  | error => exact ⟨rfl, rfl⟩
  | timeout =>
    have h1 := hper st
    exact hbody _ h1
  | ready pri =>
    have h0 := hdrain (PollResult.ready pri)
    have h1 := hper (match PollResult.ready pri with
        | PollResult.ready true => drain_events opts env inp.events st
        | _ => st)
    exact hbody _ ⟨h1.1.trans h0.1, h1.2.trans h0.2⟩

theorem run_loop_toggle (opts : Options) (env : Env) (hcpu : opts.opt_cpu_uv_swap = true)
    (inputs : List IterInput) :
    ∀ st : LoopState, (run_loop opts env inputs st).uv_swap = st.uv_swap ∧
      (run_loop opts env inputs st).shader_uv_swap = st.shader_uv_swap := by
  induction inputs with
  | nil => intro st; exact ⟨rfl, rfl⟩
  | cons inp rest ih =>
    intro st
    rw [run_loop]
    split
    · have hi := loop_iteration_toggle opts env inp st hcpu
      split
      · rename_i st1 heq
        rw [heq] at hi
        exact hi
      · rename_i st1 heq
        rw [heq] at hi
        have := ih st1
        exact ⟨this.1.trans hi.1, this.2.trans hi.2⟩
    · exact ⟨rfl, rfl⟩

/-- C7. With CPU-side swap enabled, for every override setting, every startup format and
every sequence of loop iterations (whatever formats they adopt), the swap toggle and the
shader's `uv_swap` uniform are 0 after initialisation and are still 0 after the
iterations; in an iteration that performs the CPU exchange the shader therefore does not
exchange again. -/
theorem cpu_swap_keeps_shader_toggle_off (opts : Options) (env : Env)
    (cur_width cur_height cur_pixfmt : Nat) (inputs : List IterInput)
    (hcpu : opts.opt_cpu_uv_swap = true) :
    (initial_state opts env cur_width cur_height cur_pixfmt).uv_swap = 0 ∧
    (initial_state opts env cur_width cur_height cur_pixfmt).shader_uv_swap = 0 ∧
    (run_loop opts env inputs
      (initial_state opts env cur_width cur_height cur_pixfmt)).uv_swap = 0 ∧
    (run_loop opts env inputs
      (initial_state opts env cur_width cur_height cur_pixfmt)).shader_uv_swap = 0 := by
  have h0 : (initial_state opts env cur_width cur_height cur_pixfmt).uv_swap = 0 := by
    simp [initial_state, initial_uv_swap, hcpu]
  have h1 : (initial_state opts env cur_width cur_height cur_pixfmt).shader_uv_swap = 0 := by
    simp [initial_state, initial_uv_swap, hcpu]
  have hr := run_loop_toggle opts env hcpu inputs
    (initial_state opts env cur_width cur_height cur_pixfmt)
  exact ⟨h0, h1, hr.1.trans h0, hr.2.trans h1⟩

/-- CPU-side swap with the override forced to 1: startup on 1920 x 1080 NV21, then one
iteration that adopts 1280 x 720 NV12 from a source-change event and processes a frame,
then one that processes a frame and sees a quit input. -/
theorem cpu_swap_keeps_shader_toggle_off_witness :
    (initial_state cpu_swap_options sample_env 1920 1080
      V4L2_PIX_FMT_NV21).uv_swap = 0 ∧
    (initial_state cpu_swap_options sample_env 1920 1080
      V4L2_PIX_FMT_NV21).shader_uv_swap = 0 ∧
    (run_loop cpu_swap_options sample_env
      [⟨PollResult.ready true, [⟨true, some ⟨1280, 720, V4L2_PIX_FMT_NV12⟩⟩], none,
          DqbufResult.ok 0 1 1382400, fun _ => 0, true, []⟩,
        ⟨PollResult.ready false, [], none, DqbufResult.ok 0 1 1382400, fun _ => 0, true,
          [SDLEvent.quit]⟩]
      (initial_state cpu_swap_options sample_env 1920 1080
        V4L2_PIX_FMT_NV21)).uv_swap = 0 ∧
    (run_loop cpu_swap_options sample_env
      [⟨PollResult.ready true, [⟨true, some ⟨1280, 720, V4L2_PIX_FMT_NV12⟩⟩], none,
          DqbufResult.ok 0 1 1382400, fun _ => 0, true, []⟩,
        ⟨PollResult.ready false, [], none, DqbufResult.ok 0 1 1382400, fun _ => 0, true,
          [SDLEvent.quit]⟩]
      (initial_state cpu_swap_options sample_env 1920 1080
        V4L2_PIX_FMT_NV21)).shader_uv_swap = 0 :=
  cpu_swap_keeps_shader_toggle_off cpu_swap_options
    sample_env 1920 1080 V4L2_PIX_FMT_NV21
    [⟨PollResult.ready true, [⟨true, some ⟨1280, 720, V4L2_PIX_FMT_NV12⟩⟩], none,
        DqbufResult.ok 0 1 1382400, fun _ => 0, true, []⟩,
      ⟨PollResult.ready false, [], none, DqbufResult.ok 0 1 1382400, fun _ => 0, true,
        [SDLEvent.quit]⟩] rfl

/-! ## The CPU swap loop -/

theorem store_length (dst : List Byte) (i : Nat) (b : Byte) :
    (store dst i b).length = dst.length := by
  simp [store]

theorem readBuf_store (dst : List Byte) (i : Nat) (b : Byte) (j : Nat) :
    readBuf (store dst i b) j = if j = i ∧ i < dst.length then b else readBuf dst j := by
  unfold readBuf store
  by_cases hji : j = i
  · subst hji
    by_cases hl : j < dst.length
    · simp [List.getD, List.getElem?_set, hl]
    · have h1 : (dst.set j b)[j]? = none :=
        List.getElem?_eq_none (by rw [List.length_set]; omega)
      have h2 : dst[j]? = none := List.getElem?_eq_none (by omega)
      simp [List.getD, h1, h2, hl]
  · have hne : i ≠ j := fun h => hji h.symm
    simp [List.getD, List.getElem?_set, hne, hji]

theorem swap_row_succ (src : Nat → Byte) (soff doff n : Nat) (dst : List Byte) :
    swap_row src soff doff (n + 1) dst =
      store (store (swap_row src soff doff n dst) (doff + (n * 2 + 0))
        (src (soff + (n * 2 + 1)))) (doff + (n * 2 + 1)) (src (soff + (n * 2 + 0))) := by
  unfold swap_row
  rw [List.range_succ, List.foldl_append]
  rfl

theorem swap_row_length (src : Nat → Byte) (soff doff n : Nat) (dst : List Byte) :
    (swap_row src soff doff n dst).length = dst.length := by
  induction n with
  | zero => rfl
  | succ k ih => rw [swap_row_succ, store_length, store_length, ih]

theorem swap_row_outside (src : Nat → Byte) (soff doff n : Nat) (dst : List Byte) (j : Nat)
    (hj : j < doff ∨ doff + 2 * n ≤ j) :
    readBuf (swap_row src soff doff n dst) j = readBuf dst j := by
  induction n with
  | zero => rfl
  | succ k ih =>
    rw [swap_row_succ, readBuf_store, readBuf_store, if_neg (by omega), if_neg (by omega)]
    exact ih (by omega)

theorem swap_row_inside (src : Nat → Byte) (soff doff n : Nat) (dst : List Byte)
    (hlen : doff + 2 * n ≤ dst.length) (x : Nat) (hx : x < n) :
    readBuf (swap_row src soff doff n dst) (doff + (x * 2 + 0)) = src (soff + (x * 2 + 1)) ∧
    readBuf (swap_row src soff doff n dst) (doff + (x * 2 + 1)) = src (soff + (x * 2 + 0)) := by
  induction n with
  | zero => omega
  | succ k ih =>
    have hl := swap_row_length src soff doff k dst
    rw [swap_row_succ]
    by_cases hxk : x = k
    · subst hxk
      constructor
      · rw [readBuf_store, if_neg (by omega), readBuf_store, if_pos ⟨rfl, by omega⟩]
      · rw [readBuf_store, if_pos ⟨rfl, by rw [store_length]; omega⟩]
    · have := ih (by omega) (by omega)
      constructor
      · rw [readBuf_store, if_neg (by omega), readBuf_store, if_neg (by omega)]
        exact this.1
      · rw [readBuf_store, if_neg (by omega), readBuf_store, if_neg (by omega)]
        exact this.2

theorem swap_rows_succ (src : Nat → Byte) (stride uw n : Nat) (dst : List Byte) :
    swap_rows src stride uw (n + 1) dst =
      swap_row src (n * stride) (n * uw * 2) uw (swap_rows src stride uw n dst) := by
  unfold swap_rows
  rw [List.range_succ, List.foldl_append]
  rfl

theorem swap_rows_length (src : Nat → Byte) (stride uw n : Nat) (dst : List Byte) :
    (swap_rows src stride uw n dst).length = dst.length := by
  induction n with
  | zero => rfl
  | succ k ih => rw [swap_rows_succ, swap_row_length, ih]

theorem swap_rows_inside (src : Nat → Byte) (stride uw n : Nat) (dst : List Byte)
    (hlen : n * uw * 2 ≤ dst.length) (y x : Nat) (hy : y < n) (hx : x < uw) :
    readBuf (swap_rows src stride uw n dst) (y * uw * 2 + (x * 2 + 0)) =
      src (y * stride + (x * 2 + 1)) ∧
    readBuf (swap_rows src stride uw n dst) (y * uw * 2 + (x * 2 + 1)) =
      src (y * stride + (x * 2 + 0)) := by
  induction n with
  | zero => omega
  | succ k ih =>
    have hk : (k + 1) * uw * 2 = k * uw * 2 + 2 * uw := by ring
    rw [swap_rows_succ]
    by_cases hyk : y = k
    · subst hyk
      exact swap_row_inside src _ _ uw _ (by rw [swap_rows_length]; omega) x hx
    · have hyk2 : (y + 1) * uw * 2 ≤ k * uw * 2 :=
        Nat.mul_le_mul_right _ (Nat.mul_le_mul_right _ (by omega))
      have hy1 : (y + 1) * uw * 2 = y * uw * 2 + 2 * uw := by ring
      rw [swap_row_outside _ _ _ _ _ _ (by omega), swap_row_outside _ _ _ _ _ _ (by omega)]
      exact ih (by omega) (by omega)

theorem cpu_uv_swap_eq (nv : Bool) (cur_width uw uh : Nat) (uvbase : Nat → Byte)
    (tmp : List Byte) :
    cpu_uv_swap nv cur_width uw uh uvbase tmp =
      swap_rows uvbase (if nv then cur_width else uw * 2) uw uh
        (if tmp.length < uw * uh * 2 then resize tmp (uw * uh * 2) else tmp) := by
  unfold cpu_uv_swap swap_rows swap_row
  cases nv
  · simp only [Bool.false_eq_true, if_false, Nat.mul_assoc]
  · rfl

/-- Every byte offset below `uh * uw * 2` is a row, a pair and a position in the pair. -/
theorem pair_offset (j uw uh : Nat) (hj : j < uw * uh * 2) :
    ∃ y x p, y < uh ∧ x < uw ∧ p < 2 ∧ j = y * uw * 2 + (x * 2 + p) := by
  have huw : 0 < uw := by
    rcases Nat.eq_zero_or_pos uw with h | h
    · subst h; simp at hj
    · exact h
  refine ⟨j / 2 / uw, j / 2 % uw, j % 2, ?_, Nat.mod_lt _ huw, Nat.mod_lt _ (by decide), ?_⟩
  · apply Nat.div_lt_of_lt_mul
    apply Nat.div_lt_of_lt_mul
    calc j < uw * uh * 2 := hj
      _ = 2 * (uw * uh) := by ring
  · have h1 := Nat.div_add_mod (j / 2) uw
    have h2 := Nat.div_add_mod j 2
    have h3 : j / 2 / uw * uw * 2 = 2 * (uw * (j / 2 / uw)) := by ring
    omega

theorem readBuf_take (l : List Byte) (n j : Nat) (hj : j < n) :
    readBuf (l.take n) j = readBuf l j := by
  unfold readBuf
  simp [List.getD, List.getElem?_take, hj]

theorem grown_length (tmp : List Byte) (need : Nat) :
    need ≤ (if tmp.length < need then resize tmp need else tmp).length := by
  split
  · rw [resize_length]
  · omega

/-- C8, the failing input: the NV12/NV21 swap loop for a frame of width 3 (chroma 1 x 2,
two pairs per plane), which reads its second source row at offset `cur_width = 3`. On a
chroma plane holding `1 2 3 4 5 6`, with six stale bytes `9` in the scratch vector, the
first run leaves `2 1 5 4 9 9`; the second run, on those bytes, leaves `1 2 9 4 9 9`,
whose first four bytes are not the `1 2 3 4` the plane starts with. When each run is
handed exactly the four bytes of two pairs `1 2 3 4` (the byte behind them read as 0),
the two runs give `1 2 0 4`. -/
theorem cpu_uv_swap_twice_odd_width :
    cpu_uv_swap true 3 1 2 (readBuf [1, 2, 3, 4, 5, 6]) [9, 9, 9, 9, 9, 9] =
      [2, 1, 5, 4, 9, 9] ∧
    cpu_uv_swap true 3 1 2 (readBuf [2, 1, 5, 4, 9, 9]) [9, 9, 9, 9, 9, 9] =
      [1, 2, 9, 4, 9, 9] ∧
    (cpu_uv_swap true 3 1 2
      (readBuf ((cpu_uv_swap true 3 1 2 (readBuf [1, 2, 3, 4]) []).take (1 * 2 * 2)))
      []).take (1 * 2 * 2) = [1, 2, 0, 4] := by
  decide

/-- Where C8 holds: for every chroma width and height and every chroma buffer made of that
many two-byte pairs per row, when source rows are `upload_w * 2` bytes apart (which for
the NV12/NV21 loop means `cur_width = upload_w * 2`, an even frame width), running the CPU
swap loop on the buffer and running it again on the bytes it produced gives back the
original byte sequence, whatever the scratch vector held before either run. -/
theorem cpu_uv_swap_involution (nv : Bool) (cur_width upload_w upload_h : Nat)
    (buf tmp1 tmp2 : List Byte)
    (hlen : buf.length = upload_w * upload_h * 2)
    (hstride : nv = true → cur_width = upload_w * 2) :
    (cpu_uv_swap nv cur_width upload_w upload_h
      (readBuf ((cpu_uv_swap nv cur_width upload_w upload_h (readBuf buf) tmp1).take
        (upload_w * upload_h * 2))) tmp2).take (upload_w * upload_h * 2) = buf := by
  have hs : (if nv = true then cur_width else upload_w * 2) = upload_w * 2 := by
    cases nv
    · rfl
    · exact hstride rfl
  rw [cpu_uv_swap_eq, cpu_uv_swap_eq, hs]
  have hcomm : upload_h * upload_w * 2 = upload_w * upload_h * 2 := by ring
  have hg1 := grown_length tmp1 (upload_w * upload_h * 2)
  have hg2 := grown_length tmp2 (upload_w * upload_h * 2)
  apply buf_ext
  · rw [List.length_take, swap_rows_length, hlen]
    omega
  · intro j hj
    rw [List.length_take, swap_rows_length] at hj
    have hj2 : j < upload_w * upload_h * 2 := by omega
    obtain ⟨y, x, p, hy, hx, hp, rfl⟩ := pair_offset j upload_w upload_h hj2
    have hrow : (y + 1) * upload_w * 2 ≤ upload_h * upload_w * 2 :=
      Nat.mul_le_mul_right _ (Nat.mul_le_mul_right _ (by omega))
    have hrow1 : (y + 1) * upload_w * 2 = y * upload_w * 2 + 2 * upload_w := by ring
    have hassoc : y * (upload_w * 2) = y * upload_w * 2 := by ring
    have h2 := swap_rows_inside
      (readBuf ((swap_rows (readBuf buf) (upload_w * 2) upload_w upload_h
        (if tmp1.length < upload_w * upload_h * 2 then resize tmp1 (upload_w * upload_h * 2)
          else tmp1)).take (upload_w * upload_h * 2)))
      (upload_w * 2) upload_w upload_h
      (if tmp2.length < upload_w * upload_h * 2 then resize tmp2 (upload_w * upload_h * 2)
        else tmp2) (by omega) y x hy hx
    have h1 := swap_rows_inside (readBuf buf) (upload_w * 2) upload_w upload_h
      (if tmp1.length < upload_w * upload_h * 2 then resize tmp1 (upload_w * upload_h * 2)
        else tmp1) (by omega) y x hy hx
    rw [readBuf_take _ _ _ hj2]
    rcases Nat.eq_zero_or_pos p with hp0 | hp0
    · subst hp0
      rw [h2.1, hassoc, readBuf_take _ _ _ (by omega), h1.2, hassoc]
    · have hp1 : p = 1 := by omega
      subst hp1
      rw [h2.2, hassoc, readBuf_take _ _ _ (by omega), h1.1, hassoc]

/-- A 2 x 2 chroma plane of an NV21 frame of width 4, swapped twice through scratch
vectors with stale contents. -/
theorem cpu_uv_swap_involution_witness :
    (cpu_uv_swap true 4 2 2
      (readBuf ((cpu_uv_swap true 4 2 2 (readBuf [1, 2, 3, 4, 5, 6, 7, 8]) [9, 9, 9]).take
        (2 * 2 * 2))) [7, 7, 7, 7, 7, 7, 7, 7, 7, 7]).take (2 * 2 * 2) =
      [1, 2, 3, 4, 5, 6, 7, 8] :=
  cpu_uv_swap_involution true 4 2 2 [1, 2, 3, 4, 5, 6, 7, 8] [9, 9, 9]
    [7, 7, 7, 7, 7, 7, 7, 7, 7, 7] rfl (fun _ => rfl)

/-! ## The packed fallback -/

theorem packed_loop_succ (src : Nat → Byte) (n : Nat) (buf : List Byte) :
    packed_loop src (n + 1) buf =
      (store (store (store (packed_loop src n buf).1 (packed_loop src n buf).2
          (src (n * 3 + 0))) ((packed_loop src n buf).2 + 1) (src (n * 3 + 1)))
        ((packed_loop src n buf).2 + 2) (src (n * 3 + 2)), (packed_loop src n buf).2 + 3) := by
  unfold packed_loop
  rw [List.range_succ, List.foldl_append]
  rfl

theorem packed_loop_copies (src : Nat → Byte) (n : Nat) (buf : List Byte)
    (hlen : 3 * n ≤ buf.length) :
    (packed_loop src n buf).2 = 3 * n ∧ (packed_loop src n buf).1.length = buf.length ∧
    ∀ k, k < buf.length →
      readBuf (packed_loop src n buf).1 k = if k < 3 * n then src k else readBuf buf k := by
  induction n with
  | zero => exact ⟨rfl, rfl, fun k _ => by simp [packed_loop]⟩
  | succ m ih =>
    obtain ⟨hj, hl, hr⟩ := ih (by omega)
    rw [packed_loop_succ]
    refine ⟨by simp only; omega, by simp only [store_length, hl], fun k hk => ?_⟩
    simp only
    rw [readBuf_store, readBuf_store, readBuf_store, store_length, store_length, hl, hj, hr k hk]
    have e0 : m * 3 + 0 = 3 * m := by omega
    have e1 : m * 3 + 1 = 3 * m + 1 := by omega
    have e2 : m * 3 + 2 = 3 * m + 2 := by omega
    rw [e0, e1, e2]
    by_cases h2 : k = 3 * m + 2
    · subst h2
      rw [if_pos ⟨rfl, by omega⟩, if_pos (by omega)]
    · rw [if_neg (fun h => h2 h.1)]
      by_cases h1 : k = 3 * m + 1
      · subst h1
        rw [if_pos ⟨rfl, by omega⟩, if_pos (by omega)]
      · rw [if_neg (fun h => h1 h.1)]
        by_cases h0 : k = 3 * m
        · subst h0
          rw [if_pos ⟨rfl, by omega⟩, if_pos (by omega)]
        · rw [if_neg (fun h => h0 h.1)]
          by_cases hlt : k < 3 * m
          · rw [if_pos hlt, if_pos (by omega)]
          · rw [if_neg hlt, if_neg (by omega)]

/-- What the packed fallback does for every frame whose `3 * width * height` bytes fit
`size_t`: the scratch buffer receives the source bytes in their original, interleaved
order, so the luma scratch pointer sees source byte `i` at position `i` and the chroma
scratch pointer sees source byte `width * height + k` at position `k`. -/
theorem packed_fallback_is_verbatim_copy (cur_width cur_height : Nat) (src : Nat → Byte)
    (tmp : List Byte) (hfit : 3 * (cur_width * cur_height) < 2 ^ 64) :
    (∀ i, i < cur_width * cur_height →
      fallback_tmpY (packed_fallback cur_width cur_height src tmp) i = src i) ∧
    (∀ k, k < 2 * (cur_width * cur_height) →
      fallback_tmpUV cur_width cur_height (packed_fallback cur_width cur_height src tmp) k =
        src (cur_width * cur_height + k)) := by
  have hY : Y_len cur_width cur_height = cur_width * cur_height := by
    unfold Y_len size_t
    exact Nat.mod_eq_of_lt (by omega)
  have hneed : size_t (Y_len cur_width cur_height +
      size_t (size_t (cur_width * cur_height) * 2)) = 3 * (cur_width * cur_height) := by
    rw [hY]
    unfold size_t
    rw [Nat.mod_eq_of_lt (a := cur_width * cur_height) (by omega),
      Nat.mod_eq_of_lt (a := cur_width * cur_height * 2) (by omega),
      Nat.mod_eq_of_lt (by omega)]
    omega
  have hn : size_t (cur_width * cur_height) = cur_width * cur_height := by
    unfold size_t
    exact Nat.mod_eq_of_lt (by omega)
  have hpf : packed_fallback cur_width cur_height src tmp =
      (packed_loop src (cur_width * cur_height)
        (if tmp.length < 3 * (cur_width * cur_height) then
          resize tmp (3 * (cur_width * cur_height)) else tmp)).1 := by
    unfold packed_fallback packed_loop
    dsimp only
    rw [hneed, hn]
  have hg := grown_length tmp (3 * (cur_width * cur_height))
  obtain ⟨_, _, hr⟩ := packed_loop_copies src (cur_width * cur_height) _ hg
  constructor
  · intro i hi
    unfold fallback_tmpY
    rw [hpf, hr i (by omega), if_pos (by omega)]
  · intro k hk
    unfold fallback_tmpUV ptrAdd
    rw [hpf, hY, hr _ (by omega), if_pos (by omega)]

/-- C10, the failing input: a 2 x 1 packed frame `Y0 U0 V0 Y1 U1 V1 = 10 20 30 40 50 60`.
The luma scratch buffer holds `U0 = 20` at position 1 where the claim puts source byte
`3 * 1`, `Y1 = 40`; the chroma scratch buffer holds `30 40` at positions 0 and 1 where the
claim puts source bytes 1 and 2, `20 30`. -/
theorem packed_fallback_not_deinterleaved :
    packed_fallback 2 1 (readBuf [10, 20, 30, 40, 50, 60]) [] = [10, 20, 30, 40, 50, 60] ∧
    fallback_tmpY (packed_fallback 2 1 (readBuf [10, 20, 30, 40, 50, 60]) []) 1 = 20 ∧
    readBuf [10, 20, 30, 40, 50, 60] (3 * 1) = 40 ∧
    fallback_tmpUV 2 1 (packed_fallback 2 1 (readBuf [10, 20, 30, 40, 50, 60]) []) 0 = 30 ∧
    fallback_tmpUV 2 1 (packed_fallback 2 1 (readBuf [10, 20, 30, 40, 50, 60]) []) 1 = 40 ∧
    readBuf [10, 20, 30, 40, 50, 60] (3 * 0 + 1) = 20 ∧
    readBuf [10, 20, 30, 40, 50, 60] (3 * 0 + 2) = 30 := by
  decide

/-! ## Loop control -/

theorem format_check_event_running (opts : Options) (env : Env) (w h pf : Nat)
    (st : LoopState) : (format_check_event opts env w h pf st).running = st.running := by
  unfold format_check_event
  dsimp only
  split_ifs <;> rfl

theorem format_check_periodic_running (opts : Options) (env : Env) (w h pf : Nat)
    (st : LoopState) : (format_check_periodic opts env w h pf st).running = st.running := by
  unfold format_check_periodic
  dsimp only
  split_ifs <;> rfl

theorem drain_events_running (opts : Options) (env : Env) (events : List V4L2Event) :
    ∀ st : LoopState, (drain_events opts env events st).running = st.running := by
  unfold drain_events
  induction events with
  | nil => intro st; rfl
  | cons ev rest ih =>
    intro st
    rw [List.foldl_cons, ih]
    split
    · cases ev.fmt with
      | none => rfl
      | some f => exact format_check_event_running opts env _ _ _ st
    · rfl

theorem state_before_dequeue_running (opts : Options) (env : Env) (inp : IterInput)
    (st : LoopState) : (state_before_dequeue opts env inp st).running = st.running := by
  have h1 : (match inp.poll with
      | PollResult.ready true => drain_events opts env inp.events st
      | _ => st).running = st.running := by
    split
    · exact drain_events_running opts env inp.events st
    · rfl
  unfold state_before_dequeue
  dsimp only
  split
  · cases inp.periodic_fmt with
    | none => exact h1
    | some f => exact (format_check_periodic_running opts env _ _ _ _).trans h1
  · exact h1

theorem upload_frame_running (opts : Options) (env : Env) (mem : Nat → Byte)
    (index length bytesused0 : Nat) (st : LoopState) :
    (upload_frame opts env mem index length bytesused0 st).running = st.running := by
  unfold upload_frame
  dsimp only
  split_ifs <;> rfl

theorem draw_frame_running (opts : Options) (env : Env) (st : LoopState) :
    (draw_frame opts env st).running = st.running := by
  unfold draw_frame
  dsimp only
  split_ifs <;> rfl

theorem handle_sdl_events_running (events : List SDLEvent) :
    ∀ st : LoopState, (handle_sdl_events events st).running =
      (st.running && events.all (fun e => !e.is_quit)) := by
  unfold handle_sdl_events
  induction events with
  | nil => intro st; simp
  | cons e rest ih =>
    intro st
    rw [List.foldl_cons, ih]
    cases e with
    | quit => simp [SDLEvent.is_quit]
    | key_escape => simp [SDLEvent.is_quit]
    | key_f fs => cases fs <;> simp [SDLEvent.is_quit]
    | other => simp [SDLEvent.is_quit]

/-- The body of the loop from the dequeue attempt on, as a function of the state in which
the dequeue is attempted. -/
theorem loop_iteration_from_dequeue (opts : Options) (env : Env) (inp : IterInput)
    (st : LoopState) (hpoll : inp.poll ≠ PollResult.eintr ∧ inp.poll ≠ PollResult.error) :
    loop_iteration opts env inp st =
      match inp.dqbuf with
      | DqbufResult.again =>
        ({ state_before_dequeue opts env inp st with
          frame_count := ((state_before_dequeue opts env inp st).frame_count + 1) % 2 ^ 64 },
          false)
      | DqbufResult.error => (state_before_dequeue opts env inp st, true)
      | DqbufResult.ok index length bytesused0 =>
        if inp.requeue_ok then
          ({ handle_sdl_events inp.sdl_events
              { draw_frame opts env (upload_frame opts env inp.mem index length bytesused0
                  (state_before_dequeue opts env inp st)) with
                calls := (draw_frame opts env (upload_frame opts env inp.mem index length
                  bytesused0 (state_before_dequeue opts env inp st))).calls ++
                    [Call.VIDIOC_QBUF index] } with
            frame_count := ((handle_sdl_events inp.sdl_events
              { draw_frame opts env (upload_frame opts env inp.mem index length bytesused0
                  (state_before_dequeue opts env inp st)) with
                calls := (draw_frame opts env (upload_frame opts env inp.mem index length
                  bytesused0 (state_before_dequeue opts env inp st))).calls ++
                    [Call.VIDIOC_QBUF index] }).frame_count + 1) % 2 ^ 64 }, false)
        else
          (draw_frame opts env (upload_frame opts env inp.mem index length bytesused0
            (state_before_dequeue opts env inp st)), true) := by
  unfold loop_iteration state_before_dequeue
  cases hp : inp.poll with
  | eintr => exact absurd hp hpoll.1
  | error => exact absurd hp hpoll.2
  | timeout => rfl
  | ready pri => rfl

/-- Loop control of an iteration whose frame processing completes (`loop_iteration` takes
every read of the mapped planes to succeed): entered with `running` set, it ends the loop
if and only if the readiness wait fails with an error other than an interrupted call, or
the wait does not fail and the dequeue fails with an error other than not-ready, or a
buffer is dequeued and its requeue fails, or it is requeued and a quit or Escape input is
processed. An interrupted wait, a not-ready dequeue (after a timeout or a ready wait) and
a fully processed frame without quit input leave the loop running. -/
theorem loop_iteration_ends_iff (opts : Options) (env : Env) (inp : IterInput)
    (st : LoopState) (hrun : st.running = true) :
    (loop_ends (loop_iteration opts env inp st) ↔
      inp.poll = PollResult.error ∨
      (inp.poll ≠ PollResult.eintr ∧ inp.poll ≠ PollResult.error ∧
        (inp.dqbuf = DqbufResult.error ∨
          ∃ index length bytesused0, inp.dqbuf = DqbufResult.ok index length bytesused0 ∧
            (inp.requeue_ok = false ∨ ∃ e ∈ inp.sdl_events, e.is_quit = true)))) ∧
    (inp.poll = PollResult.eintr → ¬ loop_ends (loop_iteration opts env inp st)) ∧
    (inp.poll ≠ PollResult.eintr → inp.poll ≠ PollResult.error →
      inp.dqbuf = DqbufResult.again → ¬ loop_ends (loop_iteration opts env inp st)) ∧
    (inp.poll ≠ PollResult.eintr → inp.poll ≠ PollResult.error →
      ∀ index length bytesused0, inp.dqbuf = DqbufResult.ok index length bytesused0 →
      inp.requeue_ok = true → (∀ e ∈ inp.sdl_events, e.is_quit = false) →
      ¬ loop_ends (loop_iteration opts env inp st)) := by
  have hiff : loop_ends (loop_iteration opts env inp st) ↔
      inp.poll = PollResult.error ∨
      (inp.poll ≠ PollResult.eintr ∧ inp.poll ≠ PollResult.error ∧
        (inp.dqbuf = DqbufResult.error ∨
          ∃ index length bytesused0, inp.dqbuf = DqbufResult.ok index length bytesused0 ∧
            (inp.requeue_ok = false ∨ ∃ e ∈ inp.sdl_events, e.is_quit = true))) := by
    by_cases he : inp.poll = PollResult.eintr
    · have : loop_iteration opts env inp st = (st, false) := by
        unfold loop_iteration; rw [he]
      rw [this]
      simp [loop_ends, hrun, he]
    · by_cases hr : inp.poll = PollResult.error
      · have : loop_iteration opts env inp st = (st, true) := by
          unfold loop_iteration; rw [hr]
        rw [this]
        simp [loop_ends, hr]
      · rw [loop_iteration_from_dequeue opts env inp st ⟨he, hr⟩]
        have hb := state_before_dequeue_running opts env inp st
        cases hd : inp.dqbuf with
        | again => simp [loop_ends, hb, hrun, hr]
        | error => simp [loop_ends, he, hr]
        | ok index length bytesused0 =>
          dsimp only
          cases hq : inp.requeue_ok with
          | false => simp [loop_ends, he, hr]
          | true =>
            simp only [if_true, loop_ends, handle_sdl_events_running, draw_frame_running,
              upload_frame_running, hb, hrun, Bool.true_and]
            simp [he, hr, List.all_eq_true]
  refine ⟨hiff, fun he => ?_, fun he hr hd => ?_, fun he hr index length bytesused0 hd hq hno => ?_⟩
  · rw [hiff]
    simp [he]
  · rw [hiff]
    simp [hr, hd]
  · rw [hiff]
    rintro (h | ⟨_, _, h | ⟨i, l, b, _, h | ⟨e, he2, hq2⟩⟩⟩)
    · exact hr h
    · rw [hd] at h; cases h
    · rw [hq] at h; cases h
    · rw [hno e he2] at hq2; cases hq2

/-- A frame is processed and an Escape input is seen: the loop ends. -/
theorem loop_iteration_ends_iff_witness :
    loop_ends (loop_iteration default_options sample_env
      ⟨PollResult.ready false, [], none, DqbufResult.ok 0 1 3110400, fun _ => 0, true,
        [SDLEvent.other, SDLEvent.key_escape]⟩
      (initial_state default_options sample_env 1920 1080 V4L2_PIX_FMT_NV12)) :=
  ((loop_iteration_ends_iff default_options sample_env
      ⟨PollResult.ready false, [], none, DqbufResult.ok 0 1 3110400, fun _ => 0, true,
        [SDLEvent.other, SDLEvent.key_escape]⟩
      (initial_state default_options sample_env 1920 1080 V4L2_PIX_FMT_NV12) rfl).1).2
    (Or.inr ⟨(fun h => by cases h), (fun h => by cases h),
      Or.inr ⟨0, 1, 3110400, rfl, Or.inr ⟨SDLEvent.key_escape, (by simp), rfl⟩⟩⟩)

/-- C13 as stated fails: at startup on 1920 x 1080 NV12, an iteration whose wait times out
and whose dequeue reports not-ready attempts the dequeue with the frame counter at 0 and
leaves it at 1. -/
theorem dequeue_not_ready_counter_counterexample :
    (state_before_dequeue default_options sample_env
      ⟨PollResult.timeout, [], none, DqbufResult.again, fun _ => 0, true, []⟩
      (initial_state default_options sample_env 1920 1080 V4L2_PIX_FMT_NV12)).frame_count
        = 0 ∧
    (loop_iteration default_options sample_env
      ⟨PollResult.timeout, [], none, DqbufResult.again, fun _ => 0, true, []⟩
      (initial_state default_options sample_env 1920 1080 V4L2_PIX_FMT_NV12)).1.frame_count
        = 1 := by
  decide

/-- C13, amended. When the dequeue attempt reports not-ready the loop continues: the
adopted width, height and pixel format, the chroma dimensions and the swap toggle (also
the shader's) have the same values after the dequeue attempt as before it, and no call is
issued (nothing is uploaded, drawn or requeued); the frame counter that drives the
periodic check is advanced by one. -/
theorem dequeue_not_ready_effect (opts : Options) (env : Env) (inp : IterInput)
    (st : LoopState) (he : inp.poll ≠ PollResult.eintr) (hr : inp.poll ≠ PollResult.error)
    (hd : inp.dqbuf = DqbufResult.again) :
    (loop_iteration opts env inp st).2 = false ∧
    (loop_iteration opts env inp st).1 =
      { state_before_dequeue opts env inp st with
        frame_count := ((state_before_dequeue opts env inp st).frame_count + 1) % 2 ^ 64 } ∧
    (loop_iteration opts env inp st).1.cur_width =
      (state_before_dequeue opts env inp st).cur_width ∧
    (loop_iteration opts env inp st).1.cur_height =
      (state_before_dequeue opts env inp st).cur_height ∧
    (loop_iteration opts env inp st).1.cur_pixfmt =
      (state_before_dequeue opts env inp st).cur_pixfmt ∧
    (loop_iteration opts env inp st).1.uv_w = (state_before_dequeue opts env inp st).uv_w ∧
    (loop_iteration opts env inp st).1.uv_h = (state_before_dequeue opts env inp st).uv_h ∧
    (loop_iteration opts env inp st).1.uv_swap =
      (state_before_dequeue opts env inp st).uv_swap ∧
    (loop_iteration opts env inp st).1.shader_uv_swap =
      (state_before_dequeue opts env inp st).shader_uv_swap ∧
    (loop_iteration opts env inp st).1.calls = (state_before_dequeue opts env inp st).calls ∧
    (loop_iteration opts env inp st).1.frame_count =
      ((state_before_dequeue opts env inp st).frame_count + 1) % 2 ^ 64 := by
  rw [loop_iteration_from_dequeue opts env inp st ⟨he, hr⟩, hd]
  exact ⟨rfl, rfl, rfl, rfl, rfl, rfl, rfl, rfl, rfl, rfl, rfl⟩

/-- A timed-out wait followed by a not-ready dequeue at startup. -/
theorem dequeue_not_ready_effect_witness :
    (loop_iteration default_options sample_env
      ⟨PollResult.timeout, [], none, DqbufResult.again, fun _ => 0, true, []⟩
      (initial_state default_options sample_env 1920 1080 V4L2_PIX_FMT_NV12)).2 = false ∧
    (loop_iteration default_options sample_env
      ⟨PollResult.timeout, [], none, DqbufResult.again, fun _ => 0, true, []⟩
      (initial_state default_options sample_env 1920 1080 V4L2_PIX_FMT_NV12)).1.calls =
      (state_before_dequeue default_options sample_env
        ⟨PollResult.timeout, [], none, DqbufResult.again, fun _ => 0, true, []⟩
        (initial_state default_options sample_env 1920 1080 V4L2_PIX_FMT_NV12)).calls :=
  ⟨(dequeue_not_ready_effect default_options sample_env
      ⟨PollResult.timeout, [], none, DqbufResult.again, fun _ => 0, true, []⟩
      (initial_state default_options sample_env 1920 1080 V4L2_PIX_FMT_NV12)
      (fun h => by cases h) (fun h => by cases h) rfl).1,
    (dequeue_not_ready_effect default_options sample_env
      ⟨PollResult.timeout, [], none, DqbufResult.again, fun _ => 0, true, []⟩
      (initial_state default_options sample_env 1920 1080 V4L2_PIX_FMT_NV12)
      (fun h => by cases h) (fun h => by cases h) rfl).2.2.2.2.2.2.2.2.2.1⟩

/-! ## Uploaded rectangles against allocated surfaces -/

/-- C11, the failing input: at startup on 1920 x 1080 NV12 the surfaces are allocated
1920 x 1080 (luma) and 960 x 540 (chroma). A single-plane buffer whose plane 0 reports 0
bytes used takes the packed fallback (chroma pointer null), and the frame uploads a
1920 x 1080 rectangle to the chroma surface; the luma rectangles are 1920 x 1080. -/
theorem fallback_chroma_rect_exceeds_surface :
    allocated (initial_state default_options sample_env 1920 1080 V4L2_PIX_FMT_NV12).calls =
      some ((1920, 1080), (960, 540)) ∧
    (plane_layout sample_env.buffers 0 1 0 V4L2_PIX_FMT_NV12 1920 1080).uvbase = 0 ∧
    ((upload_frame default_options sample_env (fun _ => 0) 0 1 0
        (initial_state default_options sample_env 1920 1080 V4L2_PIX_FMT_NV12)).calls.drop
      (initial_state default_options sample_env 1920 1080 V4L2_PIX_FMT_NV12).calls.length
      ).filterMap Call.chroma_dims = [(1920, 1080)] ∧
    ((upload_frame default_options sample_env (fun _ => 0) 0 1 0
        (initial_state default_options sample_env 1920 1080 V4L2_PIX_FMT_NV12)).calls.drop
      (initial_state default_options sample_env 1920 1080 V4L2_PIX_FMT_NV12).calls.length
      ).filterMap Call.luma_dims = [(1920, 1080), (1920, 1080)] := by
  decide

theorem allocated_append (l l2 : List Call) :
    allocated (l ++ l2) = l2.foldl (fun acc c =>
      match c.alloc with
      | some a => some a
      | none => acc) (allocated l) := by
  unfold allocated
  rw [List.foldl_append]

theorem allocated_append_of_no_alloc (l l2 : List Call) (h : ∀ c ∈ l2, c.alloc = none) :
    allocated (l ++ l2) = allocated l := by
  rw [allocated_append]
  generalize allocated l = acc
  induction l2 with
  | nil => rfl
  | cons c rest ih =>
    rw [List.foldl_cons, h c (List.mem_cons_self _ _)]
    exact ih (fun c2 hc => h c2 (List.mem_cons_of_mem _ hc))

theorem allocated_append_realloc (l l2 : List Call) (newW newH uvW uvH : Int)
    (h : ∀ c ∈ l2, c.alloc = none) :
    allocated (l ++ [Call.reallocate_textures newW newH uvW uvH] ++ l2) =
      some ((newW, newH), (uvW, uvH)) := by
  rw [allocated_append_of_no_alloc _ _ h, allocated_append]
  rfl

theorem uniform_if_no_alloc (loc v : Int) : ∀ c ∈ uniform_if loc v, c.alloc = none := by
  intro c hc
  unfold uniform_if at hc
  split at hc
  · rw [List.mem_singleton] at hc; subst hc; rfl
  · cases hc

theorem upload_calls_no_alloc (env : Env) (fmt : GLFormat) (tex : TexId) (w h : Int)
    (pixels : Nat → Byte) (bpp : Int) :
    ∀ c ∈ upload_calls env fmt tex w h pixels bpp, c.alloc = none := by
  intro c hc
  unfold upload_calls at hc
  split at hc <;> (rw [List.mem_singleton] at hc; subst hc; rfl)

theorem initial_state_alloc (opts : Options) (env : Env) (w h pf : Nat) :
    AllocMatches (initial_state opts env w h pf) := by
  unfold AllocMatches initial_state
  dsimp only
  have h0 := allocated_append_realloc [] (uniform_if env.loc_texY 0 ++
      uniform_if env.loc_texUV 1 ++ uniform_if env.loc_uv_swap (initial_uv_swap opts pf) ++
      uniform_if env.loc_use_bt709 opts.opt_use_bt709 ++
      uniform_if env.loc_full_range opts.opt_full_range ++ uniform_if env.loc_view_mode 0)
    (to_int w) (to_int h) (uv_w_for pf w) (uv_h_for pf h)
    (by
      intro c hc
      simp only [List.mem_append] at hc
      rcases hc with ((((hc | hc) | hc) | hc) | hc) | hc <;>
        exact uniform_if_no_alloc _ _ c hc)
  simpa [List.append_assoc] using h0

theorem format_check_event_alloc (opts : Options) (env : Env) (w h pf : Nat)
    (st : LoopState) (hA : AllocMatches st) :
    AllocMatches (format_check_event opts env w h pf st) := by
  unfold format_check_event
  dsimp only
  have hr := allocated_append_realloc st.calls [] (to_int w) (to_int h) (uv_w_for pf w)
    (uv_h_for pf h) (by intro c hc; cases hc)
  have hs := allocated_append_realloc st.calls [Call.SDL_SetWindowSize (to_int w) (to_int h)]
    (to_int w) (to_int h) (uv_w_for pf w) (uv_h_for pf h)
    (by intro c hc; rw [List.mem_singleton] at hc; subst hc; rfl)
  rw [List.append_nil] at hr
  have hu : ∀ (l : List Call) (v : Int), allocated (l ++ [Call.glUniform1i env.loc_uv_swap v])
      = allocated l := fun l v =>
    allocated_append_of_no_alloc l _ (by intro c hc; rw [List.mem_singleton] at hc; subst hc; rfl)
  split_ifs <;> first
    | exact hA
    | (unfold AllocMatches; dsimp only; first | exact hr | exact hs | (rw [hu]; first | exact hr | exact hs))

theorem format_check_periodic_alloc (opts : Options) (env : Env) (w h pf : Nat)
    (st : LoopState) (hA : AllocMatches st) :
    AllocMatches (format_check_periodic opts env w h pf st) := by
  unfold format_check_periodic
  dsimp only
  have hr := allocated_append_realloc st.calls [] (to_int w) (to_int h) (uv_w_for pf w)
    (uv_h_for pf h) (by intro c hc; cases hc)
  have hs := allocated_append_realloc st.calls [Call.SDL_SetWindowSize (to_int w) (to_int h)]
    (to_int w) (to_int h) (uv_w_for pf w) (uv_h_for pf h)
    (by intro c hc; rw [List.mem_singleton] at hc; subst hc; rfl)
  rw [List.append_nil] at hr
  have hu : ∀ (l : List Call) (v : Int), allocated (l ++ [Call.glUniform1i env.loc_uv_swap v])
      = allocated l := fun l v =>
    allocated_append_of_no_alloc l _ (by intro c hc; rw [List.mem_singleton] at hc; subst hc; rfl)
  split_ifs <;> first
    | exact hA
    | (unfold AllocMatches; dsimp only; first | exact hr | exact hs | (rw [hu]; first | exact hr | exact hs))

theorem drain_events_alloc (opts : Options) (env : Env) (events : List V4L2Event) :
    ∀ st : LoopState, AllocMatches st → AllocMatches (drain_events opts env events st) := by
  unfold drain_events
  induction events with
  | nil => intro st h; exact h
  | cons ev rest ih =>
    intro st hA
    rw [List.foldl_cons]
    apply ih
    split
    · cases ev.fmt with
      | none => exact hA
      | some f => exact format_check_event_alloc opts env _ _ _ st hA
    · exact hA

theorem state_before_dequeue_alloc (opts : Options) (env : Env) (inp : IterInput)
    (st : LoopState) (hA : AllocMatches st) :
    AllocMatches (state_before_dequeue opts env inp st) := by
  have h1 : AllocMatches (match inp.poll with
      | PollResult.ready true => drain_events opts env inp.events st
      | _ => st) := by
    split
    · exact drain_events_alloc opts env inp.events st hA
    · exact hA
  unfold state_before_dequeue
  dsimp only
  split
  · cases inp.periodic_fmt with
    | none => exact h1
    | some f => exact format_check_periodic_alloc opts env _ _ _ _ h1
  · exact h1

theorem upload_calls_luma (env : Env) (w h : Int) (pixels : Nat → Byte) (bpp : Int) :
    ∀ c ∈ upload_calls env GLFormat.GL_RED TexId.texY w h pixels bpp,
      c.luma_dims = some (w, h) ∧ c.chroma_dims = none ∧ c.alloc = none := by
  intro c hc
  unfold upload_calls at hc
  split at hc <;> (rw [List.mem_singleton] at hc; subst hc; exact ⟨rfl, rfl, rfl⟩)

theorem upload_calls_chroma (env : Env) (w h : Int) (pixels : Nat → Byte) (bpp : Int) :
    ∀ c ∈ upload_calls env GLFormat.GL_RG TexId.texUV w h pixels bpp,
      c.luma_dims = none ∧ c.chroma_dims = some (w, h) ∧ c.alloc = none := by
  intro c hc
  unfold upload_calls at hc
  split at hc <;> (rw [List.mem_singleton] at hc; subst hc; exact ⟨rfl, rfl, rfl⟩)

/-- The rectangles one frame uploads: every luma rectangle is `(int)cur_width x
(int)cur_height`; every chroma rectangle is `upload_w x upload_h` when a chroma plane was
resolved and `(int)cur_width x (int)cur_height` in the packed fallback. The frame changes
neither the adopted format nor the allocation. -/
theorem upload_frame_rects (opts : Options) (env : Env) (mem : Nat → Byte)
    (index length bytesused0 : Nat) (st : LoopState) :
    (upload_frame opts env mem index length bytesused0 st).cur_width = st.cur_width ∧
    (upload_frame opts env mem index length bytesused0 st).cur_height = st.cur_height ∧
    (upload_frame opts env mem index length bytesused0 st).cur_pixfmt = st.cur_pixfmt ∧
    ∃ new, (upload_frame opts env mem index length bytesused0 st).calls = st.calls ++ new ∧
      ∀ c ∈ new, c.alloc = none ∧
        (∀ d, c.luma_dims = some d → d = (to_int st.cur_width, to_int st.cur_height)) ∧
        (∀ d, c.chroma_dims = some d →
          d = if (plane_layout env.buffers index length bytesused0 st.cur_pixfmt st.cur_width
              st.cur_height).uvbase ≠ 0 then
            (uv_w_for st.cur_pixfmt st.cur_width, uv_h_for st.cur_pixfmt st.cur_height)
          else (to_int st.cur_width, to_int st.cur_height)) := by
  have hY : ∀ (pixels : Nat → Byte), ∀ c ∈ upload_calls env GLFormat.GL_RED TexId.texY
      (to_int st.cur_width) (to_int st.cur_height) pixels 1, c.alloc = none ∧
        (∀ d, c.luma_dims = some d → d = (to_int st.cur_width, to_int st.cur_height)) ∧
        (∀ d, c.chroma_dims = some d →
          d = if (plane_layout env.buffers index length bytesused0 st.cur_pixfmt st.cur_width
              st.cur_height).uvbase ≠ 0 then
            (uv_w_for st.cur_pixfmt st.cur_width, uv_h_for st.cur_pixfmt st.cur_height)
          else (to_int st.cur_width, to_int st.cur_height)) := by
    intro pixels c hc
    obtain ⟨h1, h2, h3⟩ := upload_calls_luma env _ _ pixels 1 c hc
    refine ⟨h3, fun d hd => ?_, fun d hd => ?_⟩
    · rw [h1] at hd; cases hd; rfl
    · rw [h2] at hd; cases hd
  have hUV : (plane_layout env.buffers index length bytesused0 st.cur_pixfmt st.cur_width
      st.cur_height).uvbase ≠ 0 → ∀ (pixels : Nat → Byte),
      ∀ c ∈ upload_calls env GLFormat.GL_RG TexId.texUV
        (uv_w_for st.cur_pixfmt st.cur_width) (uv_h_for st.cur_pixfmt st.cur_height) pixels 2,
        c.alloc = none ∧
        (∀ d, c.luma_dims = some d → d = (to_int st.cur_width, to_int st.cur_height)) ∧
        (∀ d, c.chroma_dims = some d →
          d = if (plane_layout env.buffers index length bytesused0 st.cur_pixfmt st.cur_width
              st.cur_height).uvbase ≠ 0 then
            (uv_w_for st.cur_pixfmt st.cur_width, uv_h_for st.cur_pixfmt st.cur_height)
          else (to_int st.cur_width, to_int st.cur_height)) := by
    intro huv pixels c hc
    obtain ⟨h1, h2, h3⟩ := upload_calls_chroma env _ _ pixels 2 c hc
    refine ⟨h3, fun d hd => ?_, fun d hd => ?_⟩
    · rw [h1] at hd; cases hd
    · rw [h2] at hd; cases hd; rw [if_pos huv]
  have hF : (plane_layout env.buffers index length bytesused0 st.cur_pixfmt st.cur_width
      st.cur_height).uvbase = 0 → ∀ (p1 p2 : Nat → Byte),
      ∀ c ∈ [Call.glTexSubImage2D TexId.texY 0 0 (to_int st.cur_width) (to_int st.cur_height)
            GLFormat.GL_RED p1,
          Call.glTexSubImage2D TexId.texUV 0 0 (to_int st.cur_width) (to_int st.cur_height)
            GLFormat.GL_RG p2],
        c.alloc = none ∧
        (∀ d, c.luma_dims = some d → d = (to_int st.cur_width, to_int st.cur_height)) ∧
        (∀ d, c.chroma_dims = some d →
          d = if (plane_layout env.buffers index length bytesused0 st.cur_pixfmt st.cur_width
              st.cur_height).uvbase ≠ 0 then
            (uv_w_for st.cur_pixfmt st.cur_width, uv_h_for st.cur_pixfmt st.cur_height)
          else (to_int st.cur_width, to_int st.cur_height)) := by
    intro huv p1 p2 c hc
    have hn : ¬ (plane_layout env.buffers index length bytesused0 st.cur_pixfmt st.cur_width
      st.cur_height).uvbase ≠ 0 := fun h => h huv
    simp only [List.mem_cons, List.mem_singleton, List.not_mem_nil, or_false] at hc
    rcases hc with hc | hc <;> subst hc
    · exact ⟨rfl, (fun d hd => by cases hd; rfl), (fun d hd => by cases hd)⟩
    · exact ⟨rfl, (fun d hd => by cases hd), (fun d hd => by cases hd; rw [if_neg hn])⟩
  unfold upload_frame
  dsimp only
  by_cases hy : (plane_layout env.buffers index length bytesused0 st.cur_pixfmt st.cur_width
      st.cur_height).ybase = 0 <;>
  by_cases huv : (plane_layout env.buffers index length bytesused0 st.cur_pixfmt st.cur_width
      st.cur_height).uvbase = 0
  · have hF2 := hF huv
    simp only [ne_eq, hy, huv, not_true_eq_false, if_false] at hF2 ⊢
    refine ⟨trivial, trivial, trivial, ?_⟩
    exact ⟨_, rfl, fun c hc => hF2 _ _ c hc⟩
  · have hU := hUV huv
    simp only [ne_eq, hy, huv, not_true_eq_false, not_false_eq_true, if_false, if_true]
      at hU ⊢
    split_ifs
    all_goals
      refine ⟨rfl, rfl, rfl, ?_⟩
      exact ⟨_, rfl, fun c hc => hU _ c hc⟩
  · have hF2 := hF huv
    simp only [ne_eq, hy, huv, not_true_eq_false, not_false_eq_true, if_false, if_true]
      at hF2 hY ⊢
    refine ⟨trivial, trivial, trivial, ?_⟩
    refine ⟨_, List.append_assoc _ _ _, fun c hc => ?_⟩
    rcases List.mem_append.1 hc with hc | hc
    · exact hY _ c hc
    · exact hF2 _ _ c hc
  · have hU := hUV huv
    simp only [ne_eq, hy, huv, not_false_eq_true, if_true] at hU hY ⊢
    split_ifs
    all_goals
      refine ⟨rfl, rfl, rfl, ?_⟩
      refine ⟨_, List.append_assoc _ _ _, fun c hc => ?_⟩
      rcases List.mem_append.1 hc with hc | hc
      · exact hY _ c hc
      · exact hU _ c hc

theorem upload_frame_alloc (opts : Options) (env : Env) (mem : Nat → Byte)
    (index length bytesused0 : Nat) (st : LoopState) (hA : AllocMatches st) :
    AllocMatches (upload_frame opts env mem index length bytesused0 st) := by
  obtain ⟨h1, h2, h3, new, hnew, hall⟩ :=
    upload_frame_rects opts env mem index length bytesused0 st
  unfold AllocMatches
  rw [h1, h2, h3, hnew, allocated_append_of_no_alloc _ _ (fun c hc => (hall c hc).1)]
  exact hA

theorem draw_frame_alloc (opts : Options) (env : Env) (st : LoopState)
    (hA : AllocMatches st) : AllocMatches (draw_frame opts env st) := by
  have hd : ∀ c ∈ uniform_if env.loc_use_bt709 opts.opt_use_bt709 ++
      uniform_if env.loc_full_range opts.opt_full_range ++
      [Call.glDrawArrays, Call.SDL_GL_SwapWindow], c.alloc = none := by
    intro c hc
    simp only [List.mem_append, List.mem_cons, List.mem_singleton, List.not_mem_nil,
      or_false] at hc
    rcases hc with (hc | hc) | hc | hc
    · exact uniform_if_no_alloc _ _ c hc
    · exact uniform_if_no_alloc _ _ c hc
    · subst hc; rfl
    · subst hc; rfl
  unfold draw_frame
  dsimp only
  split_ifs
  · unfold AllocMatches
    dsimp only
    rw [allocated_append_of_no_alloc _ _ hd, allocated_append_of_no_alloc _ _
      (by intro c hc; rw [List.mem_singleton] at hc; subst hc; rfl)]
    exact hA
  · unfold AllocMatches
    dsimp only
    rw [allocated_append_of_no_alloc _ _ hd]
    exact hA

theorem handle_sdl_events_alloc (events : List SDLEvent) :
    ∀ st : LoopState, AllocMatches st → AllocMatches (handle_sdl_events events st) := by
  unfold handle_sdl_events
  induction events with
  | nil => intro st h; exact h
  | cons e rest ih =>
    intro st hA
    rw [List.foldl_cons]
    apply ih
    have hf : ∀ b, allocated (st.calls ++ [Call.SDL_SetWindowFullscreen b]) = allocated st.calls :=
      fun b => allocated_append_of_no_alloc _ _
        (by intro c hc; rw [List.mem_singleton] at hc; subst hc; rfl)
    cases e with
    | quit => exact hA
    | key_escape => exact hA
    | key_f fs =>
      cases fs
      · unfold AllocMatches; dsimp only; simp only [Bool.false_eq_true, if_false]
        rw [hf]; exact hA
      · unfold AllocMatches; dsimp only; simp only [if_true]
        rw [hf]; exact hA
    | other => exact hA

theorem loop_iteration_alloc (opts : Options) (env : Env) (inp : IterInput)
    (st : LoopState) (hA : AllocMatches st) :
    AllocMatches (loop_iteration opts env inp st).1 := by
  by_cases he : inp.poll = PollResult.eintr
  · have : loop_iteration opts env inp st = (st, false) := by
      unfold loop_iteration; rw [he]
    rw [this]; exact hA
  · by_cases hr : inp.poll = PollResult.error
    · have : loop_iteration opts env inp st = (st, true) := by
        unfold loop_iteration; rw [hr]
      rw [this]; exact hA
    · rw [loop_iteration_from_dequeue opts env inp st ⟨he, hr⟩]
      have hb := state_before_dequeue_alloc opts env inp st hA
      cases inp.dqbuf with
      | again => exact hb
      | error => exact hb
      | ok index length bytesused0 =>
        have hd := draw_frame_alloc opts env _
          (upload_frame_alloc opts env inp.mem index length bytesused0 _ hb)
        dsimp only
        split
        · have hq : AllocMatches
              { draw_frame opts env (upload_frame opts env inp.mem index length bytesused0
                  (state_before_dequeue opts env inp st)) with
                calls := (draw_frame opts env (upload_frame opts env inp.mem index length
                  bytesused0 (state_before_dequeue opts env inp st))).calls ++
                    [Call.VIDIOC_QBUF index] } := by
            unfold AllocMatches
            dsimp only
            rw [allocated_append_of_no_alloc _ _
              (by intro c hc; rw [List.mem_singleton] at hc; subst hc; rfl)]
            exact hd
          exact handle_sdl_events_alloc inp.sdl_events _ hq
        · exact hd

theorem run_loop_alloc (opts : Options) (env : Env) (inputs : List IterInput) :
    ∀ st : LoopState, AllocMatches st → AllocMatches (run_loop opts env inputs st) := by
  induction inputs with
  | nil => intro st h; exact h
  | cons inp rest ih =>
    intro st hA
    rw [run_loop]
    split
    · have hi := loop_iteration_alloc opts env inp st hA
      split
      · rename_i st1 heq
        rw [heq] at hi
        exact hi
      · rename_i st1 heq
        rw [heq] at hi
        exact ih st1 hi
    · exact hA

/-- Where C11 holds: in every state the loop can reach, and so for every adopted format,
the surfaces are allocated for the adopted format, and a frame processed in that state
through the two-plane or the single-plane split path (chroma pointer not null), or
through the packed fallback when the format is neither NV12 nor NV21, uploads only luma
rectangles of the allocated luma size and chroma rectangles of the allocated chroma
size. -/
theorem uploads_match_allocation (opts : Options) (env : Env) (w h pf : Nat)
    (inputs : List IterInput) (inp : IterInput) (mem : Nat → Byte)
    (index length bytesused0 : Nat)
    (hpath : (plane_layout env.buffers index length bytesused0
        (state_before_dequeue opts env inp
          (run_loop opts env inputs (initial_state opts env w h pf))).cur_pixfmt
        (state_before_dequeue opts env inp
          (run_loop opts env inputs (initial_state opts env w h pf))).cur_width
        (state_before_dequeue opts env inp
          (run_loop opts env inputs (initial_state opts env w h pf))).cur_height).uvbase ≠ 0 ∨
      isNV12_NV21 (state_before_dequeue opts env inp
          (run_loop opts env inputs (initial_state opts env w h pf))).cur_pixfmt = false) :
    ∃ luma chroma new,
      allocated (state_before_dequeue opts env inp
        (run_loop opts env inputs (initial_state opts env w h pf))).calls =
          some (luma, chroma) ∧
      (upload_frame opts env mem index length bytesused0
        (state_before_dequeue opts env inp
          (run_loop opts env inputs (initial_state opts env w h pf)))).calls =
        (state_before_dequeue opts env inp
          (run_loop opts env inputs (initial_state opts env w h pf))).calls ++ new ∧
      ∀ c ∈ new, (∀ d, c.luma_dims = some d → d = luma) ∧
        (∀ d, c.chroma_dims = some d → d = chroma) := by
  have hA := state_before_dequeue_alloc opts env inp _
    (run_loop_alloc opts env inputs _ (initial_state_alloc opts env w h pf))
  generalize state_before_dequeue opts env inp
    (run_loop opts env inputs (initial_state opts env w h pf)) = st at hA hpath
  obtain ⟨_, _, _, new, hnew, hall⟩ := upload_frame_rects opts env mem index length bytesused0 st
  refine ⟨_, _, new, hA, hnew, fun c hc => ⟨(hall c hc).2.1, fun d hd => ?_⟩⟩
  rw [(hall c hc).2.2 d hd]
  rcases hpath with hp | hp
  · rw [if_pos hp]
  · split
    · rfl
    · unfold uv_w_for uv_h_for
      rw [hp]
      rfl

/-! ## Mapping and unmapping -/

/-- C14, the failing input: four single-plane buffers are queried, mapped and queued and
`VIDIOC_STREAMON` succeeds, then `SDL_Init` fails. The program closes the device and
returns 1 with the four planes mapped and no `munmap` issued. -/
theorem early_exit_leaves_planes_mapped :
    main_lifecycle
      { buffers := [⟨some [⟨4147200, some 4096⟩], true⟩, ⟨some [⟨4147200, some 4151296⟩], true⟩,
          ⟨some [⟨4147200, some 8298496⟩], true⟩, ⟨some [⟨4147200, some 12445696⟩], true⟩]
        streamon_ok := true, sdl_init_ok := false, window_ok := true, gl_context_ok := true
        glew_ok := true, vert_shader_found := true, frag_shader_found := true
        program_ok := true } =
      ([MemCall.mmap 4096 4147200, MemCall.mmap 4151296 4147200,
        MemCall.mmap 8298496 4147200, MemCall.mmap 12445696 4147200, MemCall.close], 1) ∧
    (main_lifecycle
      { buffers := [⟨some [⟨4147200, some 4096⟩], true⟩, ⟨some [⟨4147200, some 4151296⟩], true⟩,
          ⟨some [⟨4147200, some 8298496⟩], true⟩, ⟨some [⟨4147200, some 12445696⟩], true⟩]
        streamon_ok := true, sdl_init_ok := false, window_ok := true, gl_context_ok := true
        glew_ok := true, vert_shader_found := true, frag_shader_found := true
        program_ok := true }).1.count (MemCall.munmap 4096 4147200) = 0 := by
  decide

theorem map_planes_spec (planes : List PlaneAnswer)
    (hnz : ∀ p ∈ planes, p.length ≠ 0 ∧ ∀ a, p.mmap_result = some a → a ≠ 0) :
    ∀ (mapped : List PlaneMap) (calls : List MemCall),
      ∃ new, (map_planes planes mapped calls).1 = mapped ++ new ∧
        (map_planes planes mapped calls).2.1 =
          calls ++ new.map (fun pm => MemCall.mmap pm.addr pm.length) ∧
        ∀ pm ∈ new, pm.addr ≠ 0 ∧ pm.length ≠ 0 := by
  induction planes with
  | nil => intro mapped calls; exact ⟨[], by simp [map_planes]⟩
  | cons p rest ih =>
    intro mapped calls
    rw [map_planes]
    cases hm : p.mmap_result with
    | none => exact ⟨[], by simp⟩
    | some a =>
      obtain ⟨new, h1, h2, h3⟩ := ih (fun q hq => hnz q (List.mem_cons_of_mem _ hq))
        (mapped ++ [{ addr := a, length := p.length }]) (calls ++ [MemCall.mmap a p.length])
      refine ⟨{ addr := a, length := p.length } :: new, ?_, ?_, ?_⟩
      · simp only [h1, List.append_assoc, List.singleton_append]
      · simp only [h2, List.append_assoc, List.singleton_append, List.map_cons]
      · intro pm hpm
        rcases List.mem_cons.1 hpm with h | h
        · subst h
          exact ⟨(hnz p (List.mem_cons_self _ _)).2 a hm, (hnz p (List.mem_cons_self _ _)).1⟩
        · exact h3 pm h

theorem map_buffers_spec (bufs : List BufferAnswer)
    (hnz : ∀ b ∈ bufs, ∀ planes, b.querybuf = some planes →
      ∀ p ∈ planes, p.length ≠ 0 ∧ ∀ a, p.mmap_result = some a → a ≠ 0) :
    ∀ (buffers : List (List PlaneMap)) (calls : List MemCall),
      ∃ new : List (List PlaneMap), (map_buffers bufs buffers calls).1 = buffers ++ new ∧
        (map_buffers bufs buffers calls).2.1 =
          calls ++ new.flatten.map (fun pm => MemCall.mmap pm.addr pm.length) ∧
        ∀ pm ∈ new.flatten, pm.addr ≠ 0 ∧ pm.length ≠ 0 := by
  induction bufs with
  | nil => intro buffers calls; exact ⟨[], by simp [map_buffers]⟩
  | cons b rest ih =>
    intro buffers calls
    rw [map_buffers]
    cases hq : b.querybuf with
    | none => exact ⟨[], by simp⟩
    | some planes =>
      obtain ⟨newp, h1, h2, h3⟩ := map_planes_spec planes
        (hnz b (List.mem_cons_self _ _) planes hq) [] calls
      rw [List.nil_append] at h1
      dsimp only
      rcases hmp : map_planes planes [] calls with ⟨mapped, calls1, ok⟩
      rw [hmp] at h1 h2
      simp only at h1 h2
      subst h1 h2
      have hone : ∃ new : List (List PlaneMap), buffers ++ [mapped] = buffers ++ new ∧
          calls ++ mapped.map (fun pm => MemCall.mmap pm.addr pm.length) =
            calls ++ new.flatten.map (fun pm => MemCall.mmap pm.addr pm.length) ∧
          ∀ pm ∈ new.flatten, pm.addr ≠ 0 ∧ pm.length ≠ 0 :=
        ⟨[mapped], rfl, by simp, by simpa using h3⟩
      cases ok with
      | false => exact hone
      | true =>
        dsimp only
        split
        · obtain ⟨new, g1, g2, g3⟩ := ih (fun b2 hb2 => hnz b2 (List.mem_cons_of_mem _ hb2))
            (buffers ++ [mapped])
            (calls ++ mapped.map (fun pm => MemCall.mmap pm.addr pm.length))
          refine ⟨mapped :: new, ?_, ?_, ?_⟩
          · simp only [g1, List.append_assoc, List.singleton_append]
          · simp only [g2, List.append_assoc, List.flatten_cons, List.map_append]
          · intro pm hpm
            rw [List.flatten_cons, List.mem_append] at hpm
            rcases hpm with h | h
            · exact h3 pm h
            · exact g3 pm h
        · exact hone

theorem unmap_all_of_nonzero (buffers : List (List PlaneMap))
    (h : ∀ pm ∈ buffers.flatten, pm.addr ≠ 0 ∧ pm.length ≠ 0) :
    unmap_all buffers = buffers.flatten.map (fun pm => MemCall.munmap pm.addr pm.length) := by
  unfold unmap_all
  generalize buffers.flatten = l at h
  induction l with
  | nil => rfl
  | cons pm rest ih =>
    rw [List.filterMap_cons, if_pos (h pm (List.mem_cons_self _ _)), List.map_cons,
      ih (fun q hq => h q (List.mem_cons_of_mem _ hq))]

/-- Where C14 holds: when the program reaches its teardown (exit status 0), and every
mapped plane has a non-zero length and a non-null address, its calls are the `mmap` of
each plane, then the `munmap` of each of these planes, once and in the same order, then
`close`. -/
theorem normal_exit_unmaps_every_plane (ans : StartupAnswers)
    (hnz : ∀ b ∈ ans.buffers, ∀ planes, b.querybuf = some planes →
      ∀ p ∈ planes, p.length ≠ 0 ∧ ∀ a, p.mmap_result = some a → a ≠ 0)
    (hexit : (main_lifecycle ans).2 = 0) :
    ∃ planes : List PlaneMap,
      (main_lifecycle ans).1 =
        planes.map (fun pm => MemCall.mmap pm.addr pm.length) ++
        planes.map (fun pm => MemCall.munmap pm.addr pm.length) ++ [MemCall.close] := by
  obtain ⟨new, h1, h2, h3⟩ := map_buffers_spec ans.buffers hnz [] []
  rw [List.nil_append] at h1 h2
  unfold main_lifecycle at hexit ⊢
  rcases hmb : map_buffers ans.buffers [] [] with ⟨buffers, calls, ok⟩
  rw [hmb] at h1 h2 hexit
  simp only at h1 h2
  subst h1 h2
  cases ok with
  | false => simp at hexit
  | true =>
    dsimp only at hexit ⊢
    split_ifs at hexit ⊢
    exact ⟨buffers.flatten, by rw [unmap_all_of_nonzero _ h3]⟩

/-! ## CPU-side swap against shader swap -/

/-- The CPU exchange of a frame is decided by `cpu_exchange_performed`: a frame with a
resolved chroma plane runs the CPU swap loop and uploads its output exactly when the
condition holds, and otherwise uploads the chroma plane as it is in memory. -/
theorem upload_frame_chroma_source (opts : Options) (env : Env) (mem : Nat → Byte)
    (index length bytesused0 : Nat) (st : LoopState)
    (huv : (plane_layout env.buffers index length bytesused0 st.cur_pixfmt st.cur_width
      st.cur_height).uvbase ≠ 0) :
    (cpu_exchange_performed opts st.cur_pixfmt = true →
      (upload_frame opts env mem index length bytesused0 st).tmpUVbuf =
        cpu_uv_swap (isNV12_NV21 st.cur_pixfmt) st.cur_width
          (uv_w_for st.cur_pixfmt st.cur_width).toNat
          (uv_h_for st.cur_pixfmt st.cur_height).toNat
          (ptrAdd mem (plane_layout env.buffers index length bytesused0 st.cur_pixfmt
            st.cur_width st.cur_height).uvbase) st.tmpUVbuf ∧
      uploaded_chroma (upload_frame opts env mem index length bytesused0 st) =
        some (buildBuf ((uv_w_for st.cur_pixfmt st.cur_width).toNat *
            (uv_h_for st.cur_pixfmt st.cur_height).toNat * 2)
          (readBuf (upload_frame opts env mem index length bytesused0 st).tmpUVbuf))) ∧
    (cpu_exchange_performed opts st.cur_pixfmt = false →
      (upload_frame opts env mem index length bytesused0 st).tmpUVbuf = st.tmpUVbuf ∧
      uploaded_chroma (upload_frame opts env mem index length bytesused0 st) =
        some (buildBuf ((uv_w_for st.cur_pixfmt st.cur_width).toNat *
            (uv_h_for st.cur_pixfmt st.cur_height).toNat * 2)
          (ptrAdd mem (plane_layout env.buffers index length bytesused0 st.cur_pixfmt
            st.cur_width st.cur_height).uvbase))) := by
  have hlast : ∀ (l : List Call) (w h : Int) (pixels : Nat → Byte),
      ((l ++ upload_calls env GLFormat.GL_RG TexId.texUV w h pixels 2).getLast?).bind
        Call.chroma_upload = some (buildBuf (w.toNat * h.toNat * 2) pixels) := by
    intro l w h pixels
    unfold upload_calls
    split <;> simp [Call.chroma_upload]
  unfold cpu_exchange_performed uploaded_chroma upload_frame
  simp only [huv, ne_eq, not_false_eq_true, if_true, Bool.and_eq_true, beq_iff_eq,
    Bool.and_eq_false_iff, beq_eq_false_iff_ne]
  constructor
  · intro hc
    split_ifs <;> exact ⟨rfl, hlast _ _ _ _⟩
  · intro hc
    have hn : ¬ (opts.opt_cpu_uv_swap = true ∧ st.cur_pixfmt = V4L2_PIX_FMT_NV21) := by
      rintro ⟨h1, h2⟩
      rcases hc with h | h
      · rw [h1] at h; cases h
      · exact h h2
    split_ifs <;> exact ⟨rfl, hlast _ _ _ _⟩

/-- C15, the failing inputs: with `--uv-swap=0` on an NV21 source, CPU-side swap on
exchanges the chroma pairs (on the CPU, shader toggle 0) while CPU-side swap off does not
(no CPU exchange, shader toggle 0); with `--uv-swap=1` on an NV12 source, CPU-side swap on
exchanges nothing while CPU-side swap off exchanges in the shader. -/
theorem cpu_swap_ignores_override :
    net_exchange (with_cpu_swap { default_options with opt_uv_swap_override := 0 } true)
      sample_env 1920 1080 V4L2_PIX_FMT_NV21 = true ∧
    net_exchange (with_cpu_swap { default_options with opt_uv_swap_override := 0 } false)
      sample_env 1920 1080 V4L2_PIX_FMT_NV21 = false ∧
    net_exchange (with_cpu_swap { default_options with opt_uv_swap_override := 1 } true)
      sample_env 1920 1080 V4L2_PIX_FMT_NV12 = false ∧
    net_exchange (with_cpu_swap { default_options with opt_uv_swap_override := 1 } false)
      sample_env 1920 1080 V4L2_PIX_FMT_NV12 = true := by
  decide

/-- Where C15 holds: with the override on auto and a shader that has the `uv_swap`
uniform, for every pixel format and frame size the net exchange of a frame drawn after
startup is the same with CPU-side swap on as with CPU-side swap off. -/
theorem net_exchange_same_on_auto (opts : Options) (env : Env) (w h pf : Nat)
    (hauto : opts.opt_uv_swap_override < 0) (hloc : env.loc_uv_swap ≥ 0) :
    net_exchange (with_cpu_swap opts true) env w h pf =
      net_exchange (with_cpu_swap opts false) env w h pf := by
  have h1 : ¬ opts.opt_uv_swap_override ≥ 0 := by omega
  have hne : V4L2_PIX_FMT_NV12 ≠ V4L2_PIX_FMT_NV21 := by decide
  unfold net_exchange cpu_exchange_performed shader_exchange draw_frame initial_state
    initial_uv_swap with_cpu_swap
  simp only [h1, hloc, if_false, if_true, Bool.true_and, Bool.false_and, not_true_eq_false,
    false_and, not_false_eq_true, true_and, Bool.false_eq_true]
  by_cases hpf : pf = V4L2_PIX_FMT_NV21
  · subst hpf
    simp
  · by_cases hpf2 : pf = V4L2_PIX_FMT_NV12
    · subst hpf2
      simp [hne]
    · simp [hpf, hpf2]

/-! ## CPU swap path against non-swap path -/

/-- C16, the failing input: a 3 x 4 NV21 frame (chroma 1 x 2) in a two-plane buffer whose
chroma plane holds `1 2 3 4 5 6`. The non-swap path uploads the first four bytes, read
tightly packed, `1 2 3 4`; with the pairs exchanged that is `2 1 4 3`. The CPU-swap path
uploads `2 1 5 4`: it reads the second chroma row at offset `cur_width = 3`. -/
theorem cpu_swap_path_odd_width :
    uploaded_chroma (upload_frame (with_cpu_swap default_options false) two_plane_env
      sample_mem 0 2 0
      (initial_state (with_cpu_swap default_options false) two_plane_env 3 4
        V4L2_PIX_FMT_NV21)) = some [1, 2, 3, 4] ∧
    exchange_pairs [1, 2, 3, 4] = [2, 1, 4, 3] ∧
    uploaded_chroma (upload_frame (with_cpu_swap default_options true) two_plane_env
      sample_mem 0 2 0
      (initial_state (with_cpu_swap default_options true) two_plane_env 3 4
        V4L2_PIX_FMT_NV21)) = some [2, 1, 5, 4] := by
  decide

theorem exchange_pairs_length : ∀ l : List Byte, (exchange_pairs l).length = l.length
  | [] => rfl
  | [_] => rfl
  | _ :: _ :: rest => by
    rw [exchange_pairs, List.length_cons, List.length_cons, exchange_pairs_length rest,
      List.length_cons, List.length_cons]

theorem readBuf_exchange_pairs : ∀ (l : List Byte) (k : Nat), 2 * k + 1 < l.length →
    readBuf (exchange_pairs l) (2 * k) = readBuf l (2 * k + 1) ∧
    readBuf (exchange_pairs l) (2 * k + 1) = readBuf l (2 * k)
  | [], k, h => by simp at h
  | [_], k, h => by simp at h
  | a :: b :: rest, 0, _ => by simp [exchange_pairs, readBuf]
  | a :: b :: rest, k + 1, h => by
    have hk : 2 * k + 1 < rest.length := by
      simp only [List.length_cons] at h; omega
    have ih := readBuf_exchange_pairs rest k hk
    have e1 : 2 * (k + 1) = 2 * k + 1 + 1 := by omega
    have e2 : 2 * (k + 1) + 1 = 2 * k + 1 + 1 + 1 := by omega
    unfold readBuf at ih ⊢
    rw [exchange_pairs, e2, e1]
    simp only [List.getD_cons_succ]
    exact ih

/-- Where C16 holds: for an even frame width, every frame height (chroma height
`upload_h`), every chroma plane and any prior scratch contents, the bytes the CPU-swap
loop of the NV12/NV21 branch produces are the first `upload_w * upload_h * 2` bytes of the
chroma plane, read tightly packed, with the two bytes of every pair exchanged. -/
theorem cpu_swap_path_even_width (cur_width upload_h : Nat) (uvbase : Nat → Byte)
    (tmp : List Byte) (heven : cur_width % 2 = 0) :
    (cpu_uv_swap true cur_width (cur_width / 2) upload_h uvbase tmp).take
        (cur_width / 2 * upload_h * 2) =
      exchange_pairs (buildBuf (cur_width / 2 * upload_h * 2) uvbase) := by
  have hcw : cur_width = cur_width / 2 * 2 := by omega
  generalize cur_width / 2 = uw at hcw
  rw [cpu_uv_swap_eq]
  simp only [if_true]
  have hg := grown_length tmp (uw * upload_h * 2)
  have hcomm : upload_h * uw * 2 = uw * upload_h * 2 := by ring
  apply buf_ext
  · rw [List.length_take, swap_rows_length, exchange_pairs_length, buildBuf_length]
    omega
  · intro j hj
    rw [List.length_take, swap_rows_length] at hj
    have hj2 : j < uw * upload_h * 2 := by omega
    obtain ⟨y, x, p, hy, hx, hp, rfl⟩ := pair_offset j uw upload_h hj2
    have hin := swap_rows_inside uvbase cur_width uw upload_h
      (if tmp.length < uw * upload_h * 2 then resize tmp (uw * upload_h * 2) else tmp)
      (by omega) y x hy hx
    have hk : y * uw * 2 + (x * 2 + 0) = 2 * (y * uw + x) := by ring
    have hk1 : y * uw * 2 + (x * 2 + 1) = 2 * (y * uw + x) + 1 := by ring
    have hs0 : y * cur_width + (x * 2 + 0) = 2 * (y * uw + x) := by
      rw [hcw]; ring
    have hs1 : y * cur_width + (x * 2 + 1) = 2 * (y * uw + x) + 1 := by
      rw [hcw]; ring
    have hrow : (y + 1) * uw * 2 ≤ upload_h * uw * 2 :=
      Nat.mul_le_mul_right _ (Nat.mul_le_mul_right _ (by omega))
    have hrow1 : (y + 1) * uw * 2 = y * uw * 2 + 2 * uw := by ring
    have hex := readBuf_exchange_pairs (buildBuf (uw * upload_h * 2) uvbase) (y * uw + x)
      (by rw [buildBuf_length]; omega)
    rw [readBuf_buildBuf, readBuf_buildBuf, if_pos (by omega), if_pos (by omega)] at hex
    rw [readBuf_take _ _ _ hj2]
    rcases Nat.eq_zero_or_pos p with hp0 | hp0
    · subst hp0
      rw [hin.1, hs1, hk, hex.1]
    · have hp1 : p = 1 := by omega
      subst hp1
      rw [hin.2, hs0, hk1, hex.2]

/-! ## Loop control with the reads of the mapped planes checked -/

theorem upload_frame_checked_eq_some (opts : Options) (env : Env) (mem : Nat → Byte)
    (index length bytesused0 : Nat) (st s : LoopState)
    (h : upload_frame_checked opts env mem index length bytesused0 st = some s) :
    s = upload_frame opts env mem index length bytesused0 st := by
  unfold upload_frame_checked at h
  split_ifs at h
  exact (Option.some.inj h).symm

/-- The checked iteration completes exactly when every range it reads is readable, and it
then gives what `loop_iteration` gives. -/
theorem loop_iteration_checked_eq (opts : Options) (env : Env) (inp : IterInput)
    (st : LoopState) :
    loop_iteration_checked opts env inp st =
      if (iteration_reads opts env inp st).all (fun r => readable env.buffers r.1 r.2) then
        some (loop_iteration opts env inp st)
      else none := by
  by_cases he : inp.poll = PollResult.eintr
  · unfold loop_iteration_checked loop_iteration iteration_reads
    rw [he]
    simp
  · by_cases hr : inp.poll = PollResult.error
    · unfold loop_iteration_checked loop_iteration iteration_reads
      rw [hr]
      simp
    · rw [loop_iteration_from_dequeue opts env inp st ⟨he, hr⟩]
      have hchk : loop_iteration_checked opts env inp st =
          match inp.dqbuf with
          | DqbufResult.again =>
            some ({ state_before_dequeue opts env inp st with
              frame_count := ((state_before_dequeue opts env inp st).frame_count + 1) % 2 ^ 64 },
              false)
          | DqbufResult.error => some (state_before_dequeue opts env inp st, true)
          | DqbufResult.ok index length bytesused0 =>
            match upload_frame_checked opts env inp.mem index length bytesused0
                (state_before_dequeue opts env inp st) with
            | none => none
            | some st3 =>
              if inp.requeue_ok then
                some ({ handle_sdl_events inp.sdl_events
                    { draw_frame opts env st3 with
                      calls := (draw_frame opts env st3).calls ++ [Call.VIDIOC_QBUF index] } with
                  frame_count := ((handle_sdl_events inp.sdl_events
                    { draw_frame opts env st3 with
                      calls := (draw_frame opts env st3).calls ++
                        [Call.VIDIOC_QBUF index] }).frame_count + 1) % 2 ^ 64 }, false)
              else some (draw_frame opts env st3, true) := by
        unfold loop_iteration_checked state_before_dequeue
        cases hp : inp.poll with
        | eintr => exact absurd hp he
        | error => exact absurd hp hr
        | timeout => rfl
        | ready pollpri => rfl
      have hreads : iteration_reads opts env inp st =
          match inp.dqbuf with
          | DqbufResult.ok index length bytesused0 =>
            frame_reads opts env index length bytesused0 (state_before_dequeue opts env inp st)
          | _ => [] := by
        unfold iteration_reads
        cases hp : inp.poll with
        | eintr => exact absurd hp he
        | error => exact absurd hp hr
        | timeout => rfl
        | ready pollpri => rfl
      rw [hchk, hreads]
      cases hd : inp.dqbuf with
      | again => simp
      | error => simp
      | ok index length bytesused0 =>
        dsimp only
        unfold upload_frame_checked
        split_ifs <;> rfl

/-- C12, the failing input: startup on 1920 x 1080 NV12 with a single-plane buffer mapped
with the size of such a frame, 3110400 bytes. The wait reports a readable device, buffer 0
is dequeued with 0 bytes used (fewer than the 3110400 a frame needs), the requeue would
succeed and no quit or Escape input is pending: none of the four causes occurs. The frame
takes the packed fallback, whose copy loop reads `3 * 1920 * 1080 = 6220800` bytes from
the plane; the range is not readable and the iteration does not complete, where an
iteration that completes on this input leaves the loop running. -/
theorem short_frame_faults_iteration :
    (initial_state default_options nv12_env 1920 1080 V4L2_PIX_FMT_NV12).running = true ∧
    total_expected V4L2_PIX_FMT_NV12 1920 1080 = 3110400 ∧
    (plane_layout nv12_env.buffers 0 1 0 V4L2_PIX_FMT_NV12 1920 1080).uvbase = 0 ∧
    iteration_reads default_options nv12_env (frame_input 0)
        (initial_state default_options nv12_env 1920 1080 V4L2_PIX_FMT_NV12) =
      [(4096, 2073600), (4096, 6220800)] ∧
    readable nv12_env.buffers 4096 2073600 = true ∧
    readable nv12_env.buffers 4096 6220800 = false ∧
    (loop_iteration_checked default_options nv12_env (frame_input 0)
      (initial_state default_options nv12_env 1920 1080 V4L2_PIX_FMT_NV12)).isNone = true ∧
    (loop_iteration default_options nv12_env (frame_input 0)
      (initial_state default_options nv12_env 1920 1080 V4L2_PIX_FMT_NV12)).2 = false ∧
    (loop_iteration default_options nv12_env (frame_input 0)
      (initial_state default_options nv12_env 1920 1080 V4L2_PIX_FMT_NV12)).1.running =
      true := by
  decide

/-- Where C12 holds: an iteration entered with `running` set whose reads all lie inside
the mapped planes completes, and it ends the loop if and only if the readiness wait fails
with an error other than an interrupted call, or the dequeue fails with an error other
than not-ready, or the requeue of the dequeued buffer fails, or a quit or Escape input is
processed. -/
theorem loop_iteration_checked_ends_iff (opts : Options) (env : Env) (inp : IterInput)
    (st : LoopState) (hrun : st.running = true)
    (hread : ∀ r ∈ iteration_reads opts env inp st, readable env.buffers r.1 r.2 = true) :
    ∃ r, loop_iteration_checked opts env inp st = some r ∧
      (loop_ends r ↔
        inp.poll = PollResult.error ∨
        (inp.poll ≠ PollResult.eintr ∧ inp.poll ≠ PollResult.error ∧
          (inp.dqbuf = DqbufResult.error ∨
            ∃ index length bytesused0, inp.dqbuf = DqbufResult.ok index length bytesused0 ∧
              (inp.requeue_ok = false ∨ ∃ e ∈ inp.sdl_events, e.is_quit = true)))) := by
  refine ⟨loop_iteration opts env inp st, ?_, (loop_iteration_ends_iff opts env inp st hrun).1⟩
  rw [loop_iteration_checked_eq, if_pos]
  rw [List.all_eq_true]
  exact hread

/-- An iteration that does not dequeue a buffer reads nothing from the mapped planes and
always completes. -/
theorem loop_iteration_checked_without_frame (opts : Options) (env : Env) (inp : IterInput)
    (st : LoopState)
    (h : inp.poll = PollResult.eintr ∨ inp.poll = PollResult.error ∨
      inp.dqbuf = DqbufResult.again ∨ inp.dqbuf = DqbufResult.error) :
    loop_iteration_checked opts env inp st = some (loop_iteration opts env inp st) := by
  rw [loop_iteration_checked_eq, if_pos]
  have : iteration_reads opts env inp st = [] := by
    unfold iteration_reads
    rcases h with h | h | h | h
    · rw [h]
    · rw [h]
    · rw [h]; cases inp.poll <;> rfl
    · rw [h]; cases inp.poll <;> rfl
  rw [this]
  rfl

/-- The packed fallback on a plane it can read: the pool is mapped for 1920 x 1080 NV24
(6220800 bytes per plane), the format at startup; the periodic check of the first
iteration adopts 1920 x 1080 NV12 and the dequeued buffer reports 0 bytes used. Every read
lies inside the plane, the iteration completes and leaves the loop running, the surfaces
are allocated 1920 x 1080 and 960 x 540, and the one chroma rectangle uploaded is
1920 x 1080. -/
theorem fallback_chroma_rect_on_readable_plane :
    (loop_iteration_checked default_options nv24_env
        { frame_input 0 with periodic_fmt := some ⟨1920, 1080, V4L2_PIX_FMT_NV12⟩ }
        (initial_state default_options nv24_env 1920 1080 V4L2_PIX_FMT_NV24)).map
      (fun r => (r.2, r.1.running, allocated r.1.calls,
        r.1.calls.filterMap Call.chroma_dims)) =
      some (false, true, some ((1920, 1080), (960, 540)), [(1920, 1080)]) := by
  rfl

end HdmiDisplay
